import Mathlib

/-!
# Verification of an ext2 filesystem driver

This development embeds the core of an ext2 image driver (files
`systemOp.c`, `commands.c`, `headers.h`) into Lean and proves properties
of its data structures and operations: the bitmap primitives, the
inode/block allocator, the directory-entry engine, the file reader over
the direct/indirect pointer tree, the path resolver, and the high-level
shell commands.

Conventions of the embedding:
* machine integers are modelled as `Nat`, with an explicit `% 2 ^ w`
  wherever the C code can overflow a `uint8_t`/`uint16_t`/`uint32_t`;
* a disk block is a `List Nat` of byte values; the disk itself is a
  total function from block number to block content (device-level I/O
  failures are not modelled — every positioned read and write of an
  in-range block is assumed to transfer fully, as the driver itself
  treats partial transfers as fatal);
* the inode table is modelled as a map from inode number to inode
  record, mirroring `ler_inode`/`escrever_inode`, which are the only
  functions that touch inode-table bytes;
* C loops that walk a block by byte offset are written as
  fuel-indexed recursions; the fuel is chosen so large (one unit per
  byte of the block) that it can never be exhausted by the loop, whose
  offset strictly increases while below the block size.
-/

/-! ## Bitmap primitives (`bit_esta_setado`, `setar_bit`, `limpar_bit`)

The C code addresses bit `i` of a byte-packed bitmap as bit `i % 8` of
byte `i / 8`, with masks built by `1 << (i % 8)`.  `limpar_bit` uses
`byte &= ~mask`; on a byte value this is `byte &&& (255 ^^^ mask)`. -/

def bit_esta_setado (bitmap : List Nat) (bit_idx : Nat) : Bool :=
  (bitmap.getD (bit_idx / 8) 0) &&& (1 <<< (bit_idx % 8)) ≠ 0

def setar_bit (bitmap : List Nat) (bit_idx : Nat) : List Nat :=
  bitmap.set (bit_idx / 8) ((bitmap.getD (bit_idx / 8) 0) ||| (1 <<< (bit_idx % 8)))

def limpar_bit (bitmap : List Nat) (bit_idx : Nat) : List Nat :=
  bitmap.set (bit_idx / 8) ((bitmap.getD (bit_idx / 8) 0) &&& (255 ^^^ (1 <<< (bit_idx % 8))))

theorem bit_esta_setado_eq_testBit (bm : List Nat) (i : Nat) :
    bit_esta_setado bm i = (bm.getD (i / 8) 0).testBit (i % 8) := by
  unfold bit_esta_setado
  rw [show (1 : Nat) <<< (i % 8) = 2 ^ (i % 8) by rw [Nat.shiftLeft_eq, one_mul],
    Nat.and_two_pow]
  rcases h : (bm.getD (i / 8) 0).testBit (i % 8) with _ | _ <;> simp [h]

theorem length_setar_bit (bm : List Nat) (i : Nat) :
    (setar_bit bm i).length = bm.length := by
  simp [setar_bit]

theorem length_limpar_bit (bm : List Nat) (i : Nat) :
    (limpar_bit bm i).length = bm.length := by
  simp [limpar_bit]

theorem getD_setar_bit_eq (bm : List Nat) (i : Nat) (h : i / 8 < bm.length) :
    (setar_bit bm i).getD (i / 8) 0
      = (bm.getD (i / 8) 0) ||| (1 <<< (i % 8)) := by
  simp [setar_bit, List.getD_eq_getElem?_getD, List.getElem?_set_self', h,
    List.getElem?_eq_getElem]

theorem getD_limpar_bit_eq (bm : List Nat) (i : Nat) (h : i / 8 < bm.length) :
    (limpar_bit bm i).getD (i / 8) 0
      = (bm.getD (i / 8) 0) &&& (255 ^^^ (1 <<< (i % 8))) := by
  simp [limpar_bit, List.getD_eq_getElem?_getD, List.getElem?_set_self', h,
    List.getElem?_eq_getElem]

theorem getD_set_ne (bm : List Nat) (j : Nat) (v : Nat) (k : Nat) (hk : k ≠ j) :
    (bm.set j v).getD k 0 = bm.getD k 0 := by
  simp [List.getD_eq_getElem?_getD, List.getElem?_set_ne hk.symm]

/-- **C9.** Bitmap primitive algebra with frame condition: for an in-bounds
index `i`, the bit reads as set immediately after `setar_bit` and as clear
immediately after `limpar_bit`, and both operations leave every other bit
index `k ≠ i` unchanged. -/
theorem bitmap_primitivas_corretas (bm : List Nat) (i k : Nat)
    (hi : i / 8 < bm.length) (hk : k ≠ i) :
    bit_esta_setado (setar_bit bm i) i = true ∧
    bit_esta_setado (limpar_bit bm i) i = false ∧
    bit_esta_setado (setar_bit bm i) k = bit_esta_setado bm k ∧
    bit_esta_setado (limpar_bit bm i) k = bit_esta_setado bm k := by
  have hmask : (1 : Nat) <<< (i % 8) = 2 ^ (i % 8) := by
    rw [Nat.shiftLeft_eq, one_mul]
  have h255 : Nat.testBit 255 (i % 8) = true := by
    rw [show (255 : Nat) = 2 ^ 8 - 1 from rfl, Nat.testBit_two_pow_sub_one]
    simp [Nat.mod_lt i (show 0 < 8 by norm_num)]
  have h255k : Nat.testBit 255 (k % 8) = true := by
    rw [show (255 : Nat) = 2 ^ 8 - 1 from rfl, Nat.testBit_two_pow_sub_one]
    simp [Nat.mod_lt k (show 0 < 8 by norm_num)]
  refine ⟨?_, ?_, ?_, ?_⟩
  · rw [bit_esta_setado_eq_testBit, getD_setar_bit_eq bm i hi, hmask]
    simp [Nat.testBit_two_pow_self]
  · rw [bit_esta_setado_eq_testBit, getD_limpar_bit_eq bm i hi, hmask]
    simp [h255, Nat.testBit_two_pow_self]
  · rw [bit_esta_setado_eq_testBit, bit_esta_setado_eq_testBit]
    by_cases hb : k / 8 = i / 8
    · have hbit : k % 8 ≠ i % 8 := by omega
      rw [hb, getD_setar_bit_eq bm i hi, hmask]
      simp [Nat.testBit_two_pow_of_ne (Ne.symm hbit)]
    · rw [setar_bit, getD_set_ne bm (i / 8) _ (k / 8) hb]
  · rw [bit_esta_setado_eq_testBit, bit_esta_setado_eq_testBit]
    by_cases hb : k / 8 = i / 8
    · have hbit : k % 8 ≠ i % 8 := by omega
      rw [hb, getD_limpar_bit_eq bm i hi, hmask]
      simp [h255k, Nat.testBit_two_pow_of_ne (Ne.symm hbit)]
    · rw [limpar_bit, getD_set_ne bm (i / 8) _ (k / 8) hb]

/-- Witness for C9 at a concrete bitmap and indices. -/
theorem bitmap_primitivas_corretas_witness :
    (2 : Nat) / 8 < ([0, 0] : List Nat).length ∧ (5 : Nat) ≠ 2 ∧
    (bit_esta_setado (setar_bit [0, 0] 2) 2 = true ∧
     bit_esta_setado (limpar_bit [0, 0] 2) 2 = false ∧
     bit_esta_setado (setar_bit [0, 0] 2) 5 = bit_esta_setado [0, 0] 5 ∧
     bit_esta_setado (limpar_bit [0, 0] 2) 5 = bit_esta_setado [0, 0] 5) :=
  ⟨by decide, by decide, bitmap_primitivas_corretas [0, 0] 2 5 (by decide) (by decide)⟩

/-! ## On-disk structures (`headers.h`)

Only the fields the modelled operations read or write are carried.
`superbloco` and `group_desc` are kept as the driver keeps them: an
in-memory copy that is authoritative for the session
(`escrever_superbloco` / `escrever_descritor_grupo` persist them to the
image; the driver never re-reads them, so persistence is modelled as a
no-op on the state). -/

structure superbloco where
  inodes_count : Nat
  blocks_count : Nat
  free_blocks_count : Nat
  free_inodes_count : Nat
  first_data_block : Nat
  log_block_size : Nat
  blocks_per_group : Nat
  inodes_per_group : Nat
  rev_level : Nat
  inode_size : Nat
deriving DecidableEq

structure group_desc where
  block_bitmap : Nat
  inode_bitmap : Nat
  inode_table : Nat
  free_blocks_count : Nat
  free_inodes_count : Nat
  used_dirs_count : Nat
deriving DecidableEq

structure inode where
  mode : Nat
  uid : Nat
  size : Nat
  atime : Nat
  ctime : Nat
  mtime : Nat
  dtime : Nat
  gid : Nat
  links_count : Nat
  blocks : Nat
  flags : Nat
  block : List Nat
deriving DecidableEq

def EXT2_ROOT_INO : Nat := 2
def EXT2_NAME_LEN : Nat := 255
def EXT2_S_IFREG : Nat := 0x8000
def EXT2_S_IFDIR : Nat := 0x4000
def EXT2_FT_REG_FILE : Nat := 1
def EXT2_FT_DIR : Nat := 2

def EXT2_IS_REG (mode : Nat) : Bool := mode &&& 0xF000 = EXT2_S_IFREG
def EXT2_IS_DIR (mode : Nat) : Bool := mode &&& 0xF000 = EXT2_S_IFDIR

/-- `calcular_tamanho_do_bloco`: `1024 << log_block_size`. -/
def calcular_tamanho_do_bloco (sb : superbloco) : Nat :=
  1024 <<< sb.log_block_size

/-- A disk is a total map from block number to block content (bytes).
I/O failures of `ler_bloco`/`escrever_bloco` are not modelled. -/
abbrev Disco := Nat → List Nat

/-- A disk is well formed when every block holds exactly `block_size` bytes. -/
def DiscoBemFormado (sb : superbloco) (d : Disco) : Prop :=
  ∀ n, (d n).length = calcular_tamanho_do_bloco sb

/-- Little-endian `uint32` read, as done by casting a block buffer to
`uint32_t*`: pointer `i` of a pointer block is the 4 bytes at offset `4*i`. -/
def lerU32 (bytes : List Nat) (off : Nat) : Nat :=
  bytes.getD off 0 + 256 * bytes.getD (off + 1) 0 +
    65536 * bytes.getD (off + 2) 0 + 16777216 * bytes.getD (off + 3) 0

/-- The `ponteiros_por_bloco = block_size / 4` pointers stored in a block. -/
def lerPonteiros (bytes : List Nat) (n : Nat) : List Nat :=
  (List.range n).map (fun i => lerU32 bytes (4 * i))

/-! ## File reader (`ler_conteudo_arquivo`, claims C3 and C6)

`copiar_bloco_de_dados` skips block number 0 and stops contributing once
`size` bytes are accumulated; otherwise it appends
`min(block_size, size - already_read)` bytes of the block.  The reader
walks the 12 direct pointers, then the single-, double- and
triple-indirect trees, skipping zero indirect pointers with `continue`
and guarding each level with `bytes_lidos < size`. -/

def copiar_bloco_de_dados (sb : superbloco) (d : Disco) (num_bloco : Nat)
    (size : Nat) (acc : List Nat) : List Nat :=
  if num_bloco = 0 ∨ size ≤ acc.length then acc
  else
    let bs := calcular_tamanho_do_bloco sb
    let bpc := if size < acc.length + bs then size - acc.length else bs
    acc ++ (d num_bloco).take bpc

def ler_conteudo_arquivo (sb : superbloco) (d : Disco) (file_ino : inode) :
    List Nat :=
  if file_ino.size = 0 then []
  else
    let bs := calcular_tamanho_do_bloco sb
    let ppb := bs / 4
    let sz := file_ino.size
    let acc := (List.range 12).foldl
      (fun a i => copiar_bloco_de_dados sb d (file_ino.block.getD i 0) sz a) []
    let acc := if acc.length < sz ∧ file_ino.block.getD 12 0 ≠ 0 then
        (lerPonteiros (d (file_ino.block.getD 12 0)) ppb).foldl
          (fun a p => copiar_bloco_de_dados sb d p sz a) acc
      else acc
    let acc := if acc.length < sz ∧ file_ino.block.getD 13 0 ≠ 0 then
        (lerPonteiros (d (file_ino.block.getD 13 0)) ppb).foldl
          (fun a p =>
            if p = 0 then a
            else (lerPonteiros (d p) ppb).foldl
              (fun a2 q => copiar_bloco_de_dados sb d q sz a2) a) acc
      else acc
    let acc := if acc.length < sz ∧ file_ino.block.getD 14 0 ≠ 0 then
        (lerPonteiros (d (file_ino.block.getD 14 0)) ppb).foldl
          (fun a p =>
            if sz ≤ a.length then a
            else if p = 0 then a
            else (lerPonteiros (d p) ppb).foldl
              (fun a2 q =>
                if sz ≤ a2.length then a2
                else if q = 0 then a2
                else (lerPonteiros (d q) ppb).foldl
                  (fun a3 r => copiar_bloco_de_dados sb d r sz a3) a2) a) acc
      else acc
    acc

/-- The data-block numbers the reader visits, in logical order: 12 direct
slots, then the decoded single-, double- and triple-indirect trees.  Zero
pointers at the data level are kept (the reader skips them one by one);
zero pointers at indirect levels drop the subtree below them, exactly as
the `continue` statements do. -/
def fluxo_de_blocos (sb : superbloco) (d : Disco) (file_ino : inode) :
    List Nat :=
  let bs := calcular_tamanho_do_bloco sb
  let ppb := bs / 4
  (List.range 12).map (fun i => file_ino.block.getD i 0) ++
  (if file_ino.block.getD 12 0 ≠ 0 then
      lerPonteiros (d (file_ino.block.getD 12 0)) ppb
    else []) ++
  (if file_ino.block.getD 13 0 ≠ 0 then
      (lerPonteiros (d (file_ino.block.getD 13 0)) ppb).flatMap
        (fun p => if p = 0 then [] else lerPonteiros (d p) ppb)
    else []) ++
  (if file_ino.block.getD 14 0 ≠ 0 then
      (lerPonteiros (d (file_ino.block.getD 14 0)) ppb).flatMap
        (fun p => if p = 0 then []
          else (lerPonteiros (d p) ppb).flatMap
            (fun q => if q = 0 then [] else lerPonteiros (d q) ppb))
    else [])

/-- The byte stream the reader draws from: the concatenation of the blocks
at the nonzero pointers of `fluxo_de_blocos`. -/
def fluxo_de_dados (sb : superbloco) (d : Disco) (file_ino : inode) :
    List Nat :=
  (fluxo_de_blocos sb d file_ino).flatMap (fun p => if p = 0 then [] else d p)

/-! ### The reader computes the size-truncated data stream -/

theorem copiar_bloco_eq (sb : superbloco) (d : Disco) (nb sz : Nat)
    (acc : List Nat) (hwf : DiscoBemFormado sb d) :
    copiar_bloco_de_dados sb d nb sz acc
      = acc ++ ((if nb = 0 then [] else d nb).take (sz - acc.length)) := by
  unfold copiar_bloco_de_dados
  by_cases h0 : nb = 0
  · simp [h0]
  · by_cases hsz : sz ≤ acc.length
    · simp [h0, hsz, Nat.sub_eq_zero_of_le hsz]
    · simp only [h0, hsz, or_self, or_false, if_neg, not_false_iff, if_false]
      by_cases hlt : sz < acc.length + calcular_tamanho_do_bloco sb
      · simp [hlt, h0]
      · have hbs : calcular_tamanho_do_bloco sb ≤ sz - acc.length := by omega
        simp only [hlt, if_false, h0]
        rw [List.take_of_length_le (by rw [hwf nb]),
          List.take_of_length_le (by rw [hwf nb]; exact hbs)]

theorem take_encadeado (sz : Nat) (acc C S : List Nat) :
    (acc ++ C.take (sz - acc.length))
        ++ S.take (sz - (acc ++ C.take (sz - acc.length)).length)
      = acc ++ (C ++ S).take (sz - acc.length) := by
  rw [List.take_append_eq_append_take, List.append_assoc]
  have h : sz - ((acc ++ C.take (sz - acc.length)).length)
      = (sz - acc.length) - C.length := by
    rw [List.length_append, List.length_take]; omega
  rw [h]

/-- Any fold whose body appends a per-pointer chunk truncated at `sz`
accumulates the truncated concatenation of the chunks. -/
theorem foldl_chunks (sz : Nat) (f : List Nat → Nat → List Nat)
    (g : Nat → List Nat)
    (hf : ∀ a p, f a p = a ++ (g p).take (sz - a.length)) :
    ∀ (ptrs : List Nat) (acc : List Nat),
      ptrs.foldl f acc = acc ++ (ptrs.flatMap g).take (sz - acc.length) := by
  intro ptrs
  induction ptrs with
  | nil => intro acc; simp
  | cons p rest ih =>
    intro acc
    rw [List.foldl_cons, hf, ih, List.flatMap_cons, take_encadeado]

theorem etapa_take (sz : Nat) (S T : List Nat) :
    S.take sz ++ T.take (sz - (S.take sz).length) = (S ++ T).take sz := by
  have h := take_encadeado sz [] S T
  simpa using h

theorem etapa_cheia (sz : Nat) (S T : List Nat) (h : sz ≤ (S.take sz).length) :
    S.take sz = (S ++ T).take sz := by
  rw [List.take_append_eq_append_take]
  have h2 : sz - S.length = 0 := by
    rw [List.length_take] at h; omega
  simp [h2]

theorem copiar_pointwise (sb : superbloco) (d : Disco) (sz : Nat)
    (hwf : DiscoBemFormado sb d) :
    ∀ (a : List Nat) (p : Nat),
      copiar_bloco_de_dados sb d p sz a
        = a ++ ((if p = 0 then [] else d p).take (sz - a.length)) :=
  fun a p => copiar_bloco_eq sb d p sz a hwf

theorem flatMap_ite (P : Prop) [Decidable P] (X Y : List Nat)
    (h : Nat → List Nat) :
    (if P then X else Y).flatMap h = if P then X.flatMap h else Y.flatMap h := by
  split <;> rfl

theorem etapa_geral (sz : Nat) (A T X : List Nat) (P : Prop) [Decidable P]
    (hX : X = A.take sz ++ T.take (sz - (A.take sz).length)) :
    (if (A.take sz).length < sz ∧ P then X else A.take sz)
      = (A ++ (if P then T else [])).take sz := by
  by_cases hp : P
  · rw [if_pos hp]
    by_cases hlen : (A.take sz).length < sz
    · rw [if_pos ⟨hlen, hp⟩, hX, etapa_take]
    · rw [if_neg (fun hc => hlen hc.1)]
      exact etapa_cheia sz A T (by omega)
  · rw [if_neg hp, if_neg (fun hc => hp hc.2)]
    simp

/-- The whole-file reader yields exactly the size-truncated concatenation
of the blocks at the nonzero pointers of its traversal. -/
theorem ler_conteudo_arquivo_eq_fluxo (sb : superbloco) (d : Disco)
    (ino : inode) (hwf : DiscoBemFormado sb d) :
    ler_conteudo_arquivo sb d ino = (fluxo_de_dados sb d ino).take ino.size := by
  by_cases hsz : ino.size = 0
  · simp [ler_conteudo_arquivo, hsz]
  · unfold ler_conteudo_arquivo fluxo_de_dados fluxo_de_blocos
    simp only [hsz, if_false]
    set bs := calcular_tamanho_do_bloco sb with hbs
    set ppb := bs / 4 with hppb
    set sz := ino.size with hszdef
    set h : Nat → List Nat := fun p => if p = 0 then [] else d p with hh
    set S1 : List Nat :=
      ((List.range 12).map (fun i => ino.block.getD i 0)).flatMap h with hS1
    set T2 : List Nat :=
      (lerPonteiros (d (ino.block.getD 12 0)) ppb).flatMap h with hT2
    set T3 : List Nat :=
      (lerPonteiros (d (ino.block.getD 13 0)) ppb).flatMap
        (fun p => if p = 0 then [] else (lerPonteiros (d p) ppb).flatMap h)
        with hT3
    set T4 : List Nat :=
      (lerPonteiros (d (ino.block.getD 14 0)) ppb).flatMap
        (fun p => if p = 0 then []
          else (lerPonteiros (d p) ppb).flatMap (fun q =>
            if q = 0 then [] else (lerPonteiros (d q) ppb).flatMap h))
        with hT4
    -- stage 1: the 12 direct pointers
    have hfold1 : (List.range 12).foldl
        (fun a i => copiar_bloco_de_dados sb d (ino.block.getD i 0) sz a) []
        = S1.take sz := by
      rw [← List.foldl_map (fun i => ino.block.getD i 0)
        (fun a p => copiar_bloco_de_dados sb d p sz a),
        foldl_chunks sz _ h (copiar_pointwise sb d sz hwf)]
      simp [hS1]
    -- generic level-1 fold
    have hfold_l1 : ∀ (ptrs : List Nat) (acc : List Nat),
        ptrs.foldl (fun a p => copiar_bloco_de_dados sb d p sz a) acc
          = acc ++ (ptrs.flatMap h).take (sz - acc.length) :=
      foldl_chunks sz _ h (copiar_pointwise sb d sz hwf)
    -- generic level-2 fold (double indirection)
    have hfold_l2 : ∀ (ptrs : List Nat) (acc : List Nat),
        ptrs.foldl (fun a p =>
            if p = 0 then a
            else (lerPonteiros (d p) ppb).foldl
              (fun a2 q => copiar_bloco_de_dados sb d q sz a2) a) acc
          = acc ++ (ptrs.flatMap (fun p =>
              if p = 0 then [] else (lerPonteiros (d p) ppb).flatMap h)).take
              (sz - acc.length) := by
      refine foldl_chunks sz _ _ (fun a p => ?_)
      by_cases hp : p = 0
      · simp [hp]
      · simp only [hp, if_false]
        rw [hfold_l1]
    -- inner guarded level-1 fold (inside triple indirection)
    have hfold_l1g : ∀ (ptrs : List Nat) (acc : List Nat),
        ptrs.foldl (fun a2 q =>
            if sz ≤ a2.length then a2
            else if q = 0 then a2
            else (lerPonteiros (d q) ppb).foldl
              (fun a3 r => copiar_bloco_de_dados sb d r sz a3) a2) acc
          = acc ++ (ptrs.flatMap (fun q =>
              if q = 0 then [] else (lerPonteiros (d q) ppb).flatMap h)).take
              (sz - acc.length) := by
      refine foldl_chunks sz _ _ (fun a q => ?_)
      by_cases hd : sz ≤ a.length
      · simp [hd, Nat.sub_eq_zero_of_le hd]
      · by_cases hq : q = 0
        · simp [hd, hq]
        · simp only [hd, hq, if_false]
          rw [hfold_l1]
    -- level-3 fold (triple indirection)
    have hfold_l3 : ∀ (ptrs : List Nat) (acc : List Nat),
        ptrs.foldl (fun a p =>
            if sz ≤ a.length then a
            else if p = 0 then a
            else (lerPonteiros (d p) ppb).foldl
              (fun a2 q =>
                if sz ≤ a2.length then a2
                else if q = 0 then a2
                else (lerPonteiros (d q) ppb).foldl
                  (fun a3 r => copiar_bloco_de_dados sb d r sz a3) a2) a) acc
          = acc ++ (ptrs.flatMap (fun p =>
              if p = 0 then []
              else (lerPonteiros (d p) ppb).flatMap (fun q =>
                if q = 0 then [] else (lerPonteiros (d q) ppb).flatMap h))).take
              (sz - acc.length) := by
      refine foldl_chunks sz _ _ (fun a p => ?_)
      by_cases hd : sz ≤ a.length
      · simp [hd, Nat.sub_eq_zero_of_le hd]
      · by_cases hp : p = 0
        · simp [hd, hp]
        · simp only [hd, hp, if_false]
          rw [hfold_l1g]
    -- chain the four stages
    rw [hfold1]
    rw [etapa_geral sz S1 T2 _ _ (hfold_l1 _ _)]
    rw [etapa_geral sz (S1 ++ (if ino.block.getD 12 0 ≠ 0 then T2 else []))
      T3 _ _ (hfold_l2 _ _)]
    rw [etapa_geral sz
      ((S1 ++ (if ino.block.getD 12 0 ≠ 0 then T2 else []))
        ++ (if ino.block.getD 13 0 ≠ 0 then T3 else []))
      T4 _ _ (hfold_l3 _ _)]
    congr 1
    simp only [List.flatMap_append, flatMap_ite, List.flatMap_assoc,
      List.flatMap_nil, hS1, hT2, hT3, hT4, List.append_assoc]

theorem flatMap_sem_zeros (d : Disco) :
    ∀ (l : List Nat), (∀ p ∈ l, p ≠ 0) →
      l.flatMap (fun p => if p = 0 then [] else d p) = l.flatMap d := by
  intro l
  induction l with
  | nil => intro _; rfl
  | cons p rest ih =>
    intro hall
    rw [List.flatMap_cons, List.flatMap_cons,
      if_neg (hall p (List.mem_cons_self p rest)),
      ih (fun q hq => hall q (List.mem_cons_of_mem p hq))]

theorem length_flatMap_blocos (d : Disco) (bs : Nat)
    (hd : ∀ n, (d n).length = bs) :
    ∀ (l : List Nat), (l.flatMap d).length = l.length * bs := by
  intro l
  induction l with
  | nil => simp
  | cons p rest ih =>
    rw [List.flatMap_cons, List.length_append, ih, hd p, List.length_cons]
    ring

/-- **C3.** For a regular-file inode whose pointer tree addresses at least
`⌈size / block_size⌉` data blocks (the first that many pointers of the
traversal are nonzero), `ler_conteudo_arquivo` returns exactly
`inode.size` bytes: the concatenation of those data blocks in logical
order (direct, then single-, double-, triple-indirect), truncated to
`size`; a file of size 0 yields an empty buffer. -/
theorem ler_conteudo_arquivo_retorna_size_bytes (sb : superbloco) (d : Disco)
    (ino : inode) (needed : Nat)
    (hwf : DiscoBemFormado sb d)
    (hreg : EXT2_IS_REG ino.mode = true)
    (hneeded : needed = (ino.size + calcular_tamanho_do_bloco sb - 1)
      / calcular_tamanho_do_bloco sb)
    (hlen : needed ≤ (fluxo_de_blocos sb d ino).length)
    (hnz : ∀ p ∈ (fluxo_de_blocos sb d ino).take needed, p ≠ 0) :
    ler_conteudo_arquivo sb d ino
      = (((fluxo_de_blocos sb d ino).take needed).flatMap d).take ino.size ∧
    (ler_conteudo_arquivo sb d ino).length = ino.size ∧
    (ino.size = 0 → ler_conteudo_arquivo sb d ino = []) := by
  have hfluxo := ler_conteudo_arquivo_eq_fluxo sb d ino hwf
  have hbs : 0 < calcular_tamanho_do_bloco sb := by
    unfold calcular_tamanho_do_bloco
    rw [Nat.shiftLeft_eq]
    positivity
  set bs := calcular_tamanho_do_bloco sb with hbsdef
  set L := fluxo_de_blocos sb d ino with hL
  set sz := ino.size with hsz
  -- size fits inside the first `needed` blocks
  have hfit : sz ≤ needed * bs := by
    rcases Nat.eq_zero_or_pos sz with h0 | h0
    · omega
    · have hdm := Nat.div_add_mod (sz + bs - 1) bs
      have hmlt : (sz + bs - 1) % bs < bs := Nat.mod_lt _ hbs
      have hq : needed * bs = bs * ((sz + bs - 1) / bs) := by
        rw [hneeded, Nat.mul_comm]
      omega
  -- the stream of the first `needed` blocks
  have htake_len : (L.take needed).length = needed := by
    rw [List.length_take]; omega
  have hA : (L.take needed).flatMap (fun p => if p = 0 then [] else d p)
      = (L.take needed).flatMap d := flatMap_sem_zeros d (L.take needed) hnz
  have hAlen : ((L.take needed).flatMap d).length = needed * bs := by
    rw [length_flatMap_blocos d bs hwf, htake_len]
  -- split the full stream after the first `needed` blocks
  have hfd : fluxo_de_dados sb d ino
      = L.flatMap (fun p => if p = 0 then [] else d p) := rfl
  have hsplit : fluxo_de_dados sb d ino
      = ((L.take needed).flatMap d)
        ++ ((L.drop needed).flatMap (fun p => if p = 0 then [] else d p)) := by
    rw [hfd]
    conv_lhs => rw [← List.take_append_drop needed L]
    rw [List.flatMap_append, hA]
  have hres : ler_conteudo_arquivo sb d ino
      = ((L.take needed).flatMap d).take sz := by
    rw [hfluxo, hsplit, List.take_append_eq_append_take,
      Nat.sub_eq_zero_of_le (by omega), List.take_zero, List.append_nil]
  refine ⟨hres, ?_, ?_⟩
  · rw [hres, List.length_take]
    omega
  · intro h0
    rw [hres, show sz = 0 from h0]
    simp

/-- Fixed concrete geometry: a 1024-byte-block filesystem. -/
def sb1024 : superbloco :=
  { inodes_count := 64, blocks_count := 64, free_blocks_count := 10,
    free_inodes_count := 10, first_data_block := 1, log_block_size := 0,
    blocks_per_group := 64, inodes_per_group := 16, rev_level := 1,
    inode_size := 128 }

/-- A disk whose every block is 1024 copies of byte 7. -/
def disco7 : Disco := fun _ => List.replicate 1024 7

/-- A 4-byte regular file whose first direct pointer is a hole (0) and
whose second direct pointer is block 17. -/
def ino_buraco : inode :=
  { mode := 0x8000, uid := 0, size := 4, atime := 0, ctime := 0, mtime := 0,
    dtime := 0, gid := 0, links_count := 1, blocks := 2, flags := 0,
    block := [0, 17, 0, 0, 0, 0, 0, 0, 0, 0, 0, 0, 0, 0, 0] }

/-- A 4-byte regular file stored in direct block 5. -/
def ino_direto : inode :=
  { mode := 0x8000, uid := 0, size := 4, atime := 0, ctime := 0, mtime := 0,
    dtime := 0, gid := 0, links_count := 1, blocks := 2, flags := 0,
    block := [5, 0, 0, 0, 0, 0, 0, 0, 0, 0, 0, 0, 0, 0, 0] }

theorem disco7_bem_formado : DiscoBemFormado sb1024 disco7 := by
  intro n
  show (List.replicate 1024 7).length = _
  rw [List.length_replicate]
  decide

/-- Witness for C3: the concrete 4-byte file in block 5 is read back as
exactly its 4 bytes. -/
theorem ler_conteudo_arquivo_retorna_size_bytes_witness :
    DiscoBemFormado sb1024 disco7 ∧
    EXT2_IS_REG ino_direto.mode = true ∧
    (1 : Nat) = (ino_direto.size + calcular_tamanho_do_bloco sb1024 - 1)
      / calcular_tamanho_do_bloco sb1024 ∧
    1 ≤ (fluxo_de_blocos sb1024 disco7 ino_direto).length ∧
    (∀ p ∈ (fluxo_de_blocos sb1024 disco7 ino_direto).take 1, p ≠ 0) ∧
    (ler_conteudo_arquivo sb1024 disco7 ino_direto
      = (((fluxo_de_blocos sb1024 disco7 ino_direto).take 1).flatMap
          disco7).take ino_direto.size ∧
     (ler_conteudo_arquivo sb1024 disco7 ino_direto).length = ino_direto.size ∧
     (ino_direto.size = 0 → ler_conteudo_arquivo sb1024 disco7 ino_direto = [])) :=
  ⟨disco7_bem_formado, by decide, by decide, by decide, by decide,
    ler_conteudo_arquivo_retorna_size_bytes sb1024 disco7 ino_direto 1
      disco7_bem_formado (by decide) (by decide) (by decide) (by decide)⟩

/-! ### Claim C6: zero pointers during traversal -/

/-- Stated from the spec's words for C6 ("a zero pointer at any level …
this driver treats it as end of stream"): under that reading the data
stream would be the blocks strictly before the first zero pointer of the
traversal. -/
def fluxo_com_fim_em_zero (sb : superbloco) (d : Disco) (ino : inode) :
    List Nat :=
  ((fluxo_de_blocos sb d ino).takeWhile (fun p => p ≠ 0)).flatMap d

/-- The scan of one pointer level performed by `comando_ls`: it stops at
the first zero pointer (`break`). -/
def ls_varre_nivel : List Nat → List Nat
  | [] => []
  | b :: rest => if b = 0 then [] else b :: ls_varre_nivel rest

/-- The double-indirect scan of `comando_ls`: a zero L1 pointer stops the
L1 walk; each L2 pointer block is scanned by `ls_varre_nivel`. -/
def ls_varre_l2 (d : Disco) (ppb : Nat) : List Nat → List Nat
  | [] => []
  | p :: rest => if p = 0 then []
      else ls_varre_nivel (lerPonteiros (d p) ppb) ++ ls_varre_l2 d ppb rest

/-- The data blocks whose entries `comando_ls` prints, in order: direct
pointers up to the first zero, then the single- and double-indirect
levels, each walked with `break` on a zero pointer. -/
def comando_ls_blocos (sb : superbloco) (d : Disco) (ino : inode) : List Nat :=
  let ppb := calcular_tamanho_do_bloco sb / 4
  ls_varre_nivel ((List.range 12).map (fun i => ino.block.getD i 0)) ++
  (if ino.block.getD 12 0 ≠ 0 then
      ls_varre_nivel (lerPonteiros (d (ino.block.getD 12 0)) ppb)
    else []) ++
  (if ino.block.getD 13 0 ≠ 0 then
      ls_varre_l2 d ppb (lerPonteiros (d (ino.block.getD 13 0)) ppb)
    else [])

/-- **C6 (counterexample).** In file read a zero pointer does *not* end
the data stream: for the concrete file with a hole at direct slot 0 and
data in direct slot 1, the reader returns the 4 bytes of block 17,
whereas the claim's end-of-stream reading predicts the empty result. -/
theorem leitura_nao_termina_em_ponteiro_zero :
    ler_conteudo_arquivo sb1024 disco7 ino_buraco = List.replicate 4 7 ∧
    (fluxo_com_fim_em_zero sb1024 disco7 ino_buraco).take ino_buraco.size
      = [] ∧
    ler_conteudo_arquivo sb1024 disco7 ino_buraco
      ≠ (fluxo_com_fim_em_zero sb1024 disco7 ino_buraco).take
          ino_buraco.size := by
  refine ⟨by decide, by decide, ?_⟩
  intro h
  have h1 : ler_conteudo_arquivo sb1024 disco7 ino_buraco
      = List.replicate 4 7 := by decide
  have h2 : (fluxo_com_fim_em_zero sb1024 disco7 ino_buraco).take
      ino_buraco.size = [] := by decide
  rw [h1, h2] at h
  exact absurd h (by decide)

/-- **C6 (amended).** During file read a zero pointer at any level is
skipped — it contributes no bytes, but later nonzero pointers still
contribute, so the result is the size-truncated concatenation of the
blocks at the nonzero pointers in traversal order.  During directory
iteration (`comando_ls`), a zero pointer terminates the scan of the
level below it: each level's walk is `takeWhile (≠ 0)`. -/
theorem ponteiros_zero_na_travessia (sb : superbloco) (d : Disco)
    (ino : inode) (ppb : Nat) (l : List Nat) (hwf : DiscoBemFormado sb d) :
    ler_conteudo_arquivo sb d ino = (fluxo_de_dados sb d ino).take ino.size ∧
    ls_varre_nivel l = l.takeWhile (fun b => b ≠ 0) ∧
    ls_varre_l2 d ppb l = (l.takeWhile (fun b => b ≠ 0)).flatMap
      (fun p => ls_varre_nivel (lerPonteiros (d p) ppb)) := by
  refine ⟨ler_conteudo_arquivo_eq_fluxo sb d ino hwf, ?_, ?_⟩
  · induction l with
    | nil => rfl
    | cons b rest ih =>
      by_cases hb : b = 0 <;> simp [ls_varre_nivel, List.takeWhile_cons, hb, ih]
  · induction l with
    | nil => rfl
    | cons p rest ih =>
      by_cases hp : p = 0 <;> simp [ls_varre_l2, List.takeWhile_cons, hp, ih]

/-- Witness for the amended C6 at the concrete hole file. -/
theorem ponteiros_zero_na_travessia_witness :
    DiscoBemFormado sb1024 disco7 ∧
    (ler_conteudo_arquivo sb1024 disco7 ino_buraco
        = (fluxo_de_dados sb1024 disco7 ino_buraco).take ino_buraco.size ∧
     ls_varre_nivel [4, 0, 9] = [4, 0, 9].takeWhile (fun b => b ≠ 0) ∧
     ls_varre_l2 disco7 256 [4, 0, 9]
        = ([4, 0, 9].takeWhile (fun b => b ≠ 0)).flatMap
            (fun p => ls_varre_nivel (lerPonteiros (disco7 p) 256))) :=
  ⟨disco7_bem_formado,
    ponteiros_zero_na_travessia sb1024 disco7 ino_buraco 256 [4, 0, 9]
      disco7_bem_formado⟩

/-! ## Directory-entry engine, per-block entry view (claim C2)

A directory data block is viewed as the sequence of entries obtained by
walking it from offset 0 advancing by `rec_len` (the parse the C code
performs on the block's bytes).  `nome` holds the `name_len` name bytes
of the record.  The in-block insertion of `adicionar_entrada_diretorio`
(split the trailing slack) and `remover_entrada_em_bloco` (coalesce into
the predecessor / tombstone the first entry) are translated on this
view; when the split writes a new trailing entry whose `rec_len` reaches
the block end, any entries that followed become unreachable to the walk,
so the result list ends there. -/

structure ext2_dir_entry where
  inode : Nat
  rec_len : Nat
  name_len : Nat
  file_type : Nat
  nome : List Nat
deriving DecidableEq

def TAMANHO_CABECALHO_ENTRADA_DIR : Nat := 8

/-- `x & ~3` on a nonnegative value: clear the two low bits. -/
def alinhar4 (x : Nat) : Nat := x / 4 * 4

/-- `(TAMANHO_CABECALHO_ENTRADA_DIR + name_len + 3) & ~3`, the true
footprint of an entry, as computed at each of the three slack checks. -/
def rec_len_real (name_len : Nat) : Nat :=
  alinhar4 (TAMANHO_CABECALHO_ENTRADA_DIR + name_len + 3)

/-- `uint16_t tam_nome_novo = strlen(nome_filho)` followed by
`rec_len_necessario = (TAMANHO_CABECALHO_ENTRADA_DIR + tam + 3) & ~3`
stored in a `uint16_t`. -/
def rec_len_necessario (nome_filho : List Nat) : Nat :=
  (alinhar4 (TAMANHO_CABECALHO_ENTRADA_DIR + nome_filho.length % 65536 + 3))
    % 65536

/-- The match test of the directory walks: entry in use, same length,
same first `name_len` bytes (`strncmp`). -/
def corresponde_nome (e : ext2_dir_entry) (nome : List Nat) : Bool :=
  e.inode ≠ 0 && e.name_len = nome.length && e.nome.take nome.length = nome

/-- In-block insertion walk of `adicionar_entrada_diretorio` (phase 1):
advance by `rec_len`, break on `rec_len == 0`; at the entry whose span
reaches the block boundary, split its slack if the new record fits.
`offset` is the byte offset of the head entry. -/
def inserir_em_bloco (tamanho_bloco : Nat) (inode_filho : Nat)
    (nome_filho : List Nat) (tipo_arquivo : Nat) :
    Nat → List ext2_dir_entry → Option (List ext2_dir_entry)
  | _, [] => none
  | offset, e :: rest =>
    if tamanho_bloco ≤ offset then none
    else if e.rec_len = 0 then none
    else if tamanho_bloco ≤ offset + e.rec_len then
      let rec_len_real_atual := rec_len_real e.name_len
      if rec_len_necessario nome_filho ≤ e.rec_len - rec_len_real_atual then
        let tam := nome_filho.length % 65536
        some [{ e with rec_len := rec_len_real_atual },
              { inode := inode_filho, rec_len := e.rec_len - rec_len_real_atual,
                name_len := tam % 256, file_type := tipo_arquivo,
                nome := nome_filho.take tam }]
      else
        (inserir_em_bloco tamanho_bloco inode_filho nome_filho tipo_arquivo
          (offset + e.rec_len) rest).map (fun l => e :: l)
    else
      (inserir_em_bloco tamanho_bloco inode_filho nome_filho tipo_arquivo
        (offset + e.rec_len) rest).map (fun l => e :: l)

/-- Tail of the removal walk of `remover_entrada_em_bloco`, carrying the
predecessor entry (`entry_anterior`); coalescing adds the removed
`rec_len` into the predecessor's `uint16_t` field. -/
def remover_apos (tamanho_bloco : Nat) (nome_filho : List Nat)
    (anterior : ext2_dir_entry) :
    Nat → List ext2_dir_entry → Option (List ext2_dir_entry)
  | _, [] => none
  | offset, e :: rest =>
    if tamanho_bloco ≤ offset then none
    else if e.rec_len = 0 then none
    else if corresponde_nome e nome_filho then
      some ({ anterior with
              rec_len := (anterior.rec_len + e.rec_len) % 65536 } :: rest)
    else
      (remover_apos tamanho_bloco nome_filho e (offset + e.rec_len) rest).map
        (fun l => anterior :: l)

/-- Removal walk of `remover_entrada_em_bloco`: the first entry, if it
matches, is tombstoned (`inode = 0`); later entries are coalesced into
their predecessor. -/
def remover_em_bloco (tamanho_bloco : Nat) (nome_filho : List Nat) :
    List ext2_dir_entry → Option (List ext2_dir_entry)
  | [] => none
  | e :: rest =>
    if tamanho_bloco = 0 then none
    else if e.rec_len = 0 then none
    else if corresponde_nome e nome_filho then some ({ e with inode := 0 } :: rest)
    else remover_apos tamanho_bloco nome_filho e (0 + e.rec_len) rest

/-- The per-block layout invariant of the spec: the `rec_len` fields sum
to `block_size`, and every `rec_len` is a multiple of 4 that covers at
least its entry's footprint `⌈(8 + name_len) / 4⌉ · 4`. -/
def InvarianteBloco (tamanho_bloco : Nat) (l : List ext2_dir_entry) : Prop :=
  (l.map (fun e => e.rec_len)).sum = tamanho_bloco ∧
  ∀ e ∈ l, e.rec_len % 4 = 0 ∧ rec_len_real e.name_len ≤ e.rec_len

instance (bs : Nat) (l : List ext2_dir_entry) :
    Decidable (InvarianteBloco bs l) := by
  unfold InvarianteBloco
  exact inferInstance

theorem rec_len_real_mod4 (n : Nat) : rec_len_real n % 4 = 0 := by
  unfold rec_len_real alinhar4 TAMANHO_CABECALHO_ENTRADA_DIR
  omega

theorem rec_len_real_ge8 (n : Nat) : 8 ≤ rec_len_real n := by
  unfold rec_len_real alinhar4 TAMANHO_CABECALHO_ENTRADA_DIR
  omega

theorem rec_len_necessario_eq_real (nome : List Nat)
    (h : nome.length ≤ EXT2_NAME_LEN) :
    rec_len_necessario nome = rec_len_real nome.length := by
  unfold rec_len_necessario rec_len_real alinhar4 TAMANHO_CABECALHO_ENTRADA_DIR
    EXT2_NAME_LEN at *
  omega

/-- If the walk is already at or past the block boundary, insertion
fails (the `while` condition exits the loop). -/
theorem inserir_em_bloco_none_de_offset (bs filho : Nat) (nome : List Nat)
    (tipo : Nat) (offset : Nat) (l : List ext2_dir_entry)
    (h : bs ≤ offset) :
    inserir_em_bloco bs filho nome tipo offset l = none := by
  cases l with
  | nil => rfl
  | cons e rest => rw [inserir_em_bloco, if_pos h]

theorem inserir_em_bloco_preserva_aux (bs filho tipo : Nat) (nome : List Nat)
    (hnome : nome.length ≤ EXT2_NAME_LEN) :
    ∀ (l : List ext2_dir_entry) (offset : Nat) (l2 : List ext2_dir_entry),
      (l.map (fun e => e.rec_len)).sum + offset = bs →
      (∀ e ∈ l, e.rec_len % 4 = 0 ∧ rec_len_real e.name_len ≤ e.rec_len) →
      inserir_em_bloco bs filho nome tipo offset l = some l2 →
      (l2.map (fun e => e.rec_len)).sum + offset = bs ∧
      (∀ e ∈ l2, e.rec_len % 4 = 0 ∧ rec_len_real e.name_len ≤ e.rec_len) := by
  intro l
  induction l with
  | nil =>
    intro offset l2 _ _ h
    exact absurd h (by simp [inserir_em_bloco])
  | cons e rest ih =>
    intro offset l2 hsum hprops hins
    have hpe := hprops e (List.mem_cons_self e rest)
    have hrest : ∀ x ∈ rest, x.rec_len % 4 = 0 ∧ rec_len_real x.name_len ≤ x.rec_len :=
      fun x hx => hprops x (List.mem_cons_of_mem e hx)
    have hrl0 : ¬ e.rec_len = 0 := by
      have := rec_len_real_ge8 e.name_len; omega
    rw [List.map_cons, List.sum_cons] at hsum
    rw [inserir_em_bloco] at hins
    by_cases hoff : bs ≤ offset
    · rw [if_pos hoff] at hins; exact absurd hins (by simp)
    · rw [if_neg hoff, if_neg hrl0] at hins
      by_cases hlast : bs ≤ offset + e.rec_len
      · rw [if_pos hlast] at hins
        simp only [] at hins
        by_cases hfits :
            rec_len_necessario nome ≤ e.rec_len - rec_len_real e.name_len
        · rw [if_pos hfits] at hins
          have hl2 : l2 =
              [{ e with rec_len := rec_len_real e.name_len },
               { inode := filho,
                 rec_len := e.rec_len - rec_len_real e.name_len,
                 name_len := nome.length % 65536 % 256, file_type := tipo,
                 nome := nome.take (nome.length % 65536) }] := by
            cases hins; rfl
          -- the entries after the boundary entry contribute nothing
          have hrest0 : (rest.map (fun e => e.rec_len)).sum = 0 := by omega
          have hb : bs = offset + e.rec_len := by omega
          have hreal := hpe.2
          have hm4 := hpe.1
          have hnec : rec_len_necessario nome = rec_len_real nome.length :=
            rec_len_necessario_eq_real nome hnome
          have hlen1 : nome.length % 65536 = nome.length := by
            unfold EXT2_NAME_LEN at hnome; omega
          have hlen2 : nome.length % 65536 % 256 = nome.length := by
            unfold EXT2_NAME_LEN at hnome; omega
          subst hl2
          constructor
          · simp only [List.map_cons, List.map_nil, List.sum_cons,
              List.sum_nil]
            omega
          · intro x hx
            simp only [List.mem_cons, List.not_mem_nil, or_false] at hx
            rcases hx with rfl | rfl
            · exact ⟨rec_len_real_mod4 e.name_len, le_refl _⟩
            · dsimp only
              rw [hlen2]
              refine ⟨?_, ?_⟩
              · have h1 := rec_len_real_mod4 e.name_len
                have h2 := rec_len_real_mod4 nome.length
                omega
              · rw [hnec] at hfits; exact hfits
        · rw [if_neg hfits] at hins
          rw [inserir_em_bloco_none_de_offset bs filho nome tipo _ rest
            (by omega)] at hins
          exact absurd hins (by simp)
      · rw [if_neg hlast] at hins
        rcases hrec : inserir_em_bloco bs filho nome tipo (offset + e.rec_len)
            rest with _ | l2'
        · rw [hrec] at hins; exact absurd hins (by simp)
        · rw [hrec] at hins
          have hl2 : l2 = e :: l2' := by cases hins; rfl
          subst hl2
          obtain ⟨ihsum, ihprops⟩ := ih (offset + e.rec_len) l2'
            (by omega) hrest hrec
          constructor
          · simp only [List.map_cons, List.sum_cons]; omega
          · intro x hx
            rcases List.mem_cons.mp hx with rfl | hx
            · exact hpe
            · exact ihprops x hx

theorem remover_apos_preserva (bs : Nat) (nome : List Nat)
    (hbs : bs < 65536) :
    ∀ (l : List ext2_dir_entry) (anterior : ext2_dir_entry) (offset : Nat)
      (l2 : List ext2_dir_entry),
      (l.map (fun e => e.rec_len)).sum + offset = bs →
      anterior.rec_len ≤ offset →
      anterior.rec_len % 4 = 0 ∧
        rec_len_real anterior.name_len ≤ anterior.rec_len →
      (∀ e ∈ l, e.rec_len % 4 = 0 ∧ rec_len_real e.name_len ≤ e.rec_len) →
      remover_apos bs nome anterior offset l = some l2 →
      (l2.map (fun e => e.rec_len)).sum
          = anterior.rec_len + (l.map (fun e => e.rec_len)).sum ∧
      (∀ e ∈ l2, e.rec_len % 4 = 0 ∧ rec_len_real e.name_len ≤ e.rec_len) := by
  intro l
  induction l with
  | nil =>
    intro anterior offset l2 _ _ _ _ h
    exact absurd h (by simp [remover_apos])
  | cons e rest ih =>
    intro anterior offset l2 hsum hprev hpa hprops hrem
    have hpe := hprops e (List.mem_cons_self e rest)
    have hrest : ∀ x ∈ rest, x.rec_len % 4 = 0 ∧ rec_len_real x.name_len ≤ x.rec_len :=
      fun x hx => hprops x (List.mem_cons_of_mem e hx)
    have hrl0 : ¬ e.rec_len = 0 := by
      have := rec_len_real_ge8 e.name_len; omega
    rw [List.map_cons, List.sum_cons] at hsum
    rw [remover_apos] at hrem
    by_cases hoff : bs ≤ offset
    · rw [if_pos hoff] at hrem; exact absurd hrem (by simp)
    · rw [if_neg hoff, if_neg hrl0] at hrem
      by_cases hmatch : corresponde_nome e nome = true
      · rw [if_pos hmatch] at hrem
        have hl2 : l2 = { anterior with
            rec_len := (anterior.rec_len + e.rec_len) % 65536 } :: rest := by
          cases hrem; rfl
        subst hl2
        have hnowrap : anterior.rec_len + e.rec_len < 65536 := by omega
        constructor
        · simp only [List.map_cons, List.sum_cons, Nat.mod_eq_of_lt hnowrap]
          omega
        · intro x hx
          rcases List.mem_cons.mp hx with rfl | hx
          · dsimp only
            rw [Nat.mod_eq_of_lt hnowrap]
            exact ⟨by omega, by omega⟩
          · exact hrest x hx
      · rw [if_neg hmatch] at hrem
        rcases hrec : remover_apos bs nome e (offset + e.rec_len) rest
            with _ | l2'
        · rw [hrec] at hrem; exact absurd hrem (by simp)
        · rw [hrec] at hrem
          have hl2 : l2 = anterior :: l2' := by cases hrem; rfl
          subst hl2
          obtain ⟨ihsum, ihprops⟩ := ih e (offset + e.rec_len) l2'
            (by omega) (by omega) hpe hrest hrec
          constructor
          · simp only [List.map_cons, List.sum_cons]; omega
          · intro x hx
            rcases List.mem_cons.mp hx with rfl | hx
            · exact hpa
            · exact ihprops x hx

/-- **C2 (amended).** The per-block layout invariant is preserved by the
in-block slack-splitting insertion for any name within `EXT2_NAME_LEN`,
and by the in-block removal (coalesce / tombstone) for block sizes below
65536 — at `block_size = 65536` the coalesced `rec_len` can overflow its
`uint16_t` field (see the counterexample). -/
theorem diretorio_invariante_preservado (bs filho tipo : Nat)
    (nome : List Nat) (l l2 : List ext2_dir_entry)
    (hnome : nome.length ≤ EXT2_NAME_LEN)
    (hinv : InvarianteBloco bs l) :
    (inserir_em_bloco bs filho nome tipo 0 l = some l2 →
      InvarianteBloco bs l2) ∧
    (bs < 65536 → remover_em_bloco bs nome l = some l2 →
      InvarianteBloco bs l2) := by
  obtain ⟨hsum, hprops⟩ := hinv
  constructor
  · intro hins
    obtain ⟨h1, h2⟩ := inserir_em_bloco_preserva_aux bs filho tipo nome hnome
      l 0 l2 (by omega) hprops hins
    exact ⟨by omega, h2⟩
  · intro hbs hrem
    cases l with
    | nil => exact absurd hrem (by simp [remover_em_bloco])
    | cons e rest =>
      have hpe := hprops e (List.mem_cons_self e rest)
      have hrest : ∀ x ∈ rest,
          x.rec_len % 4 = 0 ∧ rec_len_real x.name_len ≤ x.rec_len :=
        fun x hx => hprops x (List.mem_cons_of_mem e hx)
      have hrl0 : ¬ e.rec_len = 0 := by
        have := rec_len_real_ge8 e.name_len; omega
      have hbs0 : ¬ bs = 0 := by
        have := rec_len_real_ge8 e.name_len
        rw [List.map_cons, List.sum_cons] at hsum
        omega
      rw [remover_em_bloco, if_neg hbs0, if_neg hrl0] at hrem
      rw [List.map_cons, List.sum_cons] at hsum
      by_cases hmatch : corresponde_nome e nome = true
      · rw [if_pos hmatch] at hrem
        have hl2 : l2 = { e with inode := 0 } :: rest := by cases hrem; rfl
        subst hl2
        constructor
        · simp only [List.map_cons, List.sum_cons]; exact hsum
        · intro x hx
          rcases List.mem_cons.mp hx with rfl | hx
          · exact hpe
          · exact hrest x hx
      · rw [if_neg hmatch] at hrem
        obtain ⟨ihsum, ihprops⟩ := remover_apos_preserva bs nome hbs rest e
          (0 + e.rec_len) l2 (by omega) (by omega) hpe hrest hrem
        exact ⟨by omega, ihprops⟩

/-- A valid directory block at `block_size = 65536`: `.` spanning 12
bytes, then an entry `x` spanning the remaining 65524 bytes. -/
def bloco_65536 : List ext2_dir_entry :=
  [{ inode := 2, rec_len := 12, name_len := 1, file_type := 2, nome := [46] },
   { inode := 5, rec_len := 65524, name_len := 1, file_type := 1,
     nome := [120] }]

/-- **C2 (counterexample).** At `block_size = 65536` the claim fails: the
block above satisfies the invariant, but removing `x` coalesces
`12 + 65524 = 65536` into the predecessor's `uint16_t` `rec_len`, which
wraps to 0, breaking the invariant. -/
theorem remocao_estoura_rec_len :
    InvarianteBloco 65536 bloco_65536 ∧
    remover_em_bloco 65536 [120] bloco_65536
      = some [{ inode := 2, rec_len := 0, name_len := 1, file_type := 2,
                nome := [46] }] ∧
    ¬ InvarianteBloco 65536
        [{ inode := 2, rec_len := 0, name_len := 1, file_type := 2,
           nome := [46] }] :=
  ⟨by decide, by decide, by decide⟩

/-- `.` and `..` in a fresh 1024-byte directory block. -/
def bloco_ponto : List ext2_dir_entry :=
  [{ inode := 2, rec_len := 12, name_len := 1, file_type := 2, nome := [46] },
   { inode := 2, rec_len := 1012, name_len := 2, file_type := 2,
     nome := [46, 46] }]

/-- `bloco_ponto` after inserting the entry `ab → inode 7`. -/
def bloco_ponto_ab : List ext2_dir_entry :=
  [{ inode := 2, rec_len := 12, name_len := 1, file_type := 2, nome := [46] },
   { inode := 2, rec_len := 12, name_len := 2, file_type := 2,
     nome := [46, 46] },
   { inode := 7, rec_len := 1000, name_len := 2, file_type := 1,
     nome := [97, 98] }]

/-- Witness for the amended C2 at a concrete 1024-byte block. -/
theorem diretorio_invariante_preservado_witness :
    ([97, 98] : List Nat).length ≤ EXT2_NAME_LEN ∧
    InvarianteBloco 1024 bloco_ponto ∧
    ((inserir_em_bloco 1024 7 [97, 98] 1 0 bloco_ponto = some bloco_ponto_ab →
        InvarianteBloco 1024 bloco_ponto_ab) ∧
     (1024 < 65536 → remover_em_bloco 1024 [97, 98] bloco_ponto
          = some bloco_ponto_ab →
        InvarianteBloco 1024 bloco_ponto_ab)) :=
  ⟨by decide, by decide,
    diretorio_invariante_preservado 1024 7 1 [97, 98] bloco_ponto
      bloco_ponto_ab (by decide) (by decide)⟩

/-! ## Global filesystem state and the allocator (claims C5, C8)

The state carries the in-memory superblock and GDT (authoritative for
the session), the disk blocks (bitmap blocks, directory data blocks and
pointer blocks, all accessed through `ler_bloco`/`escrever_bloco`), and
the inode table (accessed only through `ler_inode`/`escrever_inode`,
which address it by inode number).  `escrever_superbloco` and
`escrever_descritor_grupo` only persist the in-memory copies and are
therefore state-transparent here. -/

structure Estado where
  sb : superbloco
  gdt : List group_desc
  blocos : Nat → List Nat
  inodes : Nat → inode

/-- `⌈blocks_count / blocks_per_group⌉`, as computed at each use site. -/
def num_grupos (sb : superbloco) : Nat :=
  (sb.blocks_count + sb.blocks_per_group - 1) / sb.blocks_per_group

/-- Default group descriptor (out-of-range GDT indexing never occurs in
the states the theorems quantify over). -/
def gd0 : group_desc :=
  { block_bitmap := 0, inode_bitmap := 0, inode_table := 0,
    free_blocks_count := 0, free_inodes_count := 0, used_dirs_count := 0 }

def ler_bloco (s : Estado) (num_bloco : Nat) : List Nat := s.blocos num_bloco

/-- The validity test of `escrever_bloco`: refuse block 0 and blocks
beyond `blocks_count`. -/
def escrever_bloco_valido (sb : superbloco) (num_bloco : Nat) : Bool :=
  num_bloco ≠ 0 && num_bloco < sb.blocks_count

/-- `escrever_bloco`: write the buffer at a valid block number, report
an error (leaving the disk unchanged) otherwise. -/
def escrever_bloco (s : Estado) (num_bloco : Nat) (buffer : List Nat) :
    Estado :=
  if escrever_bloco_valido s.sb num_bloco then
    { s with blocos := fun n => if n = num_bloco then buffer else s.blocos n }
  else s

/-- `ler_inode` rejects number 0 and numbers beyond `inodes_count`. -/
def ler_inode (s : Estado) (inode_num : Nat) : Option inode :=
  if inode_num = 0 ∨ s.sb.inodes_count < inode_num then none
  else some (s.inodes inode_num)

def escrever_inode (s : Estado) (inode_num : Nat) (ino : inode) : Estado :=
  if inode_num = 0 ∨ s.sb.inodes_count < inode_num then s
  else { s with
    inodes := fun n => if n = inode_num then ino else s.inodes n }

/-- Linear scan for the first clear bit among bits `j, …, j + fuel - 1`
(the `for (j = 0; j < inodes_per_group; ++j)` search). -/
def primeiro_bit_livre_aux (bitmap : List Nat) : Nat → Nat → Option Nat
  | _, 0 => none
  | j, restante + 1 =>
    if bit_esta_setado bitmap j then
      primeiro_bit_livre_aux bitmap (j + 1) restante
    else some j

def primeiro_bit_livre (bitmap : List Nat) (n : Nat) : Option Nat :=
  primeiro_bit_livre_aux bitmap 0 n

/-- Group-scanning loop of `alocar_inode`: starting at group `i` with
`restante` groups left to examine.  In a group with free inodes the
first clear bitmap bit is claimed, the bitmap written back (a failing
write aborts with 0), both counters decremented and persisted, and the
1-based global inode number returned. -/
def alocar_inode_loop (s : Estado) : Nat → Nat → Nat × Estado
  | _, 0 => (0, s)
  | i, restante + 1 =>
    let gd := s.gdt.getD i gd0
    if 0 < gd.free_inodes_count then
      match primeiro_bit_livre (ler_bloco s gd.inode_bitmap)
          s.sb.inodes_per_group with
      | some j =>
        if escrever_bloco_valido s.sb gd.inode_bitmap then
          let s1 := escrever_bloco s gd.inode_bitmap
            (setar_bit (ler_bloco s gd.inode_bitmap) j)
          ((i * s.sb.inodes_per_group) + j + 1,
           { s1 with
             sb := { s1.sb with
               free_inodes_count := s1.sb.free_inodes_count - 1 },
             gdt := s1.gdt.set i
               { gd with free_inodes_count := gd.free_inodes_count - 1 } })
        else (0, s)
      | none => alocar_inode_loop s (i + 1) restante
    else alocar_inode_loop s (i + 1) restante

def alocar_inode (s : Estado) : Nat × Estado :=
  if s.sb.free_inodes_count = 0 then (0, s)
  else alocar_inode_loop s 0 (num_grupos s.sb)

/-- `liberar_inode`: invalid number fails; an already-clear bit is a
warning treated as success with no state change; otherwise clear the
bit, write the bitmap back, and increment both free counters. -/
def liberar_inode (s : Estado) (inode_num : Nat) : Int × Estado :=
  if inode_num = 0 ∨ s.sb.inodes_count < inode_num then (-1, s)
  else
    let grupo_idx := (inode_num - 1) / s.sb.inodes_per_group
    let indice := (inode_num - 1) % s.sb.inodes_per_group
    let gd := s.gdt.getD grupo_idx gd0
    let bitmap := ler_bloco s gd.inode_bitmap
    if ¬ bit_esta_setado bitmap indice then (0, s)
    else if escrever_bloco_valido s.sb gd.inode_bitmap then
      let s1 := escrever_bloco s gd.inode_bitmap (limpar_bit bitmap indice)
      (0,
       { s1 with
         sb := { s1.sb with
           free_inodes_count := (s1.sb.free_inodes_count + 1) % 4294967296 },
         gdt := s1.gdt.set grupo_idx
           { gd with
             free_inodes_count := (gd.free_inodes_count + 1) % 65536 } })
    else (-1, s)

/-- One group's attempt inside `alocar_bloco`: claim the first clear bit
of the group's block bitmap.  `escrever_bloco`'s result is ignored by
this function in the C code. -/
def alocar_bloco_em_grupo (s : Estado) (i : Nat) : Option (Nat × Estado) :=
  let gd := s.gdt.getD i gd0
  if 0 < gd.free_blocks_count then
    match primeiro_bit_livre (ler_bloco s gd.block_bitmap)
        s.sb.blocks_per_group with
    | some j =>
      let s1 := escrever_bloco s gd.block_bitmap
        (setar_bit (ler_bloco s gd.block_bitmap) j)
      some ((i * s.sb.blocks_per_group) + s.sb.first_data_block + j,
        { s1 with
          sb := { s1.sb with
            free_blocks_count := s1.sb.free_blocks_count - 1 },
          gdt := s1.gdt.set i
            { gd with free_blocks_count := gd.free_blocks_count - 1 } })
    | none => none
  else none

def alocar_bloco_loop (s : Estado) : Nat → Nat → Nat × Estado
  | _, 0 => (0, s)
  | i, restante + 1 =>
    match alocar_bloco_em_grupo s i with
    | some r => r
    | none => alocar_bloco_loop s (i + 1) restante

/-- `alocar_bloco`: fail on zero free count; try the owning inode's
group first (locality hint), then scan all groups. -/
def alocar_bloco (s : Estado) (inode_num : Nat) : Nat × Estado :=
  if s.sb.free_blocks_count = 0 then (0, s)
  else
    let grupo_ideal := (inode_num - 1) / s.sb.inodes_per_group
    match alocar_bloco_em_grupo s grupo_ideal with
    | some r => r
    | none => alocar_bloco_loop s 0 (num_grupos s.sb)

/-- `liberar_bloco`: reject block numbers below `first_data_block` or
beyond `blocks_count`; an already-clear bit is a warning treated as
success with no change; otherwise clear the bit and increment both free
counters. -/
def liberar_bloco (s : Estado) (num_bloco : Nat) : Int × Estado :=
  if num_bloco < s.sb.first_data_block ∨ s.sb.blocks_count ≤ num_bloco then
    (-1, s)
  else
    let grupo_idx := (num_bloco - s.sb.first_data_block)
      / s.sb.blocks_per_group
    let indice := (num_bloco - s.sb.first_data_block)
      % s.sb.blocks_per_group
    let gd := s.gdt.getD grupo_idx gd0
    let bitmap := ler_bloco s gd.block_bitmap
    if ¬ bit_esta_setado bitmap indice then (0, s)
    else if escrever_bloco_valido s.sb gd.block_bitmap then
      let s1 := escrever_bloco s gd.block_bitmap (limpar_bit bitmap indice)
      (0,
       { s1 with
         sb := { s1.sb with
           free_blocks_count := (s1.sb.free_blocks_count + 1) % 4294967296 },
         gdt := s1.gdt.set grupo_idx
           { gd with
             free_blocks_count := (gd.free_blocks_count + 1) % 65536 } })
    else (-1, s)

theorem getD_set_self_geral {α : Type} (l : List α) (j : Nat) (v d : α)
    (h : j < l.length) : (l.set j v).getD j d = v := by
  simp [List.getD_eq_getElem?_getD, List.getElem?_set_self', h,
    List.getElem?_eq_getElem]

theorem getD_set_ne_geral {α : Type} (l : List α) (j : Nat) (v : α) (k : Nat)
    (d : α) (hk : k ≠ j) : (l.set j v).getD k d = l.getD k d := by
  simp [List.getD_eq_getElem?_getD, List.getElem?_set_ne hk.symm]

theorem primeiro_bit_livre_aux_spec (bm : List Nat) :
    ∀ (n j r : Nat), primeiro_bit_livre_aux bm j n = some r →
      j ≤ r ∧ r < j + n ∧ bit_esta_setado bm r = false ∧
      ∀ k, j ≤ k → k < r → bit_esta_setado bm k = true := by
  intro n
  induction n with
  | zero =>
    intro j r h
    exact absurd h (by simp [primeiro_bit_livre_aux])
  | succ m ih =>
    intro j r h
    rw [primeiro_bit_livre_aux] at h
    by_cases hb : bit_esta_setado bm j = true
    · rw [if_pos hb] at h
      obtain ⟨h1, h2, h3, h4⟩ := ih (j + 1) r h
      refine ⟨by omega, by omega, h3, fun k hk1 hk2 => ?_⟩
      rcases Nat.eq_or_lt_of_le hk1 with rfl | hk
      · exact hb
      · exact h4 k (by omega) hk2
    · rw [if_neg hb] at h
      have hjr : j = r := Option.some.inj h
      subst hjr
      refine ⟨le_refl _, by omega, ?_, fun k hk1 hk2 => by omega⟩
      simpa using hb

theorem primeiro_bit_livre_spec (bm : List Nat) (n r : Nat)
    (h : primeiro_bit_livre bm n = some r) :
    r < n ∧ bit_esta_setado bm r = false ∧
    ∀ k < r, bit_esta_setado bm k = true := by
  obtain ⟨h1, h2, h3, h4⟩ := primeiro_bit_livre_aux_spec bm n 0 r h
  exact ⟨by omega, h3, fun k hk => h4 k (Nat.zero_le k) hk⟩

/-- The state produced by a successful inode allocation at bit `j` of
group `g`: bitmap bit set, both free-inode counters decremented. -/
def estado_apos_alocar_inode (s : Estado) (g j : Nat) : Estado :=
  { s with
    blocos := fun n =>
      if n = (s.gdt.getD g gd0).inode_bitmap
      then setar_bit (s.blocos ((s.gdt.getD g gd0).inode_bitmap)) j
      else s.blocos n,
    sb := { s.sb with free_inodes_count := s.sb.free_inodes_count - 1 },
    gdt := s.gdt.set g
      { s.gdt.getD g gd0 with
        free_inodes_count := (s.gdt.getD g gd0).free_inodes_count - 1 } }

theorem alocar_inode_loop_spec (s : Estado)
    (hcons : ∀ i, i < num_grupos s.sb →
      0 < (s.gdt.getD i gd0).free_inodes_count →
      (primeiro_bit_livre (s.blocos ((s.gdt.getD i gd0).inode_bitmap))
        s.sb.inodes_per_group).isSome = true)
    (hwv : ∀ i, i < num_grupos s.sb →
      escrever_bloco_valido s.sb ((s.gdt.getD i gd0).inode_bitmap) = true) :
    ∀ (restante i : Nat), i + restante = num_grupos s.sb →
      (∃ g, i ≤ g ∧ g < num_grupos s.sb ∧
        0 < (s.gdt.getD g gd0).free_inodes_count) →
      ∃ g j, i ≤ g ∧ g < num_grupos s.sb ∧
        0 < (s.gdt.getD g gd0).free_inodes_count ∧
        (∀ g', i ≤ g' → g' < g →
          (s.gdt.getD g' gd0).free_inodes_count = 0) ∧
        j < s.sb.inodes_per_group ∧
        bit_esta_setado (s.blocos ((s.gdt.getD g gd0).inode_bitmap)) j
          = false ∧
        (∀ k < j,
          bit_esta_setado (s.blocos ((s.gdt.getD g gd0).inode_bitmap)) k
            = true) ∧
        alocar_inode_loop s i restante
          = (g * s.sb.inodes_per_group + j + 1,
             estado_apos_alocar_inode s g j) := by
  intro restante
  induction restante with
  | zero =>
    intro i hi hex
    obtain ⟨g, hg1, hg2, _⟩ := hex
    omega
  | succ m ih =>
    intro i hi hex
    have hilt : i < num_grupos s.sb := by omega
    by_cases hfree : 0 < (s.gdt.getD i gd0).free_inodes_count
    · have hsome := hcons i hilt hfree
      rw [Option.isSome_iff_exists] at hsome
      obtain ⟨j, hj⟩ := hsome
      obtain ⟨hjlt, hjclear, hjprev⟩ :=
        primeiro_bit_livre_spec _ _ _ hj
      refine ⟨i, j, le_refl i, hilt, hfree, fun g' h1 h2 => by omega,
        hjlt, hjclear, hjprev, ?_⟩
      rw [alocar_inode_loop]
      simp only [if_pos hfree]
      rw [show ler_bloco s (s.gdt.getD i gd0).inode_bitmap
        = s.blocos ((s.gdt.getD i gd0).inode_bitmap) from rfl, hj]
      simp only [if_pos (hwv i hilt)]
      unfold escrever_bloco estado_apos_alocar_inode
      rw [if_pos (hwv i hilt)]
    · rw [alocar_inode_loop]
      simp only [if_neg hfree]
      obtain ⟨g, hg1, hg2, hg3⟩ := hex
      have hgne : g ≠ i := fun h => by rw [h] at hg3; omega
      obtain ⟨g', j', h1, h2, h3, h4, h5, h6, h7, h8⟩ :=
        ih (i + 1) (by omega) ⟨g, by omega, hg2, hg3⟩
      refine ⟨g', j', by omega, h2, h3, fun g'' hga hgb => ?_, h5, h6, h7, h8⟩
      rcases Nat.eq_or_lt_of_le hga with rfl | hga'
      · omega
      · exact h4 g'' (by omega) hgb

/-- **C5.** With free inodes available and counters consistent with the
bitmaps, `alocar_inode` picks the first group whose descriptor shows
free inodes, sets that group's first clear bitmap bit `j` (below
`inodes_per_group`), decrements the superblock and descriptor free-inode
counters, persists bitmap, superblock and descriptor, and returns
`group * inodes_per_group + j + 1`; with `free_inodes_count = 0` it
fails, returning 0 and leaving the state unchanged. -/
theorem alocar_inode_correto (s : Estado)
    (hcons : ∀ i, i < num_grupos s.sb →
      0 < (s.gdt.getD i gd0).free_inodes_count →
      (primeiro_bit_livre (s.blocos ((s.gdt.getD i gd0).inode_bitmap))
        s.sb.inodes_per_group).isSome = true)
    (hwv : ∀ i, i < num_grupos s.sb →
      escrever_bloco_valido s.sb ((s.gdt.getD i gd0).inode_bitmap) = true)
    (hex : 0 < s.sb.free_inodes_count →
      ∃ g, g < num_grupos s.sb ∧
        0 < (s.gdt.getD g gd0).free_inodes_count) :
    (s.sb.free_inodes_count = 0 → alocar_inode s = (0, s)) ∧
    (0 < s.sb.free_inodes_count →
      ∃ g j, g < num_grupos s.sb ∧
        0 < (s.gdt.getD g gd0).free_inodes_count ∧
        (∀ g' < g, (s.gdt.getD g' gd0).free_inodes_count = 0) ∧
        j < s.sb.inodes_per_group ∧
        bit_esta_setado (s.blocos ((s.gdt.getD g gd0).inode_bitmap)) j
          = false ∧
        (∀ k < j,
          bit_esta_setado (s.blocos ((s.gdt.getD g gd0).inode_bitmap)) k
            = true) ∧
        alocar_inode s
          = (g * s.sb.inodes_per_group + j + 1,
             estado_apos_alocar_inode s g j)) := by
  constructor
  · intro h0
    unfold alocar_inode
    rw [if_pos h0]
  · intro hpos
    obtain ⟨g, hg1, hg2⟩ := hex hpos
    obtain ⟨g', j', h1, h2, h3, h4, h5, h6, h7, h8⟩ :=
      alocar_inode_loop_spec s hcons hwv (num_grupos s.sb) 0 (by omega)
        ⟨g, Nat.zero_le g, hg1, hg2⟩
    refine ⟨g', j', h2, h3, fun g'' hgb => h4 g'' (Nat.zero_le g'') hgb,
      h5, h6, h7, ?_⟩
    unfold alocar_inode
    rw [if_neg (by omega)]
    exact h8

def inode0 : inode :=
  { mode := 0, uid := 0, size := 0, atime := 0, ctime := 0, mtime := 0,
    dtime := 0, gid := 0, links_count := 0, blocks := 0, flags := 0,
    block := List.replicate 15 0 }

/-- Concrete one-group filesystem: block bitmap in block 3 (bits 0–7
set), inode bitmap in block 4 (bits 0–1 set). -/
def estadoW : Estado :=
  { sb := { inodes_count := 16, blocks_count := 64, free_blocks_count := 10,
            free_inodes_count := 5, first_data_block := 1,
            log_block_size := 0, blocks_per_group := 64,
            inodes_per_group := 16, rev_level := 1, inode_size := 128 },
    gdt := [{ block_bitmap := 3, inode_bitmap := 4, inode_table := 5,
              free_blocks_count := 10, free_inodes_count := 5,
              used_dirs_count := 1 }],
    blocos := fun n => if n = 3 then [255, 0] else if n = 4 then [3, 0]
      else [],
    inodes := fun _ => inode0 }

/-- Witness for C5 at the concrete one-group filesystem. -/
theorem alocar_inode_correto_witness :
    (∀ i, i < num_grupos estadoW.sb →
      0 < (estadoW.gdt.getD i gd0).free_inodes_count →
      (primeiro_bit_livre
        (estadoW.blocos ((estadoW.gdt.getD i gd0).inode_bitmap))
        estadoW.sb.inodes_per_group).isSome = true) ∧
    (∀ i, i < num_grupos estadoW.sb →
      escrever_bloco_valido estadoW.sb
        ((estadoW.gdt.getD i gd0).inode_bitmap) = true) ∧
    (0 < estadoW.sb.free_inodes_count →
      ∃ g, g < num_grupos estadoW.sb ∧
        0 < (estadoW.gdt.getD g gd0).free_inodes_count) ∧
    ((estadoW.sb.free_inodes_count = 0 → alocar_inode estadoW = (0, estadoW)) ∧
     (0 < estadoW.sb.free_inodes_count →
      ∃ g j, g < num_grupos estadoW.sb ∧
        0 < (estadoW.gdt.getD g gd0).free_inodes_count ∧
        (∀ g' < g, (estadoW.gdt.getD g' gd0).free_inodes_count = 0) ∧
        j < estadoW.sb.inodes_per_group ∧
        bit_esta_setado
          (estadoW.blocos ((estadoW.gdt.getD g gd0).inode_bitmap)) j
          = false ∧
        (∀ k < j,
          bit_esta_setado
            (estadoW.blocos ((estadoW.gdt.getD g gd0).inode_bitmap)) k
            = true) ∧
        alocar_inode estadoW
          = (g * estadoW.sb.inodes_per_group + j + 1,
             estado_apos_alocar_inode estadoW g j))) := by
  have hng : num_grupos estadoW.sb = 1 := by decide
  have h1 : ∀ i, i < num_grupos estadoW.sb →
      0 < (estadoW.gdt.getD i gd0).free_inodes_count →
      (primeiro_bit_livre
        (estadoW.blocos ((estadoW.gdt.getD i gd0).inode_bitmap))
        estadoW.sb.inodes_per_group).isSome = true := by
    intro i hi
    have h0 : i = 0 := by omega
    subst h0
    intro _
    decide
  have h2 : ∀ i, i < num_grupos estadoW.sb →
      escrever_bloco_valido estadoW.sb
        ((estadoW.gdt.getD i gd0).inode_bitmap) = true := by
    intro i hi
    have h0 : i = 0 := by omega
    subst h0
    decide
  have h3 : 0 < estadoW.sb.free_inodes_count →
      ∃ g, g < num_grupos estadoW.sb ∧
        0 < (estadoW.gdt.getD g gd0).free_inodes_count :=
    fun _ => ⟨0, by omega, by decide⟩
  exact ⟨h1, h2, h3, alocar_inode_correto estadoW h1 h2 h3⟩

/-- State after `liberar_inode` clears a set bit: bit cleared, both
free-inode counters incremented. -/
def estado_apos_liberar_inode (s : Estado) (inode_num : Nat) : Estado :=
  let grupo_idx := (inode_num - 1) / s.sb.inodes_per_group
  let indice := (inode_num - 1) % s.sb.inodes_per_group
  let gd := s.gdt.getD grupo_idx gd0
  { s with
    blocos := fun n => if n = gd.inode_bitmap
      then limpar_bit (s.blocos gd.inode_bitmap) indice else s.blocos n,
    sb := { s.sb with free_inodes_count := s.sb.free_inodes_count + 1 },
    gdt := s.gdt.set grupo_idx
      { gd with free_inodes_count := gd.free_inodes_count + 1 } }

/-- State after `liberar_bloco` clears a set bit. -/
def estado_apos_liberar_bloco (s : Estado) (num_bloco : Nat) : Estado :=
  let grupo_idx := (num_bloco - s.sb.first_data_block)
    / s.sb.blocks_per_group
  let indice := (num_bloco - s.sb.first_data_block) % s.sb.blocks_per_group
  let gd := s.gdt.getD grupo_idx gd0
  { s with
    blocos := fun n => if n = gd.block_bitmap
      then limpar_bit (s.blocos gd.block_bitmap) indice else s.blocos n,
    sb := { s.sb with free_blocks_count := s.sb.free_blocks_count + 1 },
    gdt := s.gdt.set grupo_idx
      { gd with free_blocks_count := gd.free_blocks_count + 1 } }

/-- **C8.** Freeing is idempotent: for a valid object number whose
bitmap bit is already clear, `liberar_inode`/`liberar_bloco` return
success and change nothing; when the bit is set they clear exactly that
bit and increment both the superblock and group-descriptor free
counters by one. -/
theorem liberacao_idempotente (s : Estado) (inode_num num_bloco : Nat)
    (hin : inode_num ≠ 0 ∧ inode_num ≤ s.sb.inodes_count)
    (hbn : s.sb.first_data_block ≤ num_bloco ∧
      num_bloco < s.sb.blocks_count)
    (hwi : escrever_bloco_valido s.sb
      ((s.gdt.getD ((inode_num - 1) / s.sb.inodes_per_group)
        gd0).inode_bitmap) = true)
    (hwb : escrever_bloco_valido s.sb
      ((s.gdt.getD ((num_bloco - s.sb.first_data_block)
        / s.sb.blocks_per_group) gd0).block_bitmap) = true)
    (hov1 : s.sb.free_inodes_count + 1 < 4294967296)
    (hov2 : (s.gdt.getD ((inode_num - 1) / s.sb.inodes_per_group)
      gd0).free_inodes_count + 1 < 65536)
    (hov3 : s.sb.free_blocks_count + 1 < 4294967296)
    (hov4 : (s.gdt.getD ((num_bloco - s.sb.first_data_block)
      / s.sb.blocks_per_group) gd0).free_blocks_count + 1 < 65536) :
    (bit_esta_setado
        (s.blocos ((s.gdt.getD ((inode_num - 1) / s.sb.inodes_per_group)
          gd0).inode_bitmap))
        ((inode_num - 1) % s.sb.inodes_per_group) = false →
      liberar_inode s inode_num = (0, s)) ∧
    (bit_esta_setado
        (s.blocos ((s.gdt.getD ((inode_num - 1) / s.sb.inodes_per_group)
          gd0).inode_bitmap))
        ((inode_num - 1) % s.sb.inodes_per_group) = true →
      liberar_inode s inode_num
        = (0, estado_apos_liberar_inode s inode_num)) ∧
    (bit_esta_setado
        (s.blocos ((s.gdt.getD ((num_bloco - s.sb.first_data_block)
          / s.sb.blocks_per_group) gd0).block_bitmap))
        ((num_bloco - s.sb.first_data_block) % s.sb.blocks_per_group)
        = false →
      liberar_bloco s num_bloco = (0, s)) ∧
    (bit_esta_setado
        (s.blocos ((s.gdt.getD ((num_bloco - s.sb.first_data_block)
          / s.sb.blocks_per_group) gd0).block_bitmap))
        ((num_bloco - s.sb.first_data_block) % s.sb.blocks_per_group)
        = true →
      liberar_bloco s num_bloco
        = (0, estado_apos_liberar_bloco s num_bloco)) := by
  refine ⟨?_, ?_, ?_, ?_⟩
  · intro hclear
    simp only [liberar_inode, ler_bloco]
    rw [if_neg (by omega : ¬ (inode_num = 0 ∨ s.sb.inodes_count < inode_num))]
    rw [if_pos (by
      simp only [List.getD_eq_getElem?_getD] at hclear
      simp [hclear])]
  · intro hset
    simp only [liberar_inode, ler_bloco]
    rw [if_neg (by omega : ¬ (inode_num = 0 ∨ s.sb.inodes_count < inode_num))]
    rw [if_neg (by
      simp only [List.getD_eq_getElem?_getD] at hset
      simp [hset])]
    rw [if_pos (by simpa [List.getD_eq_getElem?_getD] using hwi)]
    unfold escrever_bloco
    rw [if_pos hwi]
    unfold estado_apos_liberar_inode
    simp only []
    rw [Nat.mod_eq_of_lt (by omega), Nat.mod_eq_of_lt (by omega)]
  · intro hclear
    simp only [liberar_bloco, ler_bloco]
    rw [if_neg (by omega :
      ¬ (num_bloco < s.sb.first_data_block ∨ s.sb.blocks_count ≤ num_bloco))]
    rw [if_pos (by
      simp only [List.getD_eq_getElem?_getD] at hclear
      simp [hclear])]
  · intro hset
    simp only [liberar_bloco, ler_bloco]
    rw [if_neg (by omega :
      ¬ (num_bloco < s.sb.first_data_block ∨ s.sb.blocks_count ≤ num_bloco))]
    rw [if_neg (by
      simp only [List.getD_eq_getElem?_getD] at hset
      simp [hset])]
    rw [if_pos (by simpa [List.getD_eq_getElem?_getD] using hwb)]
    unfold escrever_bloco
    rw [if_pos hwb]
    unfold estado_apos_liberar_bloco
    simp only []
    rw [Nat.mod_eq_of_lt (by omega), Nat.mod_eq_of_lt (by omega)]

/-- Witness for C8 at the concrete filesystem: inode 1 (bit set) and
block 9 (bit clear). -/
theorem liberacao_idempotente_witness :
    ((1 : Nat) ≠ 0 ∧ 1 ≤ estadoW.sb.inodes_count) ∧
    (estadoW.sb.first_data_block ≤ 9 ∧ 9 < estadoW.sb.blocks_count) ∧
    escrever_bloco_valido estadoW.sb
      ((estadoW.gdt.getD ((1 - 1) / estadoW.sb.inodes_per_group)
        gd0).inode_bitmap) = true ∧
    escrever_bloco_valido estadoW.sb
      ((estadoW.gdt.getD ((9 - estadoW.sb.first_data_block)
        / estadoW.sb.blocks_per_group) gd0).block_bitmap) = true ∧
    estadoW.sb.free_inodes_count + 1 < 4294967296 ∧
    (estadoW.gdt.getD ((1 - 1) / estadoW.sb.inodes_per_group)
      gd0).free_inodes_count + 1 < 65536 ∧
    estadoW.sb.free_blocks_count + 1 < 4294967296 ∧
    (estadoW.gdt.getD ((9 - estadoW.sb.first_data_block)
      / estadoW.sb.blocks_per_group) gd0).free_blocks_count + 1 < 65536 ∧
    ((bit_esta_setado
        (estadoW.blocos
          ((estadoW.gdt.getD ((1 - 1) / estadoW.sb.inodes_per_group)
            gd0).inode_bitmap))
        ((1 - 1) % estadoW.sb.inodes_per_group) = false →
      liberar_inode estadoW 1 = (0, estadoW)) ∧
     (bit_esta_setado
        (estadoW.blocos
          ((estadoW.gdt.getD ((1 - 1) / estadoW.sb.inodes_per_group)
            gd0).inode_bitmap))
        ((1 - 1) % estadoW.sb.inodes_per_group) = true →
      liberar_inode estadoW 1 = (0, estado_apos_liberar_inode estadoW 1)) ∧
     (bit_esta_setado
        (estadoW.blocos
          ((estadoW.gdt.getD ((9 - estadoW.sb.first_data_block)
            / estadoW.sb.blocks_per_group) gd0).block_bitmap))
        ((9 - estadoW.sb.first_data_block) % estadoW.sb.blocks_per_group)
        = false →
      liberar_bloco estadoW 9 = (0, estadoW)) ∧
     (bit_esta_setado
        (estadoW.blocos
          ((estadoW.gdt.getD ((9 - estadoW.sb.first_data_block)
            / estadoW.sb.blocks_per_group) gd0).block_bitmap))
        ((9 - estadoW.sb.first_data_block) % estadoW.sb.blocks_per_group)
        = true →
      liberar_bloco estadoW 9 = (0, estado_apos_liberar_bloco estadoW 9))) :=
  ⟨⟨by decide, by decide⟩, ⟨by decide, by decide⟩, by decide, by decide,
   by decide, by decide, by decide, by decide,
   liberacao_idempotente estadoW 1 9 ⟨by decide, by decide⟩
     ⟨by decide, by decide⟩ (by decide) (by decide) (by decide) (by decide)
     (by decide) (by decide)⟩

/-! ## Directory lookup and the path resolver (claim C10)

`buscar_nome_em_bloco` walks a directory block's bytes by `rec_len`.
Byte-offset loops are written with fuel `block_size + 1`, which cannot
be exhausted: the offset strictly increases each iteration and the loop
stops once it reaches `block_size`. -/

def lerU16 (bytes : List Nat) (off : Nat) : Nat :=
  bytes.getD off 0 + 256 * bytes.getD (off + 1) 0

def buscar_nome_em_bloco_aux (sb : superbloco) (bytes : List Nat)
    (nome : List Nat) : Nat → Nat → Option Nat
  | _, 0 => none
  | offset, fuel + 1 =>
    if calcular_tamanho_do_bloco sb ≤ offset then none
    else
      let rec_len := lerU16 bytes (offset + 4)
      if rec_len = 0 then none
      else if lerU32 bytes offset ≠ 0 ∧
          bytes.getD (offset + 6) 0 = nome.length ∧
          (bytes.drop (offset + 8)).take nome.length = nome then
        some (lerU32 bytes offset)
      else if calcular_tamanho_do_bloco sb ≤ offset + rec_len then none
      else buscar_nome_em_bloco_aux sb bytes nome (offset + rec_len) fuel

/-- `buscar_nome_em_bloco`: block 0 is simply "not found". -/
def buscar_nome_em_bloco (s : Estado) (num_bloco : Nat) (nome : List Nat) :
    Option Nat :=
  if num_bloco = 0 then none
  else buscar_nome_em_bloco_aux s.sb (ler_bloco s num_bloco) nome 0
    (calcular_tamanho_do_bloco s.sb + 1)

def buscar_em_blocos (s : Estado) (nome : List Nat) :
    List Nat → Option Nat
  | [] => none
  | b :: rest =>
    match buscar_nome_em_bloco s b nome with
    | some ino => some ino
    | none => buscar_em_blocos s nome rest

def buscar_l2 (s : Estado) (nome : List Nat) (ppb : Nat) :
    List Nat → Option Nat
  | [] => none
  | p :: rest =>
    if p = 0 then buscar_l2 s nome ppb rest
    else
      match buscar_em_blocos s nome (lerPonteiros (ler_bloco s p) ppb) with
      | some ino => some ino
      | none => buscar_l2 s nome ppb rest

/-- `procurar_entrada_no_diretorio`: scan the directory's direct blocks,
then the single- and double-indirect trees (triple indirection is
omitted by the implementation); 0 when absent or on a non-directory. -/
def procurar_entrada_no_diretorio (s : Estado) (dir_inode_num : Nat)
    (nome : List Nat) : Nat :=
  match ler_inode s dir_inode_num with
  | none => 0
  | some dir_ino =>
    if ¬ (EXT2_IS_DIR dir_ino.mode = true) then 0
    else
      let ppb := calcular_tamanho_do_bloco s.sb / 4
      match buscar_em_blocos s nome
          ((List.range 12).map (fun i => dir_ino.block.getD i 0)) with
      | some ino => ino
      | none =>
        match (if dir_ino.block.getD 12 0 ≠ 0 then
            buscar_em_blocos s nome
              (lerPonteiros (ler_bloco s (dir_ino.block.getD 12 0)) ppb)
          else none) with
        | some ino => ino
        | none =>
          match (if dir_ino.block.getD 13 0 ≠ 0 then
              buscar_l2 s nome ppb
                (lerPonteiros (ler_bloco s (dir_ino.block.getD 13 0)) ppb)
            else none) with
          | some ino => ino
          | none => 0

/-- The component-resolution loop of `caminho_para_inode`. -/
def resolver_tokens (s : Estado) : Nat → List (List Nat) → Nat
  | corrente, [] => corrente
  | corrente, t :: rest =>
    let proximo := procurar_entrada_no_diretorio s corrente t
    if proximo = 0 then 0 else resolver_tokens s proximo rest

/-- `caminho_para_inode`: the path is first copied with
`strncpy(caminho_mutavel, caminho, 1023)` into a 1024-byte buffer and
null-terminated, i.e. truncated to its first 1023 bytes; `"/"` resolves
to the root inode; a leading `/` restarts at the root; `strtok`
splitting discards empty components. -/
def caminho_para_inode (s : Estado) (inode_dir_atual : Nat)
    (caminho : List Nat) : Nat :=
  let caminho_mutavel := caminho.take 1023
  if caminho_mutavel = [47] then EXT2_ROOT_INO
  else
    let inode_inicial :=
      if caminho_mutavel.headD 0 = 47 then EXT2_ROOT_INO
      else inode_dir_atual
    resolver_tokens s inode_inicial
      ((caminho_mutavel.splitOn 47).filter (fun t => t ≠ []))

/-- **C10.** Path resolution silently truncates long inputs: for every
path of 1023 bytes or more, `caminho_para_inode` resolves exactly what
it would resolve for the first 1023 bytes, and no error distinguishes
the truncated call (the two calls are equal in every component of their
result). -/
theorem caminho_para_inode_trunca (s : Estado) (inode_dir_atual : Nat)
    (caminho : List Nat) (h : 1023 ≤ caminho.length) :
    caminho_para_inode s inode_dir_atual caminho
      = caminho_para_inode s inode_dir_atual (caminho.take 1023) := by
  unfold caminho_para_inode
  rw [List.take_take]
  simp

/-- Witness for C10 at a 1030-byte path of letters `a`. -/
theorem caminho_para_inode_trunca_witness :
    1023 ≤ (List.replicate 1030 97).length ∧
    caminho_para_inode estadoW 2 (List.replicate 1030 97)
      = caminho_para_inode estadoW 2 ((List.replicate 1030 97).take 1023) :=
  ⟨by rw [List.length_replicate]; omega,
   caminho_para_inode_trunca estadoW 2 (List.replicate 1030 97)
     (by rw [List.length_replicate]; omega)⟩

/-! ## Inserting a directory entry (`adicionar_entrada_diretorio`, claims C1, C7)

Byte-level translation.  Phase 1 scans existing blocks (direct, then the
single- and double-indirect trees) for a trailing entry with enough
slack; phase 2 allocates a fresh data block holding a single entry with
`rec_len = block_size` and links it into the parent's pointer tree:
first free direct slot, else the single-indirect block (allocated if
absent), else the double-indirect tree.  The `uint16_t` comparisons are
performed in `Int` exactly as C's integer promotions do. -/

def escreverByte (bytes : List Nat) (off v : Nat) : List Nat :=
  bytes.set off (v % 256)

def escreverU16 (bytes : List Nat) (off v : Nat) : List Nat :=
  (bytes.set off (v % 256)).set (off + 1) (v / 256 % 256)

def escreverU32 (bytes : List Nat) (off v : Nat) : List Nat :=
  (((bytes.set off (v % 256)).set (off + 1) (v / 256 % 256)).set
    (off + 2) (v / 65536 % 256)).set (off + 3) (v / 16777216 % 256)

def escreverBytes : List Nat → Nat → List Nat → List Nat
  | bytes, _, [] => bytes
  | bytes, off, b :: rest => escreverBytes (bytes.set off (b % 256)) (off + 1) rest

/-- Write a fresh directory record at `off`: inode, `name_len`,
`file_type`, the `tam` name bytes, and `rec_len`. -/
def escrever_nova_entrada (bytes : List Nat) (off : Nat)
    (inode_filho tam tipo rec_len : Nat) (nome : List Nat) : List Nat :=
  escreverU16
    (escreverBytes
      (escreverByte (escreverByte (escreverU32 bytes off inode_filho)
        (off + 6) tam) (off + 7) tipo)
      (off + 8) (nome.take tam))
    (off + 4) rec_len

/-- Phase-1 walk of one block: at the entry whose span reaches the block
boundary, split its slack if `rec_len_necessario` fits (the comparison
`entry->rec_len - rec_len_real_atual >= rec_len_necessario` happens in
`int` after promotion); the split shrinks the entry to its footprint and
writes the new record after it with the remaining `uint16_t` span. -/
def tentar_inserir_no_bloco_aux (sb : superbloco) (inode_filho : Nat)
    (nome : List Nat) (tipo nec : Nat) (bytes : List Nat) :
    Nat → Nat → Option (List Nat)
  | _, 0 => none
  | offset, fuel + 1 =>
    if calcular_tamanho_do_bloco sb ≤ offset then none
    else
      let rec_len := lerU16 bytes (offset + 4)
      if rec_len = 0 then none
      else if calcular_tamanho_do_bloco sb ≤ offset + rec_len then
        let rec_len_real_atual := rec_len_real (bytes.getD (offset + 6) 0)
        if (nec : Int) ≤ (rec_len : Int) - (rec_len_real_atual : Int) then
          some (escrever_nova_entrada
            (escreverU16 bytes (offset + 4) rec_len_real_atual)
            (offset + rec_len_real_atual) inode_filho (nome.length % 65536)
            tipo ((rec_len + 65536 - rec_len_real_atual) % 65536) nome)
        else
          tentar_inserir_no_bloco_aux sb inode_filho nome tipo nec bytes
            (offset + rec_len) fuel
      else
        tentar_inserir_no_bloco_aux sb inode_filho nome tipo nec bytes
          (offset + rec_len) fuel

def tentar_inserir_no_bloco (s : Estado) (num_bloco inode_filho : Nat)
    (nome : List Nat) (tipo nec : Nat) : Option Estado :=
  if num_bloco = 0 then none
  else
    match tentar_inserir_no_bloco_aux s.sb inode_filho nome tipo nec
        (ler_bloco s num_bloco) 0 (calcular_tamanho_do_bloco s.sb + 1) with
    | some bytes => some (escrever_bloco s num_bloco bytes)
    | none => none

def fase1_blocos (s : Estado) (inode_filho : Nat) (nome : List Nat)
    (tipo nec : Nat) : List Nat → Option Estado
  | [] => none
  | b :: rest =>
    match tentar_inserir_no_bloco s b inode_filho nome tipo nec with
    | some s2 => some s2
    | none => fase1_blocos s inode_filho nome tipo nec rest

def fase1_l2 (s : Estado) (inode_filho : Nat) (nome : List Nat)
    (tipo nec ppb : Nat) : List Nat → Option Estado
  | [] => none
  | p :: rest =>
    if p = 0 then fase1_l2 s inode_filho nome tipo nec ppb rest
    else
      match fase1_blocos s inode_filho nome tipo nec
          (lerPonteiros (ler_bloco s p) ppb) with
      | some s2 => some s2
      | none => fase1_l2 s inode_filho nome tipo nec ppb rest

/-- `memset(buffer, 0, bs)` then a single record spanning the whole
block (`rec_len = tamanho_bloco`, truncated to `uint16_t`). -/
def montar_bloco_entrada_unica (sb : superbloco) (inode_filho : Nat)
    (nome : List Nat) (tipo : Nat) : List Nat :=
  escrever_nova_entrada
    (List.replicate (calcular_tamanho_do_bloco sb) 0) 0 inode_filho
    (nome.length % 65536) tipo (calcular_tamanho_do_bloco sb % 65536) nome

def primeiro_slot_livre_aux (l : List Nat) : Nat → Nat → Option Nat
  | _, 0 => none
  | j, fuel + 1 =>
    if l.getD j 0 = 0 then some j
    else primeiro_slot_livre_aux l (j + 1) fuel

def primeiro_ponteiro_zero_aux (bytes : List Nat) : Nat → Nat → Option Nat
  | _, 0 => none
  | j, fuel + 1 =>
    if lerU32 bytes (4 * j) = 0 then some j
    else primeiro_ponteiro_zero_aux bytes (j + 1) fuel

/-- The shared tail `preparar_e_escrever_novo_bloco`: bump the parent's
`size` by `block_size` and `blocks` by `block_size/512`, rewrite the
fresh block's single-entry content, and succeed. -/
def preparar_e_escrever_novo_bloco (s : Estado) (pai : inode)
    (novo_bloco inode_filho : Nat) (nome : List Nat) (tipo : Nat) :
    Int × inode × Estado :=
  let bs := calcular_tamanho_do_bloco s.sb
  let pai2 := { pai with
    size := (pai.size + bs) % 4294967296,
    blocks := (pai.blocks + bs / 512) % 4294967296 }
  (0, pai2,
   escrever_bloco s novo_bloco
     (montar_bloco_entrada_unica s.sb inode_filho nome tipo))

/-- Scenario B of the double-indirect link step: walk the existing L1
block; a zero L1 slot gets a freshly allocated L2 pointing at the new
block; otherwise the first zero slot of that L2 receives the new block.
If the walk completes without linking, control falls through to
`preparar_e_escrever_novo_bloco` (the new block is then left unlinked). -/
def cenario_b_loop (pai : inode) (pai_num novo inode_filho : Nat)
    (nome : List Nat) (tipo : Nat) (bs ppb l1_bloco : Nat)
    (l1bytes : List Nat) : Estado → Nat → Nat → Int × inode × Estado
  | s, _, 0 => preparar_e_escrever_novo_bloco s pai novo inode_filho nome tipo
  | s, i, fuel + 1 =>
    if lerU32 l1bytes (4 * i) = 0 then
      let r := alocar_bloco s pai_num
      if r.1 = 0 then
        let r2 := liberar_bloco r.2 novo
        (-1, pai, r2.2)
      else
        let s3 := escrever_bloco r.2 l1_bloco (escreverU32 l1bytes (4 * i) r.1)
        let pai1 := { pai with blocks := (pai.blocks + bs / 512) % 4294967296 }
        let s4 := escrever_bloco s3 r.1
          (escreverU32 (List.replicate bs 0) 0 novo)
        preparar_e_escrever_novo_bloco s4 pai1 novo inode_filho nome tipo
    else
      let l2bytes := ler_bloco s (lerU32 l1bytes (4 * i))
      match primeiro_ponteiro_zero_aux l2bytes 0 ppb with
      | some j =>
        let s3 := escrever_bloco s (lerU32 l1bytes (4 * i))
          (escreverU32 l2bytes (4 * j) novo)
        preparar_e_escrever_novo_bloco s3 pai novo inode_filho nome tipo
      | none =>
        cenario_b_loop pai pai_num novo inode_filho nome tipo bs ppb
          l1_bloco l1bytes s (i + 1) fuel

/-- Phase 2 of `adicionar_entrada_diretorio`: allocate and fill the
fresh block, then link it (free direct slot → single indirect → double
indirect), with rollback of the allocations on failure. -/
def fase2_novo_bloco (s : Estado) (pai : inode) (pai_num inode_filho : Nat)
    (nome : List Nat) (tipo : Nat) : Int × inode × Estado :=
  let bs := calcular_tamanho_do_bloco s.sb
  let ppb := bs / 4
  let r := alocar_bloco s pai_num
  if r.1 = 0 then (-1, pai, r.2)
  else
    let novo := r.1
    let s2 := escrever_bloco r.2 novo
      (montar_bloco_entrada_unica s.sb inode_filho nome tipo)
    match primeiro_slot_livre_aux pai.block 0 12 with
    | some i => (0, { pai with block := pai.block.set i novo }, s2)
    | none =>
      if pai.block.getD 12 0 = 0 then
        let ri := alocar_bloco s2 pai_num
        if ri.1 = 0 then
          let rl := liberar_bloco ri.2 novo
          (-1, pai, rl.2)
        else
          let pai1 := { pai with
            block := pai.block.set 12 ri.1,
            blocks := (pai.blocks + bs / 512) % 4294967296 }
          let s4 := escrever_bloco ri.2 ri.1
            (escreverU32 (List.replicate bs 0) 0 novo)
          (0, pai1, s4)
      else
        let l1bytes := ler_bloco s2 (pai.block.getD 12 0)
        match primeiro_ponteiro_zero_aux l1bytes 0 ppb with
        | some i =>
          (0, pai,
           escrever_bloco s2 (pai.block.getD 12 0)
             (escreverU32 l1bytes (4 * i) novo))
        | none =>
          if pai.block.getD 13 0 = 0 then
            let ra := alocar_bloco s2 pai_num
            if ra.1 = 0 then
              let rl := liberar_bloco ra.2 novo
              (-1, pai, rl.2)
            else
              let rb := alocar_bloco ra.2 pai_num
              if rb.1 = 0 then
                let rl1 := liberar_bloco rb.2 ra.1
                let rl2 := liberar_bloco rl1.2 novo
                (-1, pai, rl2.2)
              else
                let pai1 := { pai with
                  block := pai.block.set 13 ra.1,
                  blocks := (pai.blocks + bs / 512) % 4294967296 }
                let s5 := escrever_bloco rb.2 rb.1
                  (escreverU32 (List.replicate bs 0) 0 novo)
                let pai2 := { pai1 with
                  blocks := (pai1.blocks + bs / 512) % 4294967296 }
                let s6 := escrever_bloco s5 ra.1
                  (escreverU32 (List.replicate bs 0) 0 rb.1)
                preparar_e_escrever_novo_bloco s6 pai2 novo inode_filho
                  nome tipo
          else
            cenario_b_loop pai pai_num novo inode_filho nome tipo bs ppb
              (pai.block.getD 13 0) (ler_bloco s2 (pai.block.getD 13 0))
              s2 0 ppb

/-- `adicionar_entrada_diretorio`: phase 1 (slack in an existing block:
direct, single-indirect, double-indirect scans), then phase 2 (fresh
block).  Returns the C status (`0`/`-1`), the in-memory parent inode
(the caller writes it back), and the new state. -/
def adicionar_entrada_diretorio (s : Estado) (pai : inode)
    (pai_num inode_filho : Nat) (nome : List Nat) (tipo : Nat) :
    Int × inode × Estado :=
  let ppb := calcular_tamanho_do_bloco s.sb / 4
  let nec := rec_len_necessario nome
  match fase1_blocos s inode_filho nome tipo nec
      ((List.range 12).map (fun i => pai.block.getD i 0)) with
  | some s2 => (0, pai, s2)
  | none =>
    match (if pai.block.getD 12 0 ≠ 0 then
        fase1_blocos s inode_filho nome tipo nec
          (lerPonteiros (ler_bloco s (pai.block.getD 12 0)) ppb)
      else none) with
    | some s2 => (0, pai, s2)
    | none =>
      match (if pai.block.getD 13 0 ≠ 0 then
          fase1_l2 s inode_filho nome tipo nec ppb
            (lerPonteiros (ler_bloco s (pai.block.getD 13 0)) ppb)
        else none) with
      | some s2 => (0, pai, s2)
      | none => fase2_novo_bloco s pai pai_num inode_filho nome tipo

/-- A completely full 1024-byte directory block: `.` (12), `..` (12),
82 filler records of 12 bytes, and a final 16-byte record whose slack
(16 - 12 = 4) cannot hold any new entry. -/
def bloco_cheio : List Nat :=
  [2, 0, 0, 0, 12, 0, 1, 2, 46, 0, 0, 0] ++
  [2, 0, 0, 0, 12, 0, 2, 2, 46, 46, 0, 0] ++
  (List.replicate 82 [11, 0, 0, 0, 12, 0, 4, 1, 97, 97, 97, 97]).flatten ++
  [11, 0, 0, 0, 16, 0, 4, 1, 97, 97, 97, 97, 0, 0, 0, 0]

/-- The parent directory inode of the C1 failing input: one full data
block in `block[0] = 6`, all other pointers free. -/
def paiC1 : inode :=
  { mode := 0x41ED, uid := 0, size := 1024, atime := 0, ctime := 0,
    mtime := 0, dtime := 0, gid := 0, links_count := 2, blocks := 2,
    flags := 0,
    block := [6, 0, 0, 0, 0, 0, 0, 0, 0, 0, 0, 0, 0, 0, 0] }

/-- Concrete state for C1: one group, block bitmap `[127, 0]` (blocks
1–7 in use, block 8 the first free one), parent directory in block 6. -/
def estadoC1 : Estado :=
  { sb := { inodes_count := 16, blocks_count := 64, free_blocks_count := 10,
            free_inodes_count := 5, first_data_block := 1,
            log_block_size := 0, blocks_per_group := 64,
            inodes_per_group := 16, rev_level := 1, inode_size := 128 },
    gdt := [{ block_bitmap := 3, inode_bitmap := 4, inode_table := 5,
              free_blocks_count := 10, free_inodes_count := 5,
              used_dirs_count := 1 }],
    blocos := fun n => if n = 3 then [127, 0]
      else if n = 6 then bloco_cheio
      else List.replicate 1024 0,
    inodes := fun n => if n = 2 then paiC1 else inode0 }

set_option maxRecDepth 40000 in
/-- **C1.** At the concrete full parent directory, the fresh data block
(block 8) is allocated and linked into the free direct slot
`block[1]`, but the parent's `size` and `blocks` fields are *not*
increased — the `size += block_size` / `blocks += block_size/512`
update only happens on the double-indirect linking paths
(`preparar_e_escrever_novo_bloco`), which the direct-slot and
single-indirect paths bypass (`goto sucesso`). -/
theorem adicionar_nao_incrementa_size :
    (adicionar_entrada_diretorio estadoC1 paiC1 2 5 [97, 98] 1).1 = 0 ∧
    (adicionar_entrada_diretorio estadoC1 paiC1 2 5 [97, 98] 1).2.1
      = { paiC1 with block := paiC1.block.set 1 8 } ∧
    ({ paiC1 with block := paiC1.block.set 1 8 } : inode).size
      = paiC1.size ∧
    ({ paiC1 with block := paiC1.block.set 1 8 } : inode).blocks
      = paiC1.blocks :=
  ⟨by decide, by decide, rfl, rfl⟩

/-! ## Frame lemmas for the state transformers (claims C7 and C4)

`adicionar_entrada_diretorio` and the block allocator never touch the
inode side of the metadata: superblock geometry, `free_inodes_count`,
the inode map and every group-descriptor field except
`free_blocks_count` are preserved.  Their block writes hit only block
bitmaps, blocks reachable from the parent directory's pointer tree, and
freshly allocated blocks (whose block-bitmap bit was clear); hence a
block that is marked used in the block bitmap, is no block bitmap
itself, and is not reachable from the parent keeps its content. -/

theorem escrever_bloco_sb (s : Estado) (n : Nat) (buf : List Nat) :
    (escrever_bloco s n buf).sb = s.sb := by
  unfold escrever_bloco; split <;> rfl

theorem escrever_bloco_gdt (s : Estado) (n : Nat) (buf : List Nat) :
    (escrever_bloco s n buf).gdt = s.gdt := by
  unfold escrever_bloco; split <;> rfl

theorem escrever_bloco_inodes (s : Estado) (n : Nat) (buf : List Nat) :
    (escrever_bloco s n buf).inodes = s.inodes := by
  unfold escrever_bloco; split <;> rfl

theorem escrever_bloco_blocos_ne (s : Estado) (n : Nat) (buf : List Nat)
    (m : Nat) (h : m ≠ n) :
    (escrever_bloco s n buf).blocos m = s.blocos m := by
  unfold escrever_bloco
  split
  · show (if m = n then buf else s.blocos m) = s.blocos m
    rw [if_neg h]
  · rfl

theorem getD_indep {α : Type} (l : List α) (g : Nat) (d d' : α)
    (h : g < l.length) : l.getD g d = l.getD g d' := by
  simp [List.getD_eq_getElem?_getD, List.getElem?_eq_getElem h]

theorem getD_oob {α : Type} (l : List α) (g : Nat) (d : α)
    (h : l.length ≤ g) : l.getD g d = d := by
  rw [List.getD_eq_getElem?_getD, List.getElem?_eq_none h]
  rfl

/-- Setting one group descriptor leaves every descriptor field `f`
unchanged at every index, provided the new record agrees on `f` with the
record it replaces. -/
theorem getD_set_campo {β : Type} (l : List group_desc) (i : Nat)
    (novo : group_desc) (g : Nat) (d : group_desc) (f : group_desc → β)
    (hf : f novo = f (l.getD i gd0)) :
    f ((l.set i novo).getD g d) = f (l.getD g d) := by
  by_cases hg : g = i
  · subst hg
    by_cases hlen : g < l.length
    · rw [getD_set_self_geral l g novo d hlen, hf, getD_indep l g gd0 d hlen]
    · rw [getD_oob l g d (by omega),
        getD_oob (l.set g novo) g d (by rw [List.length_set]; omega)]
  · rw [getD_set_ne_geral l i novo g d hg]

/-- The state components the directory-entry insertion and the block
allocator can never change: superblock geometry and free-inode count,
the inode map, the GDT length and every group-descriptor field except
`free_blocks_count`. -/
structure MesmosMetadadosDeInodes (s s' : Estado) : Prop where
  inodes_count : s'.sb.inodes_count = s.sb.inodes_count
  inodes_per_group : s'.sb.inodes_per_group = s.sb.inodes_per_group
  blocks_count : s'.sb.blocks_count = s.sb.blocks_count
  blocks_per_group : s'.sb.blocks_per_group = s.sb.blocks_per_group
  first_data_block : s'.sb.first_data_block = s.sb.first_data_block
  log_block_size : s'.sb.log_block_size = s.sb.log_block_size
  free_inodes_count : s'.sb.free_inodes_count = s.sb.free_inodes_count
  inodes : s'.inodes = s.inodes
  gdt_length : s'.gdt.length = s.gdt.length
  gdt_campos : ∀ g d,
    (s'.gdt.getD g d).block_bitmap = (s.gdt.getD g d).block_bitmap ∧
    (s'.gdt.getD g d).inode_bitmap = (s.gdt.getD g d).inode_bitmap ∧
    (s'.gdt.getD g d).inode_table = (s.gdt.getD g d).inode_table ∧
    (s'.gdt.getD g d).free_inodes_count = (s.gdt.getD g d).free_inodes_count

theorem metadados_refl (s : Estado) : MesmosMetadadosDeInodes s s :=
  ⟨rfl, rfl, rfl, rfl, rfl, rfl, rfl, rfl, rfl,
    fun _ _ => ⟨rfl, rfl, rfl, rfl⟩⟩

theorem metadados_trans {s1 s2 s3 : Estado}
    (h1 : MesmosMetadadosDeInodes s1 s2)
    (h2 : MesmosMetadadosDeInodes s2 s3) :
    MesmosMetadadosDeInodes s1 s3 := by
  refine ⟨h2.inodes_count.trans h1.inodes_count,
    h2.inodes_per_group.trans h1.inodes_per_group,
    h2.blocks_count.trans h1.blocks_count,
    h2.blocks_per_group.trans h1.blocks_per_group,
    h2.first_data_block.trans h1.first_data_block,
    h2.log_block_size.trans h1.log_block_size,
    h2.free_inodes_count.trans h1.free_inodes_count,
    h2.inodes.trans h1.inodes,
    h2.gdt_length.trans h1.gdt_length, ?_⟩
  intro g d
  obtain ⟨a1, a2, a3, a4⟩ := h1.gdt_campos g d
  obtain ⟨b1, b2, b3, b4⟩ := h2.gdt_campos g d
  exact ⟨b1.trans a1, b2.trans a2, b3.trans a3, b4.trans a4⟩

theorem metadados_escrever_bloco (s : Estado) (n : Nat) (buf : List Nat) :
    MesmosMetadadosDeInodes s (escrever_bloco s n buf) := by
  refine ⟨?_, ?_, ?_, ?_, ?_, ?_, ?_, ?_, ?_, ?_⟩ <;>
    simp [escrever_bloco_sb, escrever_bloco_gdt, escrever_bloco_inodes]

def grupo_do_bloco (sb : superbloco) (b : Nat) : Nat :=
  (b - sb.first_data_block) / sb.blocks_per_group

def indice_do_bloco (sb : superbloco) (b : Nat) : Nat :=
  (b - sb.first_data_block) % sb.blocks_per_group

/-- Block `b` is marked in use in its group's block bitmap, addressed
exactly as `liberar_bloco` addresses it. -/
def BitDeBlocoSetado (s : Estado) (b : Nat) : Prop :=
  bit_esta_setado
    (s.blocos ((s.gdt.getD (grupo_do_bloco s.sb b) gd0).block_bitmap))
    (indice_do_bloco s.sb b) = true

instance (s : Estado) (b : Nat) : Decidable (BitDeBlocoSetado s b) := by
  unfold BitDeBlocoSetado
  infer_instance

/-- Between two states, no set bit of any block bitmap has been cleared
(bits may only have been added).  Block-bitmap block numbers are taken
from the first state's GDT. -/
def BitsDeBitmapPreservados (s s' : Estado) : Prop :=
  ∀ g k,
    bit_esta_setado (s.blocos ((s.gdt.getD g gd0).block_bitmap)) k = true →
    bit_esta_setado (s'.blocos ((s.gdt.getD g gd0).block_bitmap)) k = true

theorem bits_refl (s : Estado) : BitsDeBitmapPreservados s s :=
  fun _ _ h => h

theorem bits_trans {s1 s2 s3 : Estado}
    (hM : MesmosMetadadosDeInodes s1 s2)
    (h1 : BitsDeBitmapPreservados s1 s2)
    (h2 : BitsDeBitmapPreservados s2 s3) :
    BitsDeBitmapPreservados s1 s3 := by
  intro g k hk
  have h2' := h2 g k
  rw [(hM.gdt_campos g gd0).1] at h2'
  exact h2' (h1 g k hk)

theorem bits_escrever (c : Estado) (n : Nat) (buf : List Nat)
    (h : ∀ g, n ≠ (c.gdt.getD g gd0).block_bitmap) :
    BitsDeBitmapPreservados c (escrever_bloco c n buf) := by
  intro g k hk
  rw [escrever_bloco_blocos_ne c n buf _ (Ne.symm (h g))]
  exact hk

/-- Setting a bit never clears another set bit. -/
theorem bit_setar_preserva (bm : List Nat) (j k : Nat)
    (h : bit_esta_setado bm k = true) :
    bit_esta_setado (setar_bit bm j) k = true := by
  by_cases hb : k / 8 = j / 8
  · by_cases hlen : j / 8 < bm.length
    · rw [bit_esta_setado_eq_testBit] at h ⊢
      rw [hb] at h ⊢
      rw [getD_setar_bit_eq bm j hlen,
        show (1 : Nat) <<< (j % 8) = 2 ^ (j % 8) by
          rw [Nat.shiftLeft_eq, one_mul]]
      rw [Nat.testBit_or, h]
      rfl
    · rw [bit_esta_setado_eq_testBit, hb,
        getD_oob bm _ 0 (by omega)] at h
      simp at h
  · rw [bit_esta_setado_eq_testBit] at h ⊢
    rw [setar_bit, getD_set_ne bm (j / 8) _ (k / 8) hb]
    exact h

/-- Setting a bit makes it read as set (in-bounds byte index). -/
theorem bit_setar_seta (bm : List Nat) (j : Nat) (h : j / 8 < bm.length) :
    bit_esta_setado (setar_bit bm j) j = true := by
  rw [bit_esta_setado_eq_testBit, getD_setar_bit_eq bm j h,
    show (1 : Nat) <<< (j % 8) = 2 ^ (j % 8) by
      rw [Nat.shiftLeft_eq, one_mul]]
  simp [Nat.testBit_or, Nat.testBit_two_pow_self]

theorem lerU32_mem_lerPonteiros (bytes : List Nat) (n i : Nat) (h : i < n) :
    lerU32 bytes (4 * i) ∈ lerPonteiros bytes n := by
  unfold lerPonteiros
  exact List.mem_map.mpr ⟨i, List.mem_range.mpr h, rfl⟩

theorem flatMap_congr_mem {α β : Type} (l : List α) (f g : α → List β)
    (h : ∀ a ∈ l, f a = g a) : l.flatMap f = l.flatMap g := by
  induction l with
  | nil => rfl
  | cons a rest ih =>
    rw [List.flatMap_cons, List.flatMap_cons, h a (List.mem_cons_self a rest),
      ih (fun b hb => h b (List.mem_cons_of_mem a hb))]

/-- A successful group-level block allocation preserves the inode-side
metadata, only adds block-bitmap bits, writes nothing outside the block
bitmaps, and returns a block whose bitmap bit was clear beforehand. -/
theorem alocar_bloco_em_grupo_spec (c : Estado) (i : Nat) (r : Nat × Estado)
    (h : alocar_bloco_em_grupo c i = some r) :
    MesmosMetadadosDeInodes c r.2 ∧ BitsDeBitmapPreservados c r.2 ∧
    (∀ n, (∀ g, n ≠ (c.gdt.getD g gd0).block_bitmap) →
      r.2.blocos n = c.blocos n) ∧
    bit_esta_setado
      (c.blocos ((c.gdt.getD (grupo_do_bloco c.sb r.1) gd0).block_bitmap))
      (indice_do_bloco c.sb r.1) = false := by
  simp only [alocar_bloco_em_grupo] at h
  split at h
  · split at h
    · rename_i hfree j hj
      have hr := Option.some.inj h
      obtain ⟨hjlt, hjclear, _⟩ := primeiro_bit_livre_spec _ _ _ hj
      subst hr
      have hbpg : 0 < c.sb.blocks_per_group := by omega
      have hgr : grupo_do_bloco c.sb
          (i * c.sb.blocks_per_group + c.sb.first_data_block + j) = i := by
        unfold grupo_do_bloco
        rw [show i * c.sb.blocks_per_group + c.sb.first_data_block + j
            - c.sb.first_data_block = j + i * c.sb.blocks_per_group by omega,
          Nat.add_mul_div_right _ _ hbpg, Nat.div_eq_of_lt hjlt]
        omega
      have hix : indice_do_bloco c.sb
          (i * c.sb.blocks_per_group + c.sb.first_data_block + j) = j := by
        unfold indice_do_bloco
        rw [show i * c.sb.blocks_per_group + c.sb.first_data_block + j
            - c.sb.first_data_block = j + i * c.sb.blocks_per_group by omega,
          Nat.add_mul_mod_self_right, Nat.mod_eq_of_lt hjlt]
      refine ⟨?_, ?_, ?_, ?_⟩
      · refine ⟨?_, ?_, ?_, ?_, ?_, ?_, ?_, ?_, ?_, ?_⟩ <;>
          simp only [escrever_bloco_sb, escrever_bloco_gdt,
            escrever_bloco_inodes, List.length_set]
        intro g d
        refine ⟨?_, ?_, ?_, ?_⟩ <;>
          exact getD_set_campo c.gdt i _ g d _ rfl
      · intro g k hk
        show bit_esta_setado
          ((escrever_bloco c ((c.gdt.getD i gd0).block_bitmap)
            (setar_bit (ler_bloco c ((c.gdt.getD i gd0).block_bitmap)) j)).blocos
            ((c.gdt.getD g gd0).block_bitmap)) k = true
        by_cases hgb : (c.gdt.getD g gd0).block_bitmap
            = (c.gdt.getD i gd0).block_bitmap
        · unfold escrever_bloco
          split
          · show bit_esta_setado
              (if (c.gdt.getD g gd0).block_bitmap
                  = (c.gdt.getD i gd0).block_bitmap
                then setar_bit (ler_bloco c ((c.gdt.getD i gd0).block_bitmap)) j
                else c.blocos ((c.gdt.getD g gd0).block_bitmap)) k = true
            rw [if_pos hgb]
            rw [hgb] at hk
            exact bit_setar_preserva _ j k hk
          · exact hk
        · rw [escrever_bloco_blocos_ne]
          · exact hk
          · exact hgb
      · intro n hn
        show (escrever_bloco c ((c.gdt.getD i gd0).block_bitmap)
          (setar_bit (ler_bloco c ((c.gdt.getD i gd0).block_bitmap)) j)).blocos n
          = c.blocos n
        exact escrever_bloco_blocos_ne _ _ _ n (hn i)
      · rw [hgr, hix]
        exact hjclear
    · exact absurd h (by simp)
  · exact absurd h (by simp)

theorem alocar_bloco_loop_frame (c : Estado) :
    ∀ (restante i : Nat),
      MesmosMetadadosDeInodes c (alocar_bloco_loop c i restante).2 ∧
      BitsDeBitmapPreservados c (alocar_bloco_loop c i restante).2 ∧
      (∀ n, (∀ g, n ≠ (c.gdt.getD g gd0).block_bitmap) →
        (alocar_bloco_loop c i restante).2.blocos n = c.blocos n) ∧
      ((alocar_bloco_loop c i restante).1 ≠ 0 →
        bit_esta_setado
          (c.blocos ((c.gdt.getD
            (grupo_do_bloco c.sb (alocar_bloco_loop c i restante).1)
            gd0).block_bitmap))
          (indice_do_bloco c.sb (alocar_bloco_loop c i restante).1)
          = false) := by
  intro restante
  induction restante with
  | zero =>
    intro i
    exact ⟨metadados_refl c, bits_refl c, fun _ _ => rfl,
      fun h => absurd rfl h⟩
  | succ m ih =>
    intro i
    rw [alocar_bloco_loop]
    cases hg : alocar_bloco_em_grupo c i with
    | some r =>
      obtain ⟨h1, h2, h3, h4⟩ := alocar_bloco_em_grupo_spec c i r hg
      exact ⟨h1, h2, h3, fun _ => h4⟩
    | none => exact ih (i + 1)

/-- `alocar_bloco`: inode-side metadata preserved, block-bitmap bits only
added, writes confined to block bitmaps, and a nonzero result names a
block whose bitmap bit was clear in the pre-state. -/
theorem alocar_bloco_spec (c : Estado) (inum : Nat) :
    MesmosMetadadosDeInodes c (alocar_bloco c inum).2 ∧
    BitsDeBitmapPreservados c (alocar_bloco c inum).2 ∧
    (∀ n, (∀ g, n ≠ (c.gdt.getD g gd0).block_bitmap) →
      (alocar_bloco c inum).2.blocos n = c.blocos n) ∧
    ((alocar_bloco c inum).1 ≠ 0 →
      bit_esta_setado
        (c.blocos ((c.gdt.getD
          (grupo_do_bloco c.sb (alocar_bloco c inum).1)
          gd0).block_bitmap))
        (indice_do_bloco c.sb (alocar_bloco c inum).1) = false) := by
  simp only [alocar_bloco]
  split
  · exact ⟨metadados_refl c, bits_refl c, fun _ _ => rfl,
      fun h => absurd rfl h⟩
  · cases hg : alocar_bloco_em_grupo c ((inum - 1) / c.sb.inodes_per_group)
      with
    | some r =>
      obtain ⟨h1, h2, h3, h4⟩ := alocar_bloco_em_grupo_spec c _ r hg
      exact ⟨h1, h2, h3, fun _ => h4⟩
    | none => exact alocar_bloco_loop_frame c (num_grupos c.sb) 0

/-- `liberar_bloco` preserves the inode-side metadata and writes only
block-bitmap blocks. -/
theorem liberar_bloco_frame (c : Estado) (b : Nat) :
    MesmosMetadadosDeInodes c (liberar_bloco c b).2 ∧
    (∀ n, (∀ g, n ≠ (c.gdt.getD g gd0).block_bitmap) →
      (liberar_bloco c b).2.blocos n = c.blocos n) := by
  simp only [liberar_bloco]
  split
  · exact ⟨metadados_refl c, fun _ _ => rfl⟩
  · split
    · exact ⟨metadados_refl c, fun _ _ => rfl⟩
    · split
      · constructor
        · refine ⟨?_, ?_, ?_, ?_, ?_, ?_, ?_, ?_, ?_, ?_⟩ <;>
            simp only [escrever_bloco_sb, escrever_bloco_gdt,
              escrever_bloco_inodes, List.length_set]
          intro g d
          refine ⟨?_, ?_, ?_, ?_⟩ <;>
            exact getD_set_campo c.gdt _ _ g d _ rfl
        · intro n hn
          exact escrever_bloco_blocos_ne _ _ _ n
            (hn ((b - c.sb.first_data_block) / c.sb.blocks_per_group))
      · exact ⟨metadados_refl c, fun _ _ => rfl⟩

theorem nao_bitmap_transfer (s c : Estado) (n : Nat)
    (hM : MesmosMetadadosDeInodes s c)
    (h : ∀ g, n ≠ (s.gdt.getD g gd0).block_bitmap) :
    ∀ g, n ≠ (c.gdt.getD g gd0).block_bitmap := by
  intro g
  rw [(hM.gdt_campos g gd0).1]
  exact h g

/-- A freshly allocated block is distinct from every block whose bitmap
bit was set in the original state `s` (the allocation may happen in a
later state `c`, as long as no set bit was cleared in between). -/
theorem bloco_alocado_distinto (s c : Estado) (inum alvo : Nat)
    (hM : MesmosMetadadosDeInodes s c)
    (hB : BitsDeBitmapPreservados s c)
    (halvo : BitDeBlocoSetado s alvo)
    (hnz : (alocar_bloco c inum).1 ≠ 0) :
    (alocar_bloco c inum).1 ≠ alvo := by
  intro heq
  have hfresh := (alocar_bloco_spec c inum).2.2.2 hnz
  rw [heq] at hfresh
  have hgr : grupo_do_bloco c.sb alvo = grupo_do_bloco s.sb alvo := by
    unfold grupo_do_bloco
    rw [hM.first_data_block, hM.blocks_per_group]
  have hix : indice_do_bloco c.sb alvo = indice_do_bloco s.sb alvo := by
    unfold indice_do_bloco
    rw [hM.first_data_block, hM.blocks_per_group]
  rw [hgr, hix, (hM.gdt_campos (grupo_do_bloco s.sb alvo) gd0).1] at hfresh
  have hset := hB (grupo_do_bloco s.sb alvo) (indice_do_bloco s.sb alvo) halvo
  rw [hset] at hfresh
  exact absurd hfresh (by simp)

/-- A freshly allocated block is no block bitmap, provided every nonzero
block bitmap is itself marked used. -/
theorem bloco_alocado_nao_bitmap (s c : Estado) (inum : Nat)
    (hM : MesmosMetadadosDeInodes s c)
    (hB : BitsDeBitmapPreservados s c)
    (hbb_set : ∀ g, (s.gdt.getD g gd0).block_bitmap ≠ 0 →
      BitDeBlocoSetado s ((s.gdt.getD g gd0).block_bitmap))
    (hnz : (alocar_bloco c inum).1 ≠ 0) :
    ∀ g, (alocar_bloco c inum).1 ≠ (s.gdt.getD g gd0).block_bitmap := by
  intro g heq
  by_cases h0 : (s.gdt.getD g gd0).block_bitmap = 0
  · rw [h0] at heq
    exact hnz heq
  · exact bloco_alocado_distinto s c inum _ hM hB (hbb_set g h0) hnz heq

/-- The block numbers `adicionar_entrada_diretorio` can reach through the
parent's pointer tree: the 12 direct slots, the single- and
double-indirect pointer blocks and every pointer read from them (zero
pointers are kept; the list is a superset of the blocks actually
visited). -/
def BlocosAlcancaveis (s : Estado) (pai : inode) : List Nat :=
  let ppb := calcular_tamanho_do_bloco s.sb / 4
  ((List.range 12).map (fun i => pai.block.getD i 0)) ++
  (pai.block.getD 12 0 ::
    lerPonteiros (ler_bloco s (pai.block.getD 12 0)) ppb) ++
  (pai.block.getD 13 0 ::
    (lerPonteiros (ler_bloco s (pai.block.getD 13 0)) ppb ++
      (lerPonteiros (ler_bloco s (pai.block.getD 13 0)) ppb).flatMap
        (fun p => lerPonteiros (ler_bloco s p) ppb)))

theorem alcancavel_direto (s : Estado) (pai : inode) (b : Nat)
    (h : b ∈ (List.range 12).map (fun i => pai.block.getD i 0)) :
    b ∈ BlocosAlcancaveis s pai := by
  simp only [BlocosAlcancaveis]
  exact List.mem_append_left _ (List.mem_append_left _ h)

theorem alcancavel_12 (s : Estado) (pai : inode) :
    pai.block.getD 12 0 ∈ BlocosAlcancaveis s pai := by
  simp only [BlocosAlcancaveis]
  exact List.mem_append_left _
    (List.mem_append_right _ (List.mem_cons_self _ _))

theorem alcancavel_l1 (s : Estado) (pai : inode) (b : Nat)
    (h : b ∈ lerPonteiros (ler_bloco s (pai.block.getD 12 0))
      (calcular_tamanho_do_bloco s.sb / 4)) :
    b ∈ BlocosAlcancaveis s pai := by
  simp only [BlocosAlcancaveis]
  exact List.mem_append_left _
    (List.mem_append_right _ (List.mem_cons_of_mem _ h))

theorem alcancavel_13 (s : Estado) (pai : inode) :
    pai.block.getD 13 0 ∈ BlocosAlcancaveis s pai := by
  simp only [BlocosAlcancaveis]
  exact List.mem_append_right _ (List.mem_cons_self _ _)

theorem alcancavel_l1d (s : Estado) (pai : inode) (b : Nat)
    (h : b ∈ lerPonteiros (ler_bloco s (pai.block.getD 13 0))
      (calcular_tamanho_do_bloco s.sb / 4)) :
    b ∈ BlocosAlcancaveis s pai := by
  simp only [BlocosAlcancaveis]
  exact List.mem_append_right _
    (List.mem_cons_of_mem _ (List.mem_append_left _ h))

theorem alcancavel_l2d (s : Estado) (pai : inode) (p b : Nat)
    (hp : p ∈ lerPonteiros (ler_bloco s (pai.block.getD 13 0))
      (calcular_tamanho_do_bloco s.sb / 4))
    (hb : b ∈ lerPonteiros (ler_bloco s p)
      (calcular_tamanho_do_bloco s.sb / 4)) :
    b ∈ BlocosAlcancaveis s pai := by
  simp only [BlocosAlcancaveis]
  exact List.mem_append_right _
    (List.mem_cons_of_mem _
      (List.mem_append_right _ (List.mem_flatMap.mpr ⟨p, hp, hb⟩)))

/-- Phase 1 writes a single existing block (and nothing else). -/
theorem tentar_inserir_frame (s : Estado) (b filho : Nat) (nome : List Nat)
    (tipo nec : Nat) (s2 : Estado)
    (h : tentar_inserir_no_bloco s b filho nome tipo nec = some s2) :
    MesmosMetadadosDeInodes s s2 ∧
    ∀ n, n ≠ b → s2.blocos n = s.blocos n := by
  simp only [tentar_inserir_no_bloco] at h
  split at h
  · exact absurd h (by simp)
  · split at h
    · rename_i bytes hbytes
      have hs := Option.some.inj h
      subst hs
      exact ⟨metadados_escrever_bloco s b bytes,
        fun n hn => escrever_bloco_blocos_ne s b bytes n hn⟩
    · exact absurd h (by simp)

theorem fase1_blocos_frame (s : Estado) (filho : Nat) (nome : List Nat)
    (tipo nec : Nat) :
    ∀ (bl : List Nat) (s2 : Estado),
      fase1_blocos s filho nome tipo nec bl = some s2 →
      MesmosMetadadosDeInodes s s2 ∧
      ∃ b, b ∈ bl ∧ ∀ n, n ≠ b → s2.blocos n = s.blocos n := by
  intro bl
  induction bl with
  | nil => intro s2 h; exact absurd h (by simp [fase1_blocos])
  | cons b rest ih =>
    intro s2 h
    rw [fase1_blocos] at h
    split at h
    · rename_i s3 hs3
      have hs := Option.some.inj h
      subst hs
      obtain ⟨hm, hf⟩ := tentar_inserir_frame s b filho nome tipo nec s3 hs3
      exact ⟨hm, b, List.mem_cons_self b rest, hf⟩
    · obtain ⟨hm, bb, hmem, hf⟩ := ih s2 h
      exact ⟨hm, bb, List.mem_cons_of_mem b hmem, hf⟩

theorem fase1_l2_frame (s : Estado) (filho : Nat) (nome : List Nat)
    (tipo nec ppb : Nat) :
    ∀ (pl : List Nat) (s2 : Estado),
      fase1_l2 s filho nome tipo nec ppb pl = some s2 →
      MesmosMetadadosDeInodes s s2 ∧
      ∃ b, (∃ p, p ∈ pl ∧ p ≠ 0 ∧
          b ∈ lerPonteiros (ler_bloco s p) ppb) ∧
        ∀ n, n ≠ b → s2.blocos n = s.blocos n := by
  intro pl
  induction pl with
  | nil => intro s2 h; exact absurd h (by simp [fase1_l2])
  | cons p rest ih =>
    intro s2 h
    rw [fase1_l2] at h
    by_cases hp : p = 0
    · rw [if_pos hp] at h
      obtain ⟨hm, b, ⟨q, hq1, hq2, hq3⟩, hf⟩ := ih s2 h
      exact ⟨hm, b, ⟨q, List.mem_cons_of_mem p hq1, hq2, hq3⟩, hf⟩
    · rw [if_neg hp] at h
      split at h
      · rename_i s3 hs3
        have hs := Option.some.inj h
        subst hs
        obtain ⟨hm, b, hmem, hf⟩ :=
          fase1_blocos_frame s filho nome tipo nec _ s3 hs3
        exact ⟨hm, b, ⟨p, List.mem_cons_self p rest, hp, hmem⟩, hf⟩
      · obtain ⟨hm, b, ⟨q, hq1, hq2, hq3⟩, hf⟩ := ih s2 h
        exact ⟨hm, b, ⟨q, List.mem_cons_of_mem p hq1, hq2, hq3⟩, hf⟩

/-- Frame of the scenario-B linking loop: the inode-side metadata and
the protected block `alvo` survive every iteration. -/
theorem cenario_b_loop_frame (s : Estado) (pai : inode)
    (pai_num novo filho : Nat) (nome : List Nat) (tipo bs ppb l1b : Nat)
    (l1bytes : List Nat) (alvo : Nat)
    (halvo_bb : ∀ g, alvo ≠ (s.gdt.getD g gd0).block_bitmap)
    (halvo_set : BitDeBlocoSetado s alvo)
    (hl1b : l1b ≠ alvo)
    (hnovo : novo ≠ alvo)
    (hl1 : ∀ i, i < ppb → lerU32 l1bytes (4 * i) ≠ alvo) :
    ∀ (fuel i : Nat) (c : Estado), i + fuel ≤ ppb →
      MesmosMetadadosDeInodes s c → BitsDeBitmapPreservados s c →
      c.blocos alvo = s.blocos alvo →
      MesmosMetadadosDeInodes s
        (cenario_b_loop pai pai_num novo filho nome tipo bs ppb l1b l1bytes
          c i fuel).2.2 ∧
      (cenario_b_loop pai pai_num novo filho nome tipo bs ppb l1b l1bytes
        c i fuel).2.2.blocos alvo = s.blocos alvo := by
  intro fuel
  induction fuel with
  | zero =>
    intro i c hle hM hB hav
    rw [cenario_b_loop]
    simp only [preparar_e_escrever_novo_bloco]
    refine ⟨metadados_trans hM (metadados_escrever_bloco c novo _), ?_⟩
    rw [escrever_bloco_blocos_ne c novo _ alvo (Ne.symm hnovo)]
    exact hav
  | succ f ih =>
    intro i c hle hM hB hav
    simp only [cenario_b_loop]
    by_cases h0 : lerU32 l1bytes (4 * i) = 0
    · rw [if_pos h0]
      obtain ⟨hM1, hB1, hfr1, _⟩ := alocar_bloco_spec c pai_num
      have hMa : MesmosMetadadosDeInodes s (alocar_bloco c pai_num).2 :=
        metadados_trans hM hM1
      by_cases hr : (alocar_bloco c pai_num).1 = 0
      · rw [if_pos hr]
        obtain ⟨hM2, hfr2⟩ := liberar_bloco_frame (alocar_bloco c pai_num).2 novo
        refine ⟨metadados_trans hMa hM2, ?_⟩
        rw [hfr2 alvo (nao_bitmap_transfer s _ alvo hMa halvo_bb),
          hfr1 alvo (nao_bitmap_transfer s c alvo hM halvo_bb)]
        exact hav
      · rw [if_neg hr]
        have hrne : (alocar_bloco c pai_num).1 ≠ alvo :=
          bloco_alocado_distinto s c pai_num alvo hM hB halvo_set hr
        simp only [preparar_e_escrever_novo_bloco]
        refine ⟨metadados_trans (metadados_trans (metadados_trans hMa
          (metadados_escrever_bloco _ _ _)) (metadados_escrever_bloco _ _ _))
          (metadados_escrever_bloco _ _ _), ?_⟩
        rw [escrever_bloco_blocos_ne _ novo _ alvo (Ne.symm hnovo),
          escrever_bloco_blocos_ne _ _ _ alvo (Ne.symm hrne),
          escrever_bloco_blocos_ne _ l1b _ alvo (Ne.symm hl1b),
          hfr1 alvo (nao_bitmap_transfer s c alvo hM halvo_bb)]
        exact hav
    · rw [if_neg h0]
      cases hz : primeiro_ponteiro_zero_aux
          (ler_bloco c (lerU32 l1bytes (4 * i))) 0 ppb with
      | some j =>
        have hine : lerU32 l1bytes (4 * i) ≠ alvo := hl1 i (by omega)
        simp only [preparar_e_escrever_novo_bloco]
        refine ⟨metadados_trans (metadados_trans hM
          (metadados_escrever_bloco _ _ _))
          (metadados_escrever_bloco _ _ _), ?_⟩
        rw [escrever_bloco_blocos_ne _ novo _ alvo (Ne.symm hnovo),
          escrever_bloco_blocos_ne _ _ _ alvo (Ne.symm hine)]
        exact hav
      | none =>
        exact ih (i + 1) c (by omega) hM hB hav

/-- Frame of phase 2 (fresh-block allocation and linking): the
inode-side metadata and the protected block `alvo` are preserved on
every path, including the rollbacks. -/
theorem fase2_frame (s : Estado) (pai : inode) (pai_num filho : Nat)
    (nome : List Nat) (tipo alvo : Nat)
    (halvo_bb : ∀ g, alvo ≠ (s.gdt.getD g gd0).block_bitmap)
    (halvo_reach : alvo ∉ BlocosAlcancaveis s pai)
    (halvo_set : BitDeBlocoSetado s alvo)
    (hbb_set : ∀ g, (s.gdt.getD g gd0).block_bitmap ≠ 0 →
      BitDeBlocoSetado s ((s.gdt.getD g gd0).block_bitmap))
    (hreach_set : ∀ b, b ∈ BlocosAlcancaveis s pai → b ≠ 0 →
      BitDeBlocoSetado s b)
    (hreach_bb : ∀ b, b ∈ BlocosAlcancaveis s pai → b ≠ 0 →
      ∀ g, b ≠ (s.gdt.getD g gd0).block_bitmap) :
    MesmosMetadadosDeInodes s
      (fase2_novo_bloco s pai pai_num filho nome tipo).2.2 ∧
    (fase2_novo_bloco s pai pai_num filho nome tipo).2.2.blocos alvo
      = s.blocos alvo := by
  simp only [fase2_novo_bloco]
  obtain ⟨hM1, hB1, hfr1, _⟩ := alocar_bloco_spec s pai_num
  by_cases hr : (alocar_bloco s pai_num).1 = 0
  · rw [if_pos hr]
    exact ⟨hM1, hfr1 alvo halvo_bb⟩
  · rw [if_neg hr]
    have hnovo_alvo : (alocar_bloco s pai_num).1 ≠ alvo :=
      bloco_alocado_distinto s s pai_num alvo (metadados_refl s)
        (bits_refl s) halvo_set hr
    have hnovo_bb : ∀ g,
        (alocar_bloco s pai_num).1 ≠ (s.gdt.getD g gd0).block_bitmap :=
      bloco_alocado_nao_bitmap s s pai_num (metadados_refl s) (bits_refl s)
        hbb_set hr
    have hM2 : MesmosMetadadosDeInodes s
        (escrever_bloco (alocar_bloco s pai_num).2 (alocar_bloco s pai_num).1
          (montar_bloco_entrada_unica s.sb filho nome tipo)) :=
      metadados_trans hM1 (metadados_escrever_bloco _ _ _)
    have hB2 : BitsDeBitmapPreservados s
        (escrever_bloco (alocar_bloco s pai_num).2 (alocar_bloco s pai_num).1
          (montar_bloco_entrada_unica s.sb filho nome tipo)) :=
      bits_trans hM1 hB1 (bits_escrever _ _ _
        (nao_bitmap_transfer s _ _ hM1 hnovo_bb))
    have hav2 : (escrever_bloco (alocar_bloco s pai_num).2
        (alocar_bloco s pai_num).1
        (montar_bloco_entrada_unica s.sb filho nome tipo)).blocos alvo
        = s.blocos alvo := by
      rw [escrever_bloco_blocos_ne _ _ _ alvo (Ne.symm hnovo_alvo),
        hfr1 alvo halvo_bb]
    set s2 := escrever_bloco (alocar_bloco s pai_num).2
      (alocar_bloco s pai_num).1
      (montar_bloco_entrada_unica s.sb filho nome tipo) with hs2
    cases hsl : primeiro_slot_livre_aux pai.block 0 12 with
    | some i => exact ⟨hM2, hav2⟩
    | none =>
      by_cases h12 : pai.block.getD 12 0 = 0
      · rw [if_pos h12]
        obtain ⟨hM3, hB3, hfr3, _⟩ := alocar_bloco_spec s2 pai_num
        by_cases hri : (alocar_bloco s2 pai_num).1 = 0
        · rw [if_pos hri]
          obtain ⟨hM4, hfr4⟩ :=
            liberar_bloco_frame (alocar_bloco s2 pai_num).2
              (alocar_bloco s pai_num).1
          refine ⟨metadados_trans (metadados_trans hM2 hM3) hM4, ?_⟩
          rw [hfr4 alvo (nao_bitmap_transfer s _ alvo
              (metadados_trans hM2 hM3) halvo_bb),
            hfr3 alvo (nao_bitmap_transfer s s2 alvo hM2 halvo_bb)]
          exact hav2
        · rw [if_neg hri]
          have hri_alvo : (alocar_bloco s2 pai_num).1 ≠ alvo :=
            bloco_alocado_distinto s s2 pai_num alvo hM2 hB2 halvo_set hri
          refine ⟨metadados_trans (metadados_trans hM2 hM3)
            (metadados_escrever_bloco _ _ _), ?_⟩
          rw [escrever_bloco_blocos_ne _ _ _ alvo (Ne.symm hri_alvo),
            hfr3 alvo (nao_bitmap_transfer s s2 alvo hM2 halvo_bb)]
          exact hav2
      · rw [if_neg h12]
        cases hpz : primeiro_ponteiro_zero_aux
            (ler_bloco s2 (pai.block.getD 12 0)) 0
            (calcular_tamanho_do_bloco s.sb / 4) with
        | some i =>
          have h12alvo : pai.block.getD 12 0 ≠ alvo := fun he =>
            halvo_reach (he ▸ alcancavel_12 s pai)
          refine ⟨metadados_trans hM2 (metadados_escrever_bloco _ _ _), ?_⟩
          rw [escrever_bloco_blocos_ne _ _ _ alvo (Ne.symm h12alvo)]
          exact hav2
        | none =>
          by_cases h13 : pai.block.getD 13 0 = 0
          · rw [if_pos h13]
            obtain ⟨hM3, hB3, hfr3, _⟩ := alocar_bloco_spec s2 pai_num
            by_cases hra : (alocar_bloco s2 pai_num).1 = 0
            · rw [if_pos hra]
              obtain ⟨hM4, hfr4⟩ :=
                liberar_bloco_frame (alocar_bloco s2 pai_num).2
                  (alocar_bloco s pai_num).1
              refine ⟨metadados_trans (metadados_trans hM2 hM3) hM4, ?_⟩
              rw [hfr4 alvo (nao_bitmap_transfer s _ alvo
                  (metadados_trans hM2 hM3) halvo_bb),
                hfr3 alvo (nao_bitmap_transfer s s2 alvo hM2 halvo_bb)]
              exact hav2
            · rw [if_neg hra]
              have hMra : MesmosMetadadosDeInodes s
                  (alocar_bloco s2 pai_num).2 := metadados_trans hM2 hM3
              have hBra : BitsDeBitmapPreservados s
                  (alocar_bloco s2 pai_num).2 := bits_trans hM2 hB2 hB3
              have hra_alvo : (alocar_bloco s2 pai_num).1 ≠ alvo :=
                bloco_alocado_distinto s s2 pai_num alvo hM2 hB2 halvo_set hra
              obtain ⟨hM5, hB5, hfr5, _⟩ :=
                alocar_bloco_spec (alocar_bloco s2 pai_num).2 pai_num
              by_cases hrb :
                  (alocar_bloco (alocar_bloco s2 pai_num).2 pai_num).1 = 0
              · rw [if_pos hrb]
                obtain ⟨hM6, hfr6⟩ := liberar_bloco_frame
                  (alocar_bloco (alocar_bloco s2 pai_num).2 pai_num).2
                  (alocar_bloco s2 pai_num).1
                obtain ⟨hM7, hfr7⟩ := liberar_bloco_frame
                  (liberar_bloco
                    (alocar_bloco (alocar_bloco s2 pai_num).2 pai_num).2
                    (alocar_bloco s2 pai_num).1).2
                  (alocar_bloco s pai_num).1
                have hMc := metadados_trans (metadados_trans hMra hM5) hM6
                refine ⟨metadados_trans hMc hM7, ?_⟩
                rw [hfr7 alvo (nao_bitmap_transfer s _ alvo hMc halvo_bb),
                  hfr6 alvo (nao_bitmap_transfer s _ alvo
                    (metadados_trans hMra hM5) halvo_bb),
                  hfr5 alvo (nao_bitmap_transfer s _ alvo hMra halvo_bb),
                  hfr3 alvo (nao_bitmap_transfer s s2 alvo hM2 halvo_bb)]
                exact hav2
              · rw [if_neg hrb]
                have hrb_alvo :
                    (alocar_bloco (alocar_bloco s2 pai_num).2 pai_num).1
                      ≠ alvo :=
                  bloco_alocado_distinto s _ pai_num alvo hMra hBra
                    halvo_set hrb
                simp only [preparar_e_escrever_novo_bloco]
                refine ⟨metadados_trans (metadados_trans (metadados_trans
                  (metadados_trans hMra hM5) (metadados_escrever_bloco _ _ _))
                  (metadados_escrever_bloco _ _ _))
                  (metadados_escrever_bloco _ _ _), ?_⟩
                rw [escrever_bloco_blocos_ne _ _ _ alvo
                    (Ne.symm hnovo_alvo),
                  escrever_bloco_blocos_ne _ _ _ alvo (Ne.symm hra_alvo),
                  escrever_bloco_blocos_ne _ _ _ alvo (Ne.symm hrb_alvo),
                  hfr5 alvo (nao_bitmap_transfer s _ alvo hMra halvo_bb),
                  hfr3 alvo (nao_bitmap_transfer s s2 alvo hM2 halvo_bb)]
                exact hav2
          · rw [if_neg h13]
            have h13alvo : pai.block.getD 13 0 ≠ alvo := fun he =>
              halvo_reach (he ▸ alcancavel_13 s pai)
            have h13set : BitDeBlocoSetado s (pai.block.getD 13 0) :=
              hreach_set _ (alcancavel_13 s pai) h13
            have h13bb : ∀ g,
                pai.block.getD 13 0 ≠ (s.gdt.getD g gd0).block_bitmap :=
              hreach_bb _ (alcancavel_13 s pai) h13
            have hnovo13 : (alocar_bloco s pai_num).1 ≠ pai.block.getD 13 0 :=
              bloco_alocado_distinto s s pai_num _ (metadados_refl s)
                (bits_refl s) h13set hr
            have hl1eq : ler_bloco s2 (pai.block.getD 13 0)
                = ler_bloco s (pai.block.getD 13 0) := by
              show s2.blocos _ = s.blocos _
              rw [hs2, escrever_bloco_blocos_ne _ _ _ _ (Ne.symm hnovo13),
                hfr1 _ h13bb]
            rw [hl1eq]
            have hl1mem : ∀ i, i < calcular_tamanho_do_bloco s.sb / 4 →
                lerU32 (ler_bloco s (pai.block.getD 13 0)) (4 * i) ≠ alvo :=
              fun i hi he => halvo_reach (he ▸ alcancavel_l1d s pai _
                (lerU32_mem_lerPonteiros _ _ i hi))
            exact cenario_b_loop_frame s pai pai_num (alocar_bloco s pai_num).1
              filho nome tipo (calcular_tamanho_do_bloco s.sb)
              (calcular_tamanho_do_bloco s.sb / 4) (pai.block.getD 13 0)
              (ler_bloco s (pai.block.getD 13 0)) alvo halvo_bb halvo_set
              h13alvo hnovo_alvo hl1mem
              (calcular_tamanho_do_bloco s.sb / 4) 0 s2 (by omega) hM2 hB2 hav2

/-- Frame of the whole directory-entry insertion: the inode-side
metadata (superblock geometry and free-inode count, the inode map, every
group-descriptor field except `free_blocks_count`) and the content of
any protected block `alvo` are preserved, on every success and failure
path. -/
theorem adicionar_frame (s : Estado) (pai : inode) (pai_num filho : Nat)
    (nome : List Nat) (tipo alvo : Nat)
    (halvo_bb : ∀ g, alvo ≠ (s.gdt.getD g gd0).block_bitmap)
    (halvo_reach : alvo ∉ BlocosAlcancaveis s pai)
    (halvo_set : BitDeBlocoSetado s alvo)
    (hbb_set : ∀ g, (s.gdt.getD g gd0).block_bitmap ≠ 0 →
      BitDeBlocoSetado s ((s.gdt.getD g gd0).block_bitmap))
    (hreach_set : ∀ b, b ∈ BlocosAlcancaveis s pai → b ≠ 0 →
      BitDeBlocoSetado s b)
    (hreach_bb : ∀ b, b ∈ BlocosAlcancaveis s pai → b ≠ 0 →
      ∀ g, b ≠ (s.gdt.getD g gd0).block_bitmap) :
    MesmosMetadadosDeInodes s
      (adicionar_entrada_diretorio s pai pai_num filho nome tipo).2.2 ∧
    (adicionar_entrada_diretorio s pai pai_num filho nome tipo).2.2.blocos
      alvo = s.blocos alvo := by
  simp only [adicionar_entrada_diretorio]
  cases hf1 : fase1_blocos s filho nome tipo (rec_len_necessario nome)
      ((List.range 12).map fun i => pai.block.getD i 0) with
  | some s2 =>
    obtain ⟨hm, b, hmem, hf⟩ :=
      fase1_blocos_frame s filho nome tipo (rec_len_necessario nome) _ s2 hf1
    have hba : b ≠ alvo := fun he =>
      halvo_reach (he ▸ alcancavel_direto s pai b hmem)
    exact ⟨hm, hf alvo (Ne.symm hba)⟩
  | none =>
    by_cases h12 : pai.block.getD 12 0 ≠ 0
    · rw [if_pos h12]
      cases hf2 : fase1_blocos s filho nome tipo (rec_len_necessario nome)
          (lerPonteiros (ler_bloco s (pai.block.getD 12 0))
            (calcular_tamanho_do_bloco s.sb / 4)) with
      | some s2 =>
        obtain ⟨hm, b, hmem, hf⟩ := fase1_blocos_frame s filho nome tipo
          (rec_len_necessario nome) _ s2 hf2
        have hba : b ≠ alvo := fun he =>
          halvo_reach (he ▸ alcancavel_l1 s pai b hmem)
        exact ⟨hm, hf alvo (Ne.symm hba)⟩
      | none =>
        by_cases h13 : pai.block.getD 13 0 ≠ 0
        · rw [if_pos h13]
          cases hf3 : fase1_l2 s filho nome tipo (rec_len_necessario nome)
              (calcular_tamanho_do_bloco s.sb / 4)
              (lerPonteiros (ler_bloco s (pai.block.getD 13 0))
                (calcular_tamanho_do_bloco s.sb / 4)) with
          | some s2 =>
            obtain ⟨hm, b, ⟨p, hp, hpne, hbp⟩, hf⟩ := fase1_l2_frame s filho
              nome tipo (rec_len_necessario nome) _ _ s2 hf3
            have hba : b ≠ alvo := fun he =>
              halvo_reach (he ▸ alcancavel_l2d s pai p b hp hbp)
            exact ⟨hm, hf alvo (Ne.symm hba)⟩
          | none =>
            exact fase2_frame s pai pai_num filho nome tipo alvo halvo_bb
              halvo_reach halvo_set hbb_set hreach_set hreach_bb
        · rw [if_neg h13]
          exact fase2_frame s pai pai_num filho nome tipo alvo halvo_bb
            halvo_reach halvo_set hbb_set hreach_set hreach_bb
    · rw [if_neg h12]
      by_cases h13 : pai.block.getD 13 0 ≠ 0
      · rw [if_pos h13]
        cases hf3 : fase1_l2 s filho nome tipo (rec_len_necessario nome)
            (calcular_tamanho_do_bloco s.sb / 4)
            (lerPonteiros (ler_bloco s (pai.block.getD 13 0))
              (calcular_tamanho_do_bloco s.sb / 4)) with
        | some s2 =>
          obtain ⟨hm, b, ⟨p, hp, hpne, hbp⟩, hf⟩ := fase1_l2_frame s filho
            nome tipo (rec_len_necessario nome) _ _ s2 hf3
          have hba : b ≠ alvo := fun he =>
            halvo_reach (he ▸ alcancavel_l2d s pai p b hp hbp)
          exact ⟨hm, hf alvo (Ne.symm hba)⟩
        | none =>
          exact fase2_frame s pai pai_num filho nome tipo alvo halvo_bb
            halvo_reach halvo_set hbb_set hreach_set hreach_bb
      · rw [if_neg h13]
        exact fase2_frame s pai pai_num filho nome tipo alvo halvo_bb
          halvo_reach halvo_set hbb_set hreach_set hreach_bb

theorem alcancaveis_congr (s s' : Estado) (pai : inode)
    (hbs : calcular_tamanho_do_bloco s'.sb = calcular_tamanho_do_bloco s.sb)
    (hbl : ∀ b, b ∈ BlocosAlcancaveis s pai → s'.blocos b = s.blocos b) :
    BlocosAlcancaveis s' pai = BlocosAlcancaveis s pai := by
  have h12 : ler_bloco s' (pai.block.getD 12 0)
      = ler_bloco s (pai.block.getD 12 0) := hbl _ (alcancavel_12 s pai)
  have h13 : ler_bloco s' (pai.block.getD 13 0)
      = ler_bloco s (pai.block.getD 13 0) := hbl _ (alcancavel_13 s pai)
  simp only [BlocosAlcancaveis]
  rw [hbs, h12, h13]
  rw [flatMap_congr_mem
    (lerPonteiros (ler_bloco s (pai.block.getD 13 0))
      (calcular_tamanho_do_bloco s.sb / 4))
    (fun p => lerPonteiros (ler_bloco s' p)
      (calcular_tamanho_do_bloco s.sb / 4))
    (fun p => lerPonteiros (ler_bloco s p)
      (calcular_tamanho_do_bloco s.sb / 4))
    (fun p hp => by
      show lerPonteiros (ler_bloco s' p) (calcular_tamanho_do_bloco s.sb / 4)
        = lerPonteiros (ler_bloco s p) (calcular_tamanho_do_bloco s.sb / 4)
      rw [show ler_bloco s' p = ler_bloco s p from
        hbl p (alcancavel_l1d s pai p hp)])]

theorem apos_alocar_inode_bb (s : Estado) (g j g' : Nat) (d : group_desc) :
    ((estado_apos_alocar_inode s g j).gdt.getD g' d).block_bitmap
      = (s.gdt.getD g' d).block_bitmap :=
  getD_set_campo s.gdt g _ g' d group_desc.block_bitmap rfl

theorem apos_alocar_inode_ib (s : Estado) (g j g' : Nat) (d : group_desc) :
    ((estado_apos_alocar_inode s g j).gdt.getD g' d).inode_bitmap
      = (s.gdt.getD g' d).inode_bitmap :=
  getD_set_campo s.gdt g _ g' d group_desc.inode_bitmap rfl

theorem apos_alocar_inode_blocos_ne (s : Estado) (g j n : Nat)
    (h : n ≠ (s.gdt.getD g gd0).inode_bitmap) :
    (estado_apos_alocar_inode s g j).blocos n = s.blocos n := by
  show (if n = (s.gdt.getD g gd0).inode_bitmap
      then setar_bit (s.blocos ((s.gdt.getD g gd0).inode_bitmap)) j
      else s.blocos n) = s.blocos n
  exact if_neg h

theorem apos_alocar_inode_blocos_ib (s : Estado) (g j : Nat) :
    (estado_apos_alocar_inode s g j).blocos
      ((s.gdt.getD g gd0).inode_bitmap)
      = setar_bit (s.blocos ((s.gdt.getD g gd0).inode_bitmap)) j := by
  show (if (s.gdt.getD g gd0).inode_bitmap
        = (s.gdt.getD g gd0).inode_bitmap
      then setar_bit (s.blocos ((s.gdt.getD g gd0).inode_bitmap)) j
      else s.blocos ((s.gdt.getD g gd0).inode_bitmap))
    = setar_bit (s.blocos ((s.gdt.getD g gd0).inode_bitmap)) j
  exact if_pos rfl

theorem apos_alocar_inode_bit (s : Estado) (g j b : Nat)
    (h : (s.gdt.getD (grupo_do_bloco s.sb b) gd0).block_bitmap
      ≠ (s.gdt.getD g gd0).inode_bitmap) :
    BitDeBlocoSetado (estado_apos_alocar_inode s g j) b
      ↔ BitDeBlocoSetado s b := by
  unfold BitDeBlocoSetado
  have hg : grupo_do_bloco (estado_apos_alocar_inode s g j).sb b
      = grupo_do_bloco s.sb b := rfl
  have hi : indice_do_bloco (estado_apos_alocar_inode s g j).sb b
      = indice_do_bloco s.sb b := rfl
  rw [hg, hi, apos_alocar_inode_bb s g j _ gd0,
    apos_alocar_inode_blocos_ne s g j _ h]

/-! ## `comando_touch` (claim C7)

`comando_touch` copies its argument with `strncpy` into two 1024-byte
buffers (hence silently truncated to 1023 bytes for long arguments, as
in `caminho_para_inode`) and splits it with the libc `dirname` and
`basename`.  The two libc functions are external to the repository and
are modelled from their POSIX specification. -/

/-- Modelled from the spec: POSIX `basename(3)` — strip trailing
slashes; an empty path gives `"."`, an all-slash path gives `"/"`,
otherwise the final path component. -/
def basename_posix (p : List Nat) : List Nat :=
  let q := (p.reverse.dropWhile (fun c => c = 47)).reverse
  if p = [] then [46]
  else if q = [] then [47]
  else (q.splitOn 47).getLastD []

/-- Modelled from the spec: POSIX `dirname(3)` — strip trailing slashes
and the final component; no remaining slash gives `"."`, a root result
gives `"/"`. -/
def dirname_posix (p : List Nat) : List Nat :=
  let q := (p.reverse.dropWhile (fun c => c = 47)).reverse
  if q = [] then (if p = [] then [46] else [47])
  else
    let r := (q.reverse.dropWhile (fun c => c ≠ 47)).reverse
    let r2 := (r.reverse.dropWhile (fun c => c = 47)).reverse
    if r = [] then [46]
    else if r2 = [] then [47]
    else r2

inductive ResultadoTouch where
  | nomeLongo
  | paiNaoEncontrado
  | paiNaoDiretorio
  | jaExiste
  | falhaAlocarInode
  | falhaInserir
  | sucesso
deriving DecidableEq

/-- `comando_touch`: resolve the parent with `dirname`, check the name
length and that the parent is a directory, fail with "file exists" if
the basename is already present; otherwise allocate an inode and insert
the directory entry, rolling the allocation back with `liberar_inode`
if the insertion fails; on success write the fresh inode and the
parent's new `mtime` (`time(NULL)` is passed in as `agora`). -/
def comando_touch (s : Estado) (inode_dir_atual : Nat) (argumentos : List Nat)
    (agora : Nat) : ResultadoTouch × Estado :=
  let arg := argumentos.take 1023
  let dir_pai := dirname_posix arg
  let nome := basename_posix arg
  if EXT2_NAME_LEN < nome.length then (ResultadoTouch.nomeLongo, s)
  else
    let inode_pai_num := caminho_para_inode s inode_dir_atual dir_pai
    if inode_pai_num = 0 then (ResultadoTouch.paiNaoEncontrado, s)
    else
      match ler_inode s inode_pai_num with
      | none => (ResultadoTouch.paiNaoDiretorio, s)
      | some inode_pai =>
        if ¬ (EXT2_IS_DIR inode_pai.mode = true) then
          (ResultadoTouch.paiNaoDiretorio, s)
        else if procurar_entrada_no_diretorio s inode_pai_num nome ≠ 0 then
          (ResultadoTouch.jaExiste, s)
        else
          let ra := alocar_inode s
          if ra.1 = 0 then (ResultadoTouch.falhaAlocarInode, ra.2)
          else
            let radd := adicionar_entrada_diretorio ra.2 inode_pai
              inode_pai_num ra.1 nome EXT2_FT_REG_FILE
            if radd.1 ≠ 0 then
              (ResultadoTouch.falhaInserir, (liberar_inode radd.2.2 ra.1).2)
            else
              let novo_ino : inode :=
                { mode := EXT2_S_IFREG ||| 420, uid := 0, size := 0,
                  atime := agora, ctime := agora, mtime := agora, dtime := 0,
                  gid := 0, links_count := 1, blocks := 0, flags := 0,
                  block := List.replicate 15 0 }
              let s3 := escrever_inode radd.2.2 ra.1 novo_ino
              let pai2 := { radd.2.1 with mtime := agora }
              (ResultadoTouch.sucesso, escrever_inode s3 inode_pai_num pai2)

theorem getD_set_oob {α : Type} (l : List α) (i : Nat) (v : α) (g : Nat)
    (d : α) (h : ¬ g < l.length) : (l.set i v).getD g d = l.getD g d := by
  rw [getD_oob l g d (by omega),
    getD_oob (l.set i v) g d (by rw [List.length_set]; omega)]

/-- Counter effect of `liberar_inode` on a valid, currently-set inode
number, in the `uint` wraparound form the code computes. -/
theorem liberar_inode_contadores (s : Estado) (inode_num : Nat)
    (hval : ¬(inode_num = 0 ∨ s.sb.inodes_count < inode_num))
    (hbit : bit_esta_setado
      (s.blocos ((s.gdt.getD ((inode_num - 1) / s.sb.inodes_per_group)
        gd0).inode_bitmap))
      ((inode_num - 1) % s.sb.inodes_per_group) = true)
    (hwvz : escrever_bloco_valido s.sb
      ((s.gdt.getD ((inode_num - 1) / s.sb.inodes_per_group)
        gd0).inode_bitmap) = true) :
    (liberar_inode s inode_num).2.sb.free_inodes_count
      = (s.sb.free_inodes_count + 1) % 4294967296 ∧
    ∀ g d, ((liberar_inode s inode_num).2.gdt.getD g d).free_inodes_count
      = if g = (inode_num - 1) / s.sb.inodes_per_group ∧ g < s.gdt.length
        then ((s.gdt.getD g gd0).free_inodes_count + 1) % 65536
        else (s.gdt.getD g d).free_inodes_count := by
  simp only [liberar_inode]
  rw [if_neg hval, if_neg (fun hc => hc hbit), if_pos hwvz]
  constructor
  · simp only [escrever_bloco_sb]
  · intro g d
    simp only [escrever_bloco_gdt]
    by_cases hg : g = (inode_num - 1) / s.sb.inodes_per_group
    · subst hg
      by_cases hlen : (inode_num - 1) / s.sb.inodes_per_group < s.gdt.length
      · rw [getD_set_self_geral _ _ _ _ hlen, if_pos ⟨rfl, hlen⟩]
      · rw [getD_set_oob _ _ _ _ _ hlen, if_neg (fun hc => hlen hc.2)]
    · rw [getD_set_ne_geral _ _ _ _ _ hg, if_neg (fun hc => hg hc.1)]

set_option maxHeartbeats 1000000 in
/-- **C7.** `comando_touch` error handling.  (a) When the basename
already exists in the resolved parent directory, the command fails with
"file exists" and the filesystem state is completely unchanged.  (b) On
every run that ends in the insertion-failure rollback (`falhaInserir`),
the freshly allocated inode has been freed again: the superblock
free-inode count and every group descriptor's free-inode count equal
their values before the operation.  The hypotheses are the consistency
of the volume: allocator counters consistent with the bitmaps (as in
C5), GDT length matching the group count, counters within their integer
ranges, inode bitmaps large enough and writable, and all metadata
blocks (block bitmaps, inode bitmaps, the parent's pointer tree) marked
used in the block bitmaps and disjoint from the block bitmaps. -/
theorem comando_touch_rollback (s : Estado) (cwd agora : Nat)
    (arg : List Nat) (pai_num : Nat) (pai : inode)
    (hpn : caminho_para_inode s cwd (dirname_posix (arg.take 1023)) = pai_num)
    (hpi : s.inodes pai_num = pai)
    (hcons : ∀ i, i < num_grupos s.sb →
      0 < (s.gdt.getD i gd0).free_inodes_count →
      (primeiro_bit_livre (s.blocos ((s.gdt.getD i gd0).inode_bitmap))
        s.sb.inodes_per_group).isSome = true)
    (hwv : ∀ i, i < num_grupos s.sb →
      escrever_bloco_valido s.sb ((s.gdt.getD i gd0).inode_bitmap) = true)
    (hex : 0 < s.sb.free_inodes_count →
      ∃ g, g < num_grupos s.sb ∧ 0 < (s.gdt.getD g gd0).free_inodes_count)
    (hgdtlen : s.gdt.length = num_grupos s.sb)
    (hng : num_grupos s.sb * s.sb.inodes_per_group ≤ s.sb.inodes_count)
    (hfree_lt : s.sb.free_inodes_count < 4294967296)
    (hgd_lt : ∀ g, g < num_grupos s.sb →
      (s.gdt.getD g gd0).free_inodes_count < 65536)
    (hbmlen : ∀ g, g < num_grupos s.sb →
      s.sb.inodes_per_group
        ≤ 8 * (s.blocos ((s.gdt.getD g gd0).inode_bitmap)).length)
    (hib_bb : ∀ g, g < num_grupos s.sb → ∀ g',
      (s.gdt.getD g gd0).inode_bitmap
        ≠ (s.gdt.getD g' gd0).block_bitmap)
    (hib_reach : ∀ g, g < num_grupos s.sb →
      (s.gdt.getD g gd0).inode_bitmap ∉ BlocosAlcancaveis s pai)
    (hib_set : ∀ g, g < num_grupos s.sb →
      BitDeBlocoSetado s ((s.gdt.getD g gd0).inode_bitmap))
    (hbb_set : ∀ g, (s.gdt.getD g gd0).block_bitmap ≠ 0 →
      BitDeBlocoSetado s ((s.gdt.getD g gd0).block_bitmap))
    (hreach_set : ∀ b, b ∈ BlocosAlcancaveis s pai → b ≠ 0 →
      BitDeBlocoSetado s b)
    (hreach_bb : ∀ b, b ∈ BlocosAlcancaveis s pai → b ≠ 0 →
      ∀ g, b ≠ (s.gdt.getD g gd0).block_bitmap) :
    (((basename_posix (arg.take 1023)).length ≤ EXT2_NAME_LEN ∧
      pai_num ≠ 0 ∧ pai_num ≤ s.sb.inodes_count ∧
      EXT2_IS_DIR pai.mode = true ∧
      procurar_entrada_no_diretorio s pai_num
        (basename_posix (arg.take 1023)) ≠ 0) →
      comando_touch s cwd arg agora = (ResultadoTouch.jaExiste, s)) ∧
    (∀ s', comando_touch s cwd arg agora
        = (ResultadoTouch.falhaInserir, s') →
      s'.sb.free_inodes_count = s.sb.free_inodes_count ∧
      ∀ g d, (s'.gdt.getD g d).free_inodes_count
        = (s.gdt.getD g d).free_inodes_count) := by
  constructor
  · rintro ⟨hlen, hpn0, hple, hdir, hproc⟩
    simp only [comando_touch]
    rw [hpn, if_neg (Nat.not_lt.mpr hlen), if_neg hpn0]
    have hli : ler_inode s pai_num = some pai := by
      unfold ler_inode
      rw [if_neg (by push_neg; exact ⟨hpn0, hple⟩), hpi]
    simp only [hli]
    rw [if_neg (fun hc => hc hdir), if_pos hproc]
  · intro s' hrun
    simp only [comando_touch] at hrun
    rw [hpn] at hrun
    by_cases hlen : EXT2_NAME_LEN < (basename_posix (arg.take 1023)).length
    · rw [if_pos hlen] at hrun
      simp at hrun
    · rw [if_neg hlen] at hrun
      by_cases hpn0 : pai_num = 0
      · rw [if_pos hpn0] at hrun
        simp at hrun
      · rw [if_neg hpn0] at hrun
        by_cases hple : s.sb.inodes_count < pai_num
        · rw [show ler_inode s pai_num = none from by
            unfold ler_inode; rw [if_pos (Or.inr hple)]] at hrun
          simp at hrun
        · have hli : ler_inode s pai_num = some pai := by
            unfold ler_inode
            rw [if_neg (by push_neg; exact ⟨hpn0, Nat.le_of_not_lt hple⟩),
              hpi]
          simp only [hli] at hrun
          by_cases hdir : EXT2_IS_DIR pai.mode = true
          · rw [if_neg (fun hc => hc hdir)] at hrun
            by_cases hproc : procurar_entrada_no_diretorio s pai_num
                (basename_posix (arg.take 1023)) ≠ 0
            · rw [if_pos hproc] at hrun
              simp at hrun
            · rw [if_neg hproc] at hrun
              by_cases hfree0 : s.sb.free_inodes_count = 0
              · rw [show alocar_inode s = (0, s) from by
                  unfold alocar_inode; rw [if_pos hfree0]] at hrun
                simp at hrun
              · obtain ⟨g0, hg0_lt, hg0_free⟩ :=
                  hex (Nat.pos_of_ne_zero hfree0)
                obtain ⟨g', j, h1, h2, h3, h4, hjlt, hjclear, hjprev, heq⟩ :=
                  alocar_inode_loop_spec s hcons hwv (num_grupos s.sb) 0
                    (by omega) ⟨g0, Nat.zero_le g0, hg0_lt, hg0_free⟩
                have halloc : alocar_inode s
                    = (g' * s.sb.inodes_per_group + j + 1,
                       estado_apos_alocar_inode s g' j) := by
                  unfold alocar_inode
                  rw [if_neg hfree0]
                  exact heq
                simp only [halloc] at hrun
                rw [if_neg
                  (by simp : ¬(g' * s.sb.inodes_per_group + j + 1 = 0))]
                  at hrun
                by_cases hadd : (adicionar_entrada_diretorio
                    (estado_apos_alocar_inode s g' j) pai pai_num
                    (g' * s.sb.inodes_per_group + j + 1)
                    (basename_posix (arg.take 1023))
                    EXT2_FT_REG_FILE).1 ≠ 0
                swap
                · rw [if_neg hadd] at hrun
                  simp at hrun
                · rw [if_pos hadd] at hrun
                  have hs' : (liberar_inode (adicionar_entrada_diretorio
                      (estado_apos_alocar_inode s g' j) pai pai_num
                      (g' * s.sb.inodes_per_group + j + 1)
                      (basename_posix (arg.take 1023))
                      EXT2_FT_REG_FILE).2.2
                      (g' * s.sb.inodes_per_group + j + 1)).2 = s' :=
                    congrArg Prod.snd hrun
                  subst hs'
                  have hAeq : BlocosAlcancaveis
                      (estado_apos_alocar_inode s g' j) pai
                      = BlocosAlcancaveis s pai :=
                    alcancaveis_congr s _ pai rfl (fun b hb =>
                      apos_alocar_inode_blocos_ne s g' j b
                        (fun he => hib_reach g' h2 (he ▸ hb)))
                  have P1 : ∀ gg, (s.gdt.getD g' gd0).inode_bitmap
                      ≠ (((estado_apos_alocar_inode s g' j).gdt.getD gg
                        gd0)).block_bitmap := fun gg => by
                    rw [apos_alocar_inode_bb s g' j gg gd0]
                    exact hib_bb g' h2 gg
                  have P2 : (s.gdt.getD g' gd0).inode_bitmap
                      ∉ BlocosAlcancaveis
                        (estado_apos_alocar_inode s g' j) pai := by
                    rw [hAeq]
                    exact hib_reach g' h2
                  have P3 : BitDeBlocoSetado
                      (estado_apos_alocar_inode s g' j)
                      ((s.gdt.getD g' gd0).inode_bitmap) := by
                    rw [apos_alocar_inode_bit s g' j _
                      (Ne.symm (hib_bb g' h2 _))]
                    exact hib_set g' h2
                  have P4 : ∀ gg,
                      (((estado_apos_alocar_inode s g' j).gdt.getD gg
                        gd0)).block_bitmap ≠ 0 →
                      BitDeBlocoSetado (estado_apos_alocar_inode s g' j)
                        (((estado_apos_alocar_inode s g' j).gdt.getD gg
                          gd0)).block_bitmap := by
                    intro gg hne
                    rw [apos_alocar_inode_bb s g' j gg gd0] at hne ⊢
                    rw [apos_alocar_inode_bit s g' j _
                      (Ne.symm (hib_bb g' h2 _))]
                    exact hbb_set gg hne
                  have P5 : ∀ b,
                      b ∈ BlocosAlcancaveis
                        (estado_apos_alocar_inode s g' j) pai → b ≠ 0 →
                      BitDeBlocoSetado (estado_apos_alocar_inode s g' j)
                        b := by
                    intro b hb hbne
                    rw [hAeq] at hb
                    rw [apos_alocar_inode_bit s g' j b
                      (Ne.symm (hib_bb g' h2 _))]
                    exact hreach_set b hb hbne
                  have P6 : ∀ b,
                      b ∈ BlocosAlcancaveis
                        (estado_apos_alocar_inode s g' j) pai → b ≠ 0 →
                      ∀ gg, b ≠ (((estado_apos_alocar_inode s g' j).gdt.getD
                        gg gd0)).block_bitmap := by
                    intro b hb hbne gg
                    rw [hAeq] at hb
                    rw [apos_alocar_inode_bb s g' j gg gd0]
                    exact hreach_bb b hb hbne gg
                  obtain ⟨hMadd, hibadd⟩ := adicionar_frame
                    (estado_apos_alocar_inode s g' j) pai pai_num
                    (g' * s.sb.inodes_per_group + j + 1)
                    (basename_posix (arg.take 1023)) EXT2_FT_REG_FILE
                    ((s.gdt.getD g' gd0).inode_bitmap)
                    P1 P2 P3 P4 P5 P6
                  have hic : (adicionar_entrada_diretorio
                      (estado_apos_alocar_inode s g' j) pai pai_num
                      (g' * s.sb.inodes_per_group + j + 1)
                      (basename_posix (arg.take 1023))
                      EXT2_FT_REG_FILE).2.2.sb.inodes_count
                      = s.sb.inodes_count := hMadd.inodes_count
                  have hipgc : (adicionar_entrada_diretorio
                      (estado_apos_alocar_inode s g' j) pai pai_num
                      (g' * s.sb.inodes_per_group + j + 1)
                      (basename_posix (arg.take 1023))
                      EXT2_FT_REG_FILE).2.2.sb.inodes_per_group
                      = s.sb.inodes_per_group := hMadd.inodes_per_group
                  have hbcc : (adicionar_entrada_diretorio
                      (estado_apos_alocar_inode s g' j) pai pai_num
                      (g' * s.sb.inodes_per_group + j + 1)
                      (basename_posix (arg.take 1023))
                      EXT2_FT_REG_FILE).2.2.sb.blocks_count
                      = s.sb.blocks_count := hMadd.blocks_count
                  have hfic : (adicionar_entrada_diretorio
                      (estado_apos_alocar_inode s g' j) pai pai_num
                      (g' * s.sb.inodes_per_group + j + 1)
                      (basename_posix (arg.take 1023))
                      EXT2_FT_REG_FILE).2.2.sb.free_inodes_count
                      = s.sb.free_inodes_count - 1 :=
                    hMadd.free_inodes_count
                  have hnle : g' * s.sb.inodes_per_group + j + 1
                      ≤ s.sb.inodes_count := by
                    have h6 : (g' + 1) * s.sb.inodes_per_group
                        ≤ num_grupos s.sb * s.sb.inodes_per_group :=
                      Nat.mul_le_mul_right _ h2
                    have h7 : g' * s.sb.inodes_per_group + j + 1
                        ≤ (g' + 1) * s.sb.inodes_per_group := by
                      rw [Nat.succ_mul]
                      omega
                    omega
                  have hgrp : (g' * s.sb.inodes_per_group + j + 1 - 1)
                      / (adicionar_entrada_diretorio
                        (estado_apos_alocar_inode s g' j) pai pai_num
                        (g' * s.sb.inodes_per_group + j + 1)
                        (basename_posix (arg.take 1023))
                        EXT2_FT_REG_FILE).2.2.sb.inodes_per_group = g' := by
                    rw [hipgc,
                      show g' * s.sb.inodes_per_group + j + 1 - 1
                        = j + g' * s.sb.inodes_per_group by omega,
                      Nat.add_mul_div_right _ _
                        (by omega : 0 < s.sb.inodes_per_group),
                      Nat.div_eq_of_lt hjlt]
                    omega
                  have hidx : (g' * s.sb.inodes_per_group + j + 1 - 1)
                      % (adicionar_entrada_diretorio
                        (estado_apos_alocar_inode s g' j) pai pai_num
                        (g' * s.sb.inodes_per_group + j + 1)
                        (basename_posix (arg.take 1023))
                        EXT2_FT_REG_FILE).2.2.sb.inodes_per_group = j := by
                    rw [hipgc,
                      show g' * s.sb.inodes_per_group + j + 1 - 1
                        = j + g' * s.sb.inodes_per_group by omega,
                      Nat.add_mul_mod_self_right, Nat.mod_eq_of_lt hjlt]
                  have hibf : ((adicionar_entrada_diretorio
                      (estado_apos_alocar_inode s g' j) pai pai_num
                      (g' * s.sb.inodes_per_group + j + 1)
                      (basename_posix (arg.take 1023))
                      EXT2_FT_REG_FILE).2.2.gdt.getD g' gd0).inode_bitmap
                      = (s.gdt.getD g' gd0).inode_bitmap := by
                    rw [(hMadd.gdt_campos g' gd0).2.1,
                      apos_alocar_inode_ib s g' j g' gd0]
                  have hbit : bit_esta_setado
                      ((adicionar_entrada_diretorio
                        (estado_apos_alocar_inode s g' j) pai pai_num
                        (g' * s.sb.inodes_per_group + j + 1)
                        (basename_posix (arg.take 1023))
                        EXT2_FT_REG_FILE).2.2.blocos
                        ((s.gdt.getD g' gd0).inode_bitmap)) j = true := by
                    rw [hibadd, apos_alocar_inode_blocos_ib s g' j]
                    refine bit_setar_seta _ j ?_
                    have h9 := hbmlen g' h2
                    omega
                  have hwv2 : escrever_bloco_valido
                      (adicionar_entrada_diretorio
                        (estado_apos_alocar_inode s g' j) pai pai_num
                        (g' * s.sb.inodes_per_group + j + 1)
                        (basename_posix (arg.take 1023))
                        EXT2_FT_REG_FILE).2.2.sb
                      ((s.gdt.getD g' gd0).inode_bitmap) = true := by
                    have h8 := hwv g' h2
                    unfold escrever_bloco_valido at h8 ⊢
                    rw [hbcc]
                    exact h8
                  have hglen : (adicionar_entrada_diretorio
                      (estado_apos_alocar_inode s g' j) pai pai_num
                      (g' * s.sb.inodes_per_group + j + 1)
                      (basename_posix (arg.take 1023))
                      EXT2_FT_REG_FILE).2.2.gdt.length = s.gdt.length := by
                    rw [hMadd.gdt_length]
                    simp [estado_apos_alocar_inode]
                  obtain ⟨hLsb, hLgdt⟩ := liberar_inode_contadores
                    (adicionar_entrada_diretorio
                      (estado_apos_alocar_inode s g' j) pai pai_num
                      (g' * s.sb.inodes_per_group + j + 1)
                      (basename_posix (arg.take 1023))
                      EXT2_FT_REG_FILE).2.2
                    (g' * s.sb.inodes_per_group + j + 1)
                    (by push_neg; exact ⟨by simp, by rw [hic]; exact hnle⟩)
                    (by rw [hgrp, hidx, hibf]; exact hbit)
                    (by rw [hgrp, hibf]; exact hwv2)
                  constructor
                  · rw [hLsb, hfic]
                    omega
                  · intro gg d
                    rw [hLgdt gg d]
                    by_cases hc : gg = (g' * s.sb.inodes_per_group + j + 1
                        - 1) / (adicionar_entrada_diretorio
                        (estado_apos_alocar_inode s g' j) pai pai_num
                        (g' * s.sb.inodes_per_group + j + 1)
                        (basename_posix (arg.take 1023))
                        EXT2_FT_REG_FILE).2.2.sb.inodes_per_group ∧
                        gg < (adicionar_entrada_diretorio
                        (estado_apos_alocar_inode s g' j) pai pai_num
                        (g' * s.sb.inodes_per_group + j + 1)
                        (basename_posix (arg.take 1023))
                        EXT2_FT_REG_FILE).2.2.gdt.length
                    · rw [if_pos hc]
                      obtain ⟨hceq, hclen⟩ := hc
                      rw [hgrp] at hceq
                      subst hceq
                      have hfif : ((adicionar_entrada_diretorio
                          (estado_apos_alocar_inode s gg j) pai pai_num
                          (gg * s.sb.inodes_per_group + j + 1)
                          (basename_posix (arg.take 1023))
                          EXT2_FT_REG_FILE).2.2.gdt.getD gg
                          gd0).free_inodes_count
                          = (s.gdt.getD gg gd0).free_inodes_count - 1 := by
                        rw [(hMadd.gdt_campos gg gd0).2.2.2]
                        rw [show (estado_apos_alocar_inode s gg j).gdt
                          = s.gdt.set gg
                            { s.gdt.getD gg gd0 with
                              free_inodes_count :=
                                (s.gdt.getD gg gd0).free_inodes_count - 1 }
                          from rfl]
                        rw [getD_set_self_geral _ _ _ _ (by omega)]
                      rw [hfif,
                        getD_indep s.gdt gg d gd0 (by omega)]
                      have h10 := hgd_lt gg h2
                      omega
                    · rw [if_neg hc]
                      have hggne : gg ≠ g' := by
                        intro he
                        subst he
                        exact hc ⟨hgrp.symm, by rw [hglen]; omega⟩
                      rw [(hMadd.gdt_campos gg d).2.2.2]
                      rw [show (estado_apos_alocar_inode s g' j).gdt
                        = s.gdt.set g'
                          { s.gdt.getD g' gd0 with
                            free_inodes_count :=
                              (s.gdt.getD g' gd0).free_inodes_count - 1 }
                        from rfl]
                      rw [getD_set_ne_geral _ _ _ _ _ hggne]
          · rw [if_pos hdir] at hrun
            simp at hrun

theorem lerU32_replicate (k off : Nat) :
    lerU32 (List.replicate k 0) off = 0 := by
  unfold lerU32
  have h : ∀ m, (List.replicate k (0 : Nat)).getD m 0 = 0 := by
    intro m
    by_cases hm : m < k
    · rw [List.getD_eq_getElem?_getD, List.getElem?_replicate, if_pos hm]
      rfl
    · exact getD_oob _ _ _ (by rw [List.length_replicate]; omega)
  simp only [h]

theorem mem_lerPonteiros_replicate (k n x : Nat)
    (h : x ∈ lerPonteiros (List.replicate k 0) n) : x = 0 := by
  unfold lerPonteiros at h
  obtain ⟨i, _, hx⟩ := List.mem_map.mp h
  rw [← hx, lerU32_replicate]

/-- In the concrete C1/C7 state the parent's reachable blocks are only
its one data block (6) and zero pointers. -/
theorem alcancaveisC1 : ∀ b ∈ BlocosAlcancaveis estadoC1 paiC1,
    b = 6 ∨ b = 0 := by
  intro b hb
  simp only [BlocosAlcancaveis] at hb
  rw [List.mem_append, List.mem_append] at hb
  rcases hb with (hb | hb) | hb
  · obtain ⟨i, hi, hbi⟩ := List.mem_map.mp hb
    rw [List.mem_range] at hi
    rw [← hbi]
    interval_cases i <;> decide
  · rw [show paiC1.block.getD 12 0 = 0 from rfl,
      show ler_bloco estadoC1 0 = List.replicate 1024 0 from rfl] at hb
    rcases List.mem_cons.mp hb with rfl | hb
    · right; rfl
    · exact Or.inr (mem_lerPonteiros_replicate 1024 _ b hb)
  · rw [show paiC1.block.getD 13 0 = 0 from rfl,
      show ler_bloco estadoC1 0 = List.replicate 1024 0 from rfl] at hb
    rcases List.mem_cons.mp hb with rfl | hb
    · right; rfl
    · rw [List.mem_append] at hb
      rcases hb with hb | hb
      · exact Or.inr (mem_lerPonteiros_replicate 1024 _ b hb)
      · obtain ⟨p, hp, hbp⟩ := List.mem_flatMap.mp hb
        have hp0 : p = 0 := mem_lerPonteiros_replicate 1024 _ p hp
        subst hp0
        rw [show ler_bloco estadoC1 0 = List.replicate 1024 0 from rfl] at hbp
        exact Or.inr (mem_lerPonteiros_replicate 1024 _ b hbp)

set_option maxRecDepth 100000 in
/-- Witness for C7 at the concrete state `estadoC1`: the parent is the
current directory `"."` (inode 2) and the name `"aaaa"` already exists
in its full block, so part (a) fires concretely with an unchanged
state; all consistency hypotheses hold by computation. -/
theorem comando_touch_rollback_witness :
    caminho_para_inode estadoC1 2
      (dirname_posix (([97, 97, 97, 97] : List Nat).take 1023)) = 2 ∧
    estadoC1.inodes 2 = paiC1 ∧
    ((((basename_posix (([97, 97, 97, 97] : List Nat).take 1023)).length
        ≤ EXT2_NAME_LEN ∧
      (2 : Nat) ≠ 0 ∧ 2 ≤ estadoC1.sb.inodes_count ∧
      EXT2_IS_DIR paiC1.mode = true ∧
      procurar_entrada_no_diretorio estadoC1 2
        (basename_posix (([97, 97, 97, 97] : List Nat).take 1023)) ≠ 0) →
      comando_touch estadoC1 2 [97, 97, 97, 97] 0
        = (ResultadoTouch.jaExiste, estadoC1)) ∧
    (∀ s', comando_touch estadoC1 2 [97, 97, 97, 97] 0
        = (ResultadoTouch.falhaInserir, s') →
      s'.sb.free_inodes_count = estadoC1.sb.free_inodes_count ∧
      ∀ g d, (s'.gdt.getD g d).free_inodes_count
        = (estadoC1.gdt.getD g d).free_inodes_count)) ∧
    comando_touch estadoC1 2 [97, 97, 97, 97] 0
      = (ResultadoTouch.jaExiste, estadoC1) := by
  have hng1 : num_grupos estadoC1.sb = 1 := rfl
  have hgdt_oob : ∀ g', g' ≠ 0 → estadoC1.gdt.getD g' gd0 = gd0 :=
    fun g' h => getD_oob _ _ _
      (by rw [show estadoC1.gdt.length = 1 from rfl]; omega)
  have hpn : caminho_para_inode estadoC1 2
      (dirname_posix (([97, 97, 97, 97] : List Nat).take 1023)) = 2 := by
    decide
  have hcons : ∀ i, i < num_grupos estadoC1.sb →
      0 < (estadoC1.gdt.getD i gd0).free_inodes_count →
      (primeiro_bit_livre
        (estadoC1.blocos ((estadoC1.gdt.getD i gd0).inode_bitmap))
        estadoC1.sb.inodes_per_group).isSome = true := by
    intro i hi _
    have h0 : i = 0 := by rw [hng1] at hi; omega
    subst h0
    decide
  have hwv : ∀ i, i < num_grupos estadoC1.sb →
      escrever_bloco_valido estadoC1.sb
        ((estadoC1.gdt.getD i gd0).inode_bitmap) = true := by
    intro i hi
    have h0 : i = 0 := by rw [hng1] at hi; omega
    subst h0
    decide
  have hex : 0 < estadoC1.sb.free_inodes_count →
      ∃ g, g < num_grupos estadoC1.sb ∧
        0 < (estadoC1.gdt.getD g gd0).free_inodes_count :=
    fun _ => ⟨0, by rw [hng1]; omega, by decide⟩
  have hgd_lt : ∀ g, g < num_grupos estadoC1.sb →
      (estadoC1.gdt.getD g gd0).free_inodes_count < 65536 := by
    intro g hg
    have h0 : g = 0 := by rw [hng1] at hg; omega
    subst h0
    decide
  have hbmlen : ∀ g, g < num_grupos estadoC1.sb →
      estadoC1.sb.inodes_per_group
        ≤ 8 * (estadoC1.blocos
          ((estadoC1.gdt.getD g gd0).inode_bitmap)).length := by
    intro g hg
    have h0 : g = 0 := by rw [hng1] at hg; omega
    subst h0
    rw [show (estadoC1.gdt.getD 0 gd0).inode_bitmap = 4 from rfl,
      show estadoC1.blocos 4 = List.replicate 1024 0 from rfl,
      List.length_replicate]
    decide
  have hib_bb : ∀ g, g < num_grupos estadoC1.sb → ∀ g',
      (estadoC1.gdt.getD g gd0).inode_bitmap
        ≠ (estadoC1.gdt.getD g' gd0).block_bitmap := by
    intro g hg g'
    have h0 : g = 0 := by rw [hng1] at hg; omega
    subst h0
    by_cases hg' : g' = 0
    · subst hg'; decide
    · rw [hgdt_oob g' hg']; decide
  have hib_reach : ∀ g, g < num_grupos estadoC1.sb →
      (estadoC1.gdt.getD g gd0).inode_bitmap
        ∉ BlocosAlcancaveis estadoC1 paiC1 := by
    intro g hg hmem
    have h0 : g = 0 := by rw [hng1] at hg; omega
    subst h0
    rcases alcancaveisC1 _ hmem with h | h <;> exact absurd h (by decide)
  have hib_set : ∀ g, g < num_grupos estadoC1.sb →
      BitDeBlocoSetado estadoC1
        ((estadoC1.gdt.getD g gd0).inode_bitmap) := by
    intro g hg
    have h0 : g = 0 := by rw [hng1] at hg; omega
    subst h0
    decide
  have hbb_set : ∀ g, (estadoC1.gdt.getD g gd0).block_bitmap ≠ 0 →
      BitDeBlocoSetado estadoC1
        ((estadoC1.gdt.getD g gd0).block_bitmap) := by
    intro g hne
    by_cases hg : g = 0
    · subst hg; decide
    · rw [hgdt_oob g hg] at hne ⊢
      exact absurd rfl hne
  have hreach_set : ∀ b, b ∈ BlocosAlcancaveis estadoC1 paiC1 → b ≠ 0 →
      BitDeBlocoSetado estadoC1 b := by
    intro b hb hbne
    rcases alcancaveisC1 b hb with h | h
    · subst h; decide
    · exact absurd h hbne
  have hreach_bb : ∀ b, b ∈ BlocosAlcancaveis estadoC1 paiC1 → b ≠ 0 →
      ∀ g, b ≠ (estadoC1.gdt.getD g gd0).block_bitmap := by
    intro b hb hbne g
    rcases alcancaveisC1 b hb with h | h
    · subst h
      by_cases hg : g = 0
      · subst hg; decide
      · rw [hgdt_oob g hg]; decide
    · exact absurd h hbne
  have H := comando_touch_rollback estadoC1 2 0 [97, 97, 97, 97] 2 paiC1
    hpn rfl hcons hwv hex rfl (by decide) (by decide) hgd_lt hbmlen
    hib_bb hib_reach hib_set hbb_set hreach_set hreach_bb
  exact ⟨hpn, rfl, H,
    H.1 ⟨by decide, by decide, by decide, by decide, by decide⟩⟩

/-! ## `comando_mkdir` / `comando_rmdir` (claim C4)

`mkdir` allocates an inode and a data block, writes the `.`/`..` block
and the fresh inode, inserts the name into the parent (rolling back on
failure) and bumps the parent's `links_count`.  `rmdir` resolves the
target, checks it is an empty directory, removes its entry from the
parent (coalescing into the predecessor or tombstoning a first entry),
frees the directory's `block[0]` and its inode, and decrements the
parent's `links_count`.  `links_count` is a `uint16_t`: increments and
decrements wrap modulo 65536. -/

/-- The initial block of a new directory: zeroed, a 12-byte `.` entry
for the directory itself, and a `..` entry for the parent spanning the
rest of the block (`rec_len` stored as `uint16_t`). -/
def bloco_inicial_diretorio (sb : superbloco) (n pai_num : Nat) : List Nat :=
  escrever_nova_entrada
    (escrever_nova_entrada (List.replicate (calcular_tamanho_do_bloco sb) 0)
      0 n 1 EXT2_FT_DIR 12 [46])
    12 pai_num 2 EXT2_FT_DIR
    ((calcular_tamanho_do_bloco sb - 12) % 65536) [46, 46]

inductive ResultadoMkdir where
  | nomeLongo
  | paiNaoEncontrado
  | paiNaoDiretorio
  | jaExiste
  | falhaAlocarInode
  | falhaAlocarBloco
  | falhaInserir
  | sucesso
deriving DecidableEq

def comando_mkdir (s : Estado) (inode_dir_atual : Nat)
    (argumentos : List Nat) (agora : Nat) : ResultadoMkdir × Estado :=
  let arg := argumentos.take 1023
  let dir_pai := dirname_posix arg
  let nome := basename_posix arg
  if EXT2_NAME_LEN < nome.length then (ResultadoMkdir.nomeLongo, s)
  else
    let inode_pai_num := caminho_para_inode s inode_dir_atual dir_pai
    if inode_pai_num = 0 then (ResultadoMkdir.paiNaoEncontrado, s)
    else
      match ler_inode s inode_pai_num with
      | none => (ResultadoMkdir.paiNaoDiretorio, s)
      | some inode_pai =>
        if ¬ (EXT2_IS_DIR inode_pai.mode = true) then
          (ResultadoMkdir.paiNaoDiretorio, s)
        else if procurar_entrada_no_diretorio s inode_pai_num nome ≠ 0 then
          (ResultadoMkdir.jaExiste, s)
        else
          let ri := alocar_inode s
          if ri.1 = 0 then (ResultadoMkdir.falhaAlocarInode, ri.2)
          else
            let rb := alocar_bloco ri.2 ri.1
            if rb.1 = 0 then
              (ResultadoMkdir.falhaAlocarBloco, (liberar_inode rb.2 ri.1).2)
            else
              let s2 := escrever_bloco rb.2 rb.1
                (bloco_inicial_diretorio s.sb ri.1 inode_pai_num)
              let novo_ino : inode :=
                { mode := EXT2_S_IFDIR ||| 493, uid := 0,
                  size := calcular_tamanho_do_bloco s.sb,
                  atime := agora, ctime := agora, mtime := agora, dtime := 0,
                  gid := 0, links_count := 2,
                  blocks := calcular_tamanho_do_bloco s.sb / 512, flags := 0,
                  block := (List.replicate 15 0).set 0 rb.1 }
              let s3 := escrever_inode s2 ri.1 novo_ino
              let radd := adicionar_entrada_diretorio s3 inode_pai
                inode_pai_num ri.1 nome EXT2_FT_DIR
              if radd.1 ≠ 0 then
                let rl1 := liberar_bloco radd.2.2 rb.1
                (ResultadoMkdir.falhaInserir, (liberar_inode rl1.2 ri.1).2)
              else
                let pai2 := { radd.2.1 with
                  links_count := (radd.2.1.links_count + 1) % 65536,
                  mtime := agora }
                (ResultadoMkdir.sucesso,
                 escrever_inode radd.2.2 inode_pai_num pai2)

/-- One block of `remover_entrada_em_bloco`: walk the entries tracking
the previous one; on a name match, coalesce the victim's `rec_len` into
the predecessor (`uint16_t` addition) or, for a first entry, tombstone
it by zeroing its inode field.  Returns the modified buffer. -/
def remover_em_bloco_aux (sb : superbloco) (bytes : List Nat)
    (nome : List Nat) : Nat → Option Nat → Nat → Option (List Nat)
  | _, _, 0 => none
  | offset, anterior, fuel + 1 =>
    if calcular_tamanho_do_bloco sb ≤ offset then none
    else
      let rec_len := lerU16 bytes (offset + 4)
      if rec_len = 0 then none
      else if lerU32 bytes offset ≠ 0 ∧
          bytes.getD (offset + 6) 0 = nome.length ∧
          (bytes.drop (offset + 8)).take nome.length = nome then
        match anterior with
        | some off_ant =>
          some (escreverU16 bytes (off_ant + 4)
            ((lerU16 bytes (off_ant + 4) + rec_len) % 65536))
        | none => some (escreverU32 bytes offset 0)
      else
        remover_em_bloco_aux sb bytes nome (offset + rec_len)
          (some offset) fuel

/-- `remover_entrada_em_bloco`: status 1 when found (block written
back), 0 when the name is not in this block. -/
def remover_entrada_em_bloco (s : Estado) (num_bloco : Nat)
    (nome : List Nat) : Int × Estado :=
  match remover_em_bloco_aux s.sb (ler_bloco s num_bloco) nome 0 none
      (calcular_tamanho_do_bloco s.sb + 1) with
  | some bytes => (1, escrever_bloco s num_bloco bytes)
  | none => (0, s)

def remover_percorrer_blocos (s : Estado) (nome : List Nat) :
    List Nat → Int × Estado
  | [] => (0, s)
  | b :: rest =>
    if b = 0 then remover_percorrer_blocos s nome rest
    else
      let r := remover_entrada_em_bloco s b nome
      if r.1 ≠ 0 then r
      else remover_percorrer_blocos s nome rest

def remover_percorrer_l2 (s : Estado) (nome : List Nat) (ppb : Nat) :
    List Nat → Int × Estado
  | [] => (0, s)
  | p :: rest =>
    if p = 0 then remover_percorrer_l2 s nome ppb rest
    else
      let r := remover_percorrer_blocos s nome
        (lerPonteiros (ler_bloco s p) ppb)
      if r.1 ≠ 0 then r
      else remover_percorrer_l2 s nome ppb rest

/-- `remover_entrada_diretorio`: scan the parent's direct blocks, then
the single- and double-indirect trees; 0 on success, -1 when the name
was not found. -/
def remover_entrada_diretorio (s : Estado) (inode_pai : inode)
    (nome : List Nat) : Int × Estado :=
  let ppb := calcular_tamanho_do_bloco s.sb / 4
  let r1 := remover_percorrer_blocos s nome
    ((List.range 12).map (fun i => inode_pai.block.getD i 0))
  if r1.1 ≠ 0 then (if r1.1 = 1 then (0, r1.2) else (-1, r1.2))
  else
    let r2 := if inode_pai.block.getD 12 0 ≠ 0 then
        remover_percorrer_blocos s nome
          (lerPonteiros (ler_bloco s (inode_pai.block.getD 12 0)) ppb)
      else (0, s)
    if r2.1 ≠ 0 then (if r2.1 = 1 then (0, r2.2) else (-1, r2.2))
    else
      let r3 := if inode_pai.block.getD 13 0 ≠ 0 then
          remover_percorrer_l2 s nome ppb
            (lerPonteiros (ler_bloco s (inode_pai.block.getD 13 0)) ppb)
        else (0, s)
      if r3.1 = 1 then (0, r3.2) else (-1, r3.2)

/-- `strncmp(bytes+off, q, n) == 0`, treating bytes past the end of `q`
as the C string's NUL terminator. -/
def strncmp_eq0 (bytes : List Nat) (off : Nat) (q : List Nat) :
    Nat → Bool
  | 0 => true
  | n + 1 =>
    if bytes.getD off 0 ≠ q.getD 0 0 then false
    else if bytes.getD off 0 = 0 then true
    else strncmp_eq0 bytes (off + 1) (q.drop 1) n

/-- Walk of `bloco_dir_contem_entradas`: 1 when a live entry other than
`.`/`..` exists in the block. -/
def bloco_dir_contem_entradas_aux (sb : superbloco) (bytes : List Nat) :
    Nat → Nat → Int
  | _, 0 => 0
  | offset, fuel + 1 =>
    if calcular_tamanho_do_bloco sb ≤ offset then 0
    else
      let rec_len := lerU16 bytes (offset + 4)
      if rec_len = 0 then 0
      else if lerU32 bytes offset ≠ 0 ∧
          (strncmp_eq0 bytes (offset + 8) [46]
              (bytes.getD (offset + 6) 0) = false ∨
            bytes.getD (offset + 6) 0 ≠ 1) ∧
          (strncmp_eq0 bytes (offset + 8) [46, 46]
              (bytes.getD (offset + 6) 0) = false ∨
            bytes.getD (offset + 6) 0 ≠ 2) then 1
      else if calcular_tamanho_do_bloco sb ≤ offset + rec_len then 0
      else bloco_dir_contem_entradas_aux sb bytes (offset + rec_len) fuel

def bloco_dir_contem_entradas (s : Estado) (num_bloco : Nat) : Int :=
  if num_bloco = 0 then 0
  else bloco_dir_contem_entradas_aux s.sb (ler_bloco s num_bloco) 0
    (calcular_tamanho_do_bloco s.sb + 1)

def vazio_percorrer (s : Estado) : List Nat → Int
  | [] => 0
  | b :: rest =>
    let r := bloco_dir_contem_entradas s b
    if r ≠ 0 then r else vazio_percorrer s rest

def vazio_l2 (s : Estado) (ppb : Nat) : List Nat → Int
  | [] => 0
  | p :: rest =>
    if p = 0 then vazio_l2 s ppb rest
    else
      let r := vazio_percorrer s (lerPonteiros (ler_bloco s p) ppb)
      if r ≠ 0 then r else vazio_l2 s ppb rest

/-- `diretorio_esta_vazio`: 1 when only `.`/`..` live entries exist in
the directory's direct, single- and double-indirect blocks. -/
def diretorio_esta_vazio (s : Estado) (dir_ino : inode) : Int :=
  if ¬ (EXT2_IS_DIR dir_ino.mode = true) then -1
  else
    let ppb := calcular_tamanho_do_bloco s.sb / 4
    let r1 := vazio_percorrer s
      ((List.range 12).map (fun i => dir_ino.block.getD i 0))
    if r1 ≠ 0 then (if r1 = 1 then 0 else -1)
    else
      let r2 := if dir_ino.block.getD 12 0 ≠ 0 then
          vazio_percorrer s
            (lerPonteiros (ler_bloco s (dir_ino.block.getD 12 0)) ppb)
        else 0
      if r2 ≠ 0 then (if r2 = 1 then 0 else -1)
      else
        let r3 := if dir_ino.block.getD 13 0 ≠ 0 then
            vazio_l2 s ppb
              (lerPonteiros (ler_bloco s (dir_ino.block.getD 13 0)) ppb)
          else 0
        if r3 = 1 then 0 else if r3 = 0 then 1 else -1

inductive ResultadoRmdir where
  | protegido
  | naoEncontrado
  | erroLeitura
  | naoDiretorio
  | naoVazio
  | falhaRemover
  | sucesso
deriving DecidableEq

def comando_rmdir (s : Estado) (inode_dir_atual : Nat)
    (argumentos : List Nat) (agora : Nat) : ResultadoRmdir × Estado :=
  if argumentos = [46] ∨ argumentos = [46, 46] ∨ argumentos = [47] then
    (ResultadoRmdir.protegido, s)
  else
    let inode_alvo_num := caminho_para_inode s inode_dir_atual argumentos
    if inode_alvo_num = 0 then (ResultadoRmdir.naoEncontrado, s)
    else
      match ler_inode s inode_alvo_num with
      | none => (ResultadoRmdir.erroLeitura, s)
      | some inode_alvo =>
        if ¬ (EXT2_IS_DIR inode_alvo.mode = true) then
          (ResultadoRmdir.naoDiretorio, s)
        else
          let nome := basename_posix (argumentos.take 1023)
          let dir_pai := dirname_posix (argumentos.take 1023)
          let inode_pai_num := caminho_para_inode s inode_dir_atual dir_pai
          match ler_inode s inode_pai_num with
          | none => (ResultadoRmdir.erroLeitura, s)
          | some inode_pai =>
            if ¬ (diretorio_esta_vazio s inode_alvo = 1) then
              (ResultadoRmdir.naoVazio, s)
            else
              let rr := remover_entrada_diretorio s inode_pai nome
              if rr.1 ≠ 0 then (ResultadoRmdir.falhaRemover, rr.2)
              else
                let rl := liberar_bloco rr.2 (inode_alvo.block.getD 0 0)
                let alvo2 := { inode_alvo with
                  dtime := agora, links_count := 0 }
                let s4 := escrever_inode rl.2 inode_alvo_num alvo2
                let rl2 := liberar_inode s4 inode_alvo_num
                let pai2 := { inode_pai with
                  links_count := (inode_pai.links_count + 65535) % 65536,
                  mtime := agora }
                (ResultadoRmdir.sucesso,
                 escrever_inode rl2.2 inode_pai_num pai2)

theorem escrever_inode_sb (s : Estado) (m : Nat) (ino : inode) :
    (escrever_inode s m ino).sb = s.sb := by
  unfold escrever_inode; split <;> rfl

theorem escrever_inode_gdt (s : Estado) (m : Nat) (ino : inode) :
    (escrever_inode s m ino).gdt = s.gdt := by
  unfold escrever_inode; split <;> rfl

theorem escrever_inode_blocos (s : Estado) (m : Nat) (ino : inode) :
    (escrever_inode s m ino).blocos = s.blocos := by
  unfold escrever_inode; split <;> rfl

theorem escrever_inode_inodes_self (s : Estado) (m : Nat) (ino : inode)
    (h1 : m ≠ 0) (h2 : m ≤ s.sb.inodes_count) :
    (escrever_inode s m ino).inodes m = ino := by
  unfold escrever_inode
  rw [if_neg (by push_neg; exact ⟨h1, h2⟩)]
  show (if m = m then ino else s.inodes m) = ino
  rw [if_pos rfl]

theorem escrever_inode_inodes_ne (s : Estado) (m : Nat) (ino : inode)
    (m' : Nat) (h : m' ≠ m) :
    (escrever_inode s m ino).inodes m' = s.inodes m' := by
  unfold escrever_inode
  split
  · rfl
  · show (if m' = m then ino else s.inodes m') = s.inodes m'
    rw [if_neg h]

/-- The state produced by a successful block allocation at bit `j` of
group `g` (the bitmap write is a no-op when the bitmap block number is
invalid, exactly as `escrever_bloco` behaves). -/
def estado_apos_alocar_bloco (s : Estado) (g j : Nat) : Estado :=
  let s1 := escrever_bloco s ((s.gdt.getD g gd0).block_bitmap)
    (setar_bit (s.blocos ((s.gdt.getD g gd0).block_bitmap)) j)
  { s1 with
    sb := { s1.sb with free_blocks_count := s1.sb.free_blocks_count - 1 },
    gdt := s1.gdt.set g
      { s.gdt.getD g gd0 with
        free_blocks_count := (s.gdt.getD g gd0).free_blocks_count - 1 } }

theorem apos_alocar_bloco_sb (s : Estado) (g j : Nat) :
    (estado_apos_alocar_bloco s g j).sb
      = { s.sb with free_blocks_count := s.sb.free_blocks_count - 1 } := by
  simp only [estado_apos_alocar_bloco, escrever_bloco_sb]

theorem apos_alocar_bloco_gdt (s : Estado) (g j : Nat) :
    (estado_apos_alocar_bloco s g j).gdt
      = s.gdt.set g
        { s.gdt.getD g gd0 with
          free_blocks_count := (s.gdt.getD g gd0).free_blocks_count - 1 } := by
  simp only [estado_apos_alocar_bloco, escrever_bloco_gdt]

theorem apos_alocar_bloco_inodes (s : Estado) (g j : Nat) :
    (estado_apos_alocar_bloco s g j).inodes = s.inodes := by
  simp only [estado_apos_alocar_bloco, escrever_bloco_inodes]

theorem apos_alocar_bloco_blocos_ne (s : Estado) (g j n : Nat)
    (h : n ≠ (s.gdt.getD g gd0).block_bitmap) :
    (estado_apos_alocar_bloco s g j).blocos n = s.blocos n := by
  simp only [estado_apos_alocar_bloco]
  exact escrever_bloco_blocos_ne s _ _ n h

theorem apos_alocar_bloco_bitmap (s : Estado) (g j : Nat)
    (hv : escrever_bloco_valido s.sb ((s.gdt.getD g gd0).block_bitmap)
      = true) :
    (estado_apos_alocar_bloco s g j).blocos
      ((s.gdt.getD g gd0).block_bitmap)
      = setar_bit (s.blocos ((s.gdt.getD g gd0).block_bitmap)) j := by
  simp only [estado_apos_alocar_bloco]
  unfold escrever_bloco
  rw [if_pos hv]
  show (if (s.gdt.getD g gd0).block_bitmap = (s.gdt.getD g gd0).block_bitmap
      then setar_bit (s.blocos ((s.gdt.getD g gd0).block_bitmap)) j
      else s.blocos ((s.gdt.getD g gd0).block_bitmap))
    = setar_bit (s.blocos ((s.gdt.getD g gd0).block_bitmap)) j
  rw [if_pos rfl]

/-- A nonzero `alocar_inode` result reveals its exact effect: some group
`g` below the group count had free inodes, bit `j` was the first clear
bit of its (writable) inode bitmap, and the state is
`estado_apos_alocar_inode s g j`. -/
theorem alocar_inode_loop_sucesso (s : Estado) :
    ∀ (restante i : Nat),
      (alocar_inode_loop s i restante).1 ≠ 0 →
      ∃ g j, i ≤ g ∧ g < i + restante ∧ j < s.sb.inodes_per_group ∧
        0 < (s.gdt.getD g gd0).free_inodes_count ∧
        bit_esta_setado (s.blocos ((s.gdt.getD g gd0).inode_bitmap)) j
          = false ∧
        escrever_bloco_valido s.sb ((s.gdt.getD g gd0).inode_bitmap)
          = true ∧
        alocar_inode_loop s i restante
          = (g * s.sb.inodes_per_group + j + 1,
             estado_apos_alocar_inode s g j) := by
  intro restante
  induction restante with
  | zero =>
    intro i h
    exact absurd rfl h
  | succ m ih =>
    intro i h
    simp only [alocar_inode_loop] at h
    split at h
    · rename_i hfree
      split at h
      · rename_i j hj
        split at h
        · rename_i hv
          obtain ⟨hjlt, hjclear, _⟩ := primeiro_bit_livre_spec _ _ _ hj
          refine ⟨i, j, le_refl i, by omega, hjlt, hfree, hjclear, hv, ?_⟩
          simp only [alocar_inode_loop, if_pos hfree, hj, if_pos hv]
          unfold escrever_bloco estado_apos_alocar_inode
          rw [if_pos hv]
          rfl
        · exact absurd rfl h
      · rename_i hj
        obtain ⟨g, j, h1, h2, h3, h4, h5, h6, h7⟩ := ih (i + 1) h
        refine ⟨g, j, by omega, by omega, h3, h4, h5, h6, ?_⟩
        simp only [alocar_inode_loop, if_pos hfree, hj]
        exact h7
    · rename_i hfree
      obtain ⟨g, j, h1, h2, h3, h4, h5, h6, h7⟩ := ih (i + 1) h
      refine ⟨g, j, by omega, by omega, h3, h4, h5, h6, ?_⟩
      simp only [alocar_inode_loop, if_neg hfree]
      exact h7

theorem alocar_inode_sucesso (s : Estado)
    (h : (alocar_inode s).1 ≠ 0) :
    s.sb.free_inodes_count ≠ 0 ∧
    ∃ g j, g < num_grupos s.sb ∧ j < s.sb.inodes_per_group ∧
      0 < (s.gdt.getD g gd0).free_inodes_count ∧
      bit_esta_setado (s.blocos ((s.gdt.getD g gd0).inode_bitmap)) j
        = false ∧
      escrever_bloco_valido s.sb ((s.gdt.getD g gd0).inode_bitmap)
        = true ∧
      alocar_inode s
        = (g * s.sb.inodes_per_group + j + 1,
           estado_apos_alocar_inode s g j) := by
  simp only [alocar_inode] at h ⊢
  by_cases hfree : s.sb.free_inodes_count = 0
  · rw [if_pos hfree] at h
    exact absurd rfl h
  · rw [if_neg hfree] at h ⊢
    obtain ⟨g, j, h1, h2, h3, h4, h5, h6, h7⟩ :=
      alocar_inode_loop_sucesso s (num_grupos s.sb) 0 h
    exact ⟨hfree, g, j, by omega, h3, h4, h5, h6, h7⟩

theorem alocar_bloco_em_grupo_sucesso (c : Estado) (i : Nat)
    (r : Nat × Estado) (h : alocar_bloco_em_grupo c i = some r) :
    ∃ j, j < c.sb.blocks_per_group ∧
      0 < (c.gdt.getD i gd0).free_blocks_count ∧
      bit_esta_setado (c.blocos ((c.gdt.getD i gd0).block_bitmap)) j
        = false ∧
      r = (i * c.sb.blocks_per_group + c.sb.first_data_block + j,
           estado_apos_alocar_bloco c i j) := by
  simp only [alocar_bloco_em_grupo] at h
  split at h
  · split at h
    · rename_i hfree j hj
      obtain ⟨hjlt, hjclear, _⟩ := primeiro_bit_livre_spec _ _ _ hj
      refine ⟨j, hjlt, by assumption, hjclear, (Option.some.inj h).symm⟩
    · exact absurd h (by simp)
  · exact absurd h (by simp)

theorem alocar_bloco_loop_sucesso (c : Estado) :
    ∀ (restante i : Nat),
      (alocar_bloco_loop c i restante).1 ≠ 0 →
      ∃ g j, i ≤ g ∧ g < i + restante ∧ j < c.sb.blocks_per_group ∧
        0 < (c.gdt.getD g gd0).free_blocks_count ∧
        bit_esta_setado (c.blocos ((c.gdt.getD g gd0).block_bitmap)) j
          = false ∧
        alocar_bloco_loop c i restante
          = (g * c.sb.blocks_per_group + c.sb.first_data_block + j,
             estado_apos_alocar_bloco c g j) := by
  intro restante
  induction restante with
  | zero =>
    intro i h
    exact absurd rfl h
  | succ m ih =>
    intro i h
    simp only [alocar_bloco_loop] at h
    split at h
    · rename_i r hg
      obtain ⟨j, hjlt, hfree, hjclear, hr⟩ :=
        alocar_bloco_em_grupo_sucesso c i r hg
      refine ⟨i, j, le_refl i, by omega, hjlt, hfree, hjclear, ?_⟩
      simp only [alocar_bloco_loop, hg]
      exact hr
    · rename_i hg
      obtain ⟨g, j, h1, h2, h3, h4, h5, h6⟩ := ih (i + 1) h
      refine ⟨g, j, by omega, by omega, h3, h4, h5, ?_⟩
      simp only [alocar_bloco_loop, hg]
      exact h6

theorem alocar_bloco_sucesso (c : Estado) (inum : Nat)
    (h : (alocar_bloco c inum).1 ≠ 0) :
    c.sb.free_blocks_count ≠ 0 ∧
    ∃ g j, (g = (inum - 1) / c.sb.inodes_per_group ∨ g < num_grupos c.sb) ∧
      j < c.sb.blocks_per_group ∧
      0 < (c.gdt.getD g gd0).free_blocks_count ∧
      bit_esta_setado (c.blocos ((c.gdt.getD g gd0).block_bitmap)) j
        = false ∧
      alocar_bloco c inum
        = (g * c.sb.blocks_per_group + c.sb.first_data_block + j,
           estado_apos_alocar_bloco c g j) := by
  simp only [alocar_bloco] at h ⊢
  by_cases hfree : c.sb.free_blocks_count = 0
  · rw [if_pos hfree] at h
    exact absurd rfl h
  · rw [if_neg hfree] at h ⊢
    split at h
    · rename_i r hg
      obtain ⟨j, hjlt, hfr, hjclear, hr⟩ :=
        alocar_bloco_em_grupo_sucesso c _ r hg
      refine ⟨hfree, _, j, Or.inl rfl, hjlt, hfr, hjclear, ?_⟩
      exact hr
    · rename_i hg
      obtain ⟨g, j, h1, h2, h3, h4, h5, h6⟩ :=
        alocar_bloco_loop_sucesso c (num_grupos c.sb) 0 h
      refine ⟨hfree, g, j, Or.inr (by omega), h3, h4, h5, ?_⟩
      exact h6

/-- Counter effect of `liberar_bloco` on a valid, currently-set block
number. -/
theorem liberar_bloco_contadores (s : Estado) (b : Nat)
    (hval : ¬(b < s.sb.first_data_block ∨ s.sb.blocks_count ≤ b))
    (hbit : bit_esta_setado
      (s.blocos ((s.gdt.getD ((b - s.sb.first_data_block)
        / s.sb.blocks_per_group) gd0).block_bitmap))
      ((b - s.sb.first_data_block) % s.sb.blocks_per_group) = true)
    (hwvz : escrever_bloco_valido s.sb
      ((s.gdt.getD ((b - s.sb.first_data_block)
        / s.sb.blocks_per_group) gd0).block_bitmap) = true) :
    (liberar_bloco s b).2.sb.free_blocks_count
      = (s.sb.free_blocks_count + 1) % 4294967296 ∧
    ∀ g d, ((liberar_bloco s b).2.gdt.getD g d).free_blocks_count
      = if g = (b - s.sb.first_data_block) / s.sb.blocks_per_group ∧
          g < s.gdt.length
        then ((s.gdt.getD g gd0).free_blocks_count + 1) % 65536
        else (s.gdt.getD g d).free_blocks_count := by
  simp only [liberar_bloco]
  rw [if_neg hval, if_neg (fun hc => hc hbit), if_pos hwvz]
  constructor
  · simp only [escrever_bloco_sb]
  · intro g d
    simp only [escrever_bloco_gdt]
    by_cases hg : g = (b - s.sb.first_data_block) / s.sb.blocks_per_group
    · subst hg
      by_cases hlen : (b - s.sb.first_data_block) / s.sb.blocks_per_group
          < s.gdt.length
      · rw [getD_set_self_geral _ _ _ _ hlen, if_pos ⟨rfl, hlen⟩]
      · rw [getD_set_oob _ _ _ _ _ hlen, if_neg (fun hc => hlen hc.2)]
    · rw [getD_set_ne_geral _ _ _ _ _ hg, if_neg (fun hc => hg hc.1)]

/-- `liberar_inode` preserves the block side of the state: the
superblock apart from `free_inodes_count`, every group descriptor field
except `free_inodes_count`, the inode map, and every block other than
the written inode bitmap. -/
theorem liberar_inode_frame (c : Estado) (m : Nat) :
    (liberar_inode c m).2.sb.free_blocks_count
      = c.sb.free_blocks_count ∧
    (liberar_inode c m).2.sb.blocks_count = c.sb.blocks_count ∧
    (liberar_inode c m).2.inodes = c.inodes ∧
    (∀ g d, ((liberar_inode c m).2.gdt.getD g d).free_blocks_count
      = (c.gdt.getD g d).free_blocks_count) ∧
    (∀ n, n ≠ (c.gdt.getD ((m - 1) / c.sb.inodes_per_group)
        gd0).inode_bitmap →
      (liberar_inode c m).2.blocos n = c.blocos n) := by
  simp only [liberar_inode]
  split
  · exact ⟨rfl, rfl, rfl, fun _ _ => rfl, fun _ _ => rfl⟩
  · split
    · exact ⟨rfl, rfl, rfl, fun _ _ => rfl, fun _ _ => rfl⟩
    · split
      · refine ⟨?_, ?_, ?_, ?_, ?_⟩
        · simp only [escrever_bloco_sb]
        · simp only [escrever_bloco_sb]
        · simp only [escrever_bloco_inodes]
        · intro g d
          simp only [escrever_bloco_gdt]
          exact getD_set_campo c.gdt _ _ g d group_desc.free_blocks_count
            rfl
        · intro n hn
          exact escrever_bloco_blocos_ne _ _ _ n hn
      · exact ⟨rfl, rfl, rfl, fun _ _ => rfl, fun _ _ => rfl⟩

/-- The block side of `liberar_inode` leaves the geometry fields in
place as well. -/
theorem liberar_inode_sb_resto (c : Estado) (m : Nat) :
    (liberar_inode c m).2.sb.inodes_count = c.sb.inodes_count ∧
    (liberar_inode c m).2.sb.inodes_per_group
      = c.sb.inodes_per_group ∧
    (liberar_inode c m).2.sb.first_data_block
      = c.sb.first_data_block ∧
    (liberar_inode c m).2.sb.blocks_per_group
      = c.sb.blocks_per_group := by
  simp only [liberar_inode]
  split
  · exact ⟨rfl, rfl, rfl, rfl⟩
  · split
    · exact ⟨rfl, rfl, rfl, rfl⟩
    · split
      · refine ⟨?_, ?_, ?_, ?_⟩ <;> simp only [escrever_bloco_sb]
      · exact ⟨rfl, rfl, rfl, rfl⟩

/-- The inode side of `liberar_bloco` (mirror of
`liberar_inode_frame`, for fields not already covered by
`liberar_bloco_frame`). -/
theorem liberar_bloco_blocos_ne (c : Estado) (b n : Nat)
    (hn : n ≠ (c.gdt.getD ((b - c.sb.first_data_block)
      / c.sb.blocks_per_group) gd0).block_bitmap) :
    (liberar_bloco c b).2.blocos n = c.blocos n := by
  simp only [liberar_bloco]
  split
  · rfl
  · split
    · rfl
    · split
      · exact escrever_bloco_blocos_ne _ _ _ n hn
      · rfl

/-- Whether phase 1 finds a slot depends only on the block bytes, the
name and the block size — not on the inserted child or its type. -/
theorem tentar_aux_isSome (sb sb' : superbloco) (f f' : Nat)
    (nome : List Nat) (tipo tipo' nec : Nat) (bytes : List Nat)
    (hbs : calcular_tamanho_do_bloco sb' = calcular_tamanho_do_bloco sb) :
    ∀ (fuel offset : Nat),
      (tentar_inserir_no_bloco_aux sb f nome tipo nec bytes offset
        fuel).isSome
      = (tentar_inserir_no_bloco_aux sb' f' nome tipo' nec bytes offset
        fuel).isSome := by
  intro fuel
  induction fuel with
  | zero => intro off; rfl
  | succ m ih =>
    intro off
    simp only [tentar_inserir_no_bloco_aux]
    rw [hbs]
    by_cases h1 : calcular_tamanho_do_bloco sb ≤ off
    · rw [if_pos h1, if_pos h1]
    · rw [if_neg h1, if_neg h1]
      by_cases h2 : lerU16 bytes (off + 4) = 0
      · rw [if_pos h2, if_pos h2]
      · rw [if_neg h2, if_neg h2]
        by_cases h3 : calcular_tamanho_do_bloco sb
            ≤ off + lerU16 bytes (off + 4)
        · rw [if_pos h3, if_pos h3]
          by_cases h4 : (nec : Int) ≤ (lerU16 bytes (off + 4) : Int)
              - (rec_len_real (bytes.getD (off + 6) 0) : Int)
          · rw [if_pos h4, if_pos h4]
            rfl
          · rw [if_neg h4, if_neg h4]
            exact ih (off + lerU16 bytes (off + 4))
        · rw [if_neg h3, if_neg h3]
          exact ih (off + lerU16 bytes (off + 4))

theorem tentar_isSome (s s' : Estado) (b f f' : Nat) (nome : List Nat)
    (tipo tipo' nec : Nat)
    (hsb : calcular_tamanho_do_bloco s'.sb = calcular_tamanho_do_bloco s.sb)
    (hb : s'.blocos b = s.blocos b) :
    (tentar_inserir_no_bloco s' b f' nome tipo' nec).isSome
      = (tentar_inserir_no_bloco s b f nome tipo nec).isSome := by
  simp only [tentar_inserir_no_bloco]
  by_cases h0 : b = 0
  · rw [if_pos h0, if_pos h0]
  · rw [if_neg h0, if_neg h0]
    rw [show ler_bloco s' b = ler_bloco s b from hb, hsb]
    have hts := tentar_aux_isSome s.sb s'.sb f f' nome tipo tipo' nec
      (ler_bloco s b) hsb (calcular_tamanho_do_bloco s.sb + 1) 0
    cases hx : tentar_inserir_no_bloco_aux s'.sb f' nome tipo' nec
        (ler_bloco s b) 0 (calcular_tamanho_do_bloco s.sb + 1) with
    | some bytes =>
      cases hy : tentar_inserir_no_bloco_aux s.sb f nome tipo nec
          (ler_bloco s b) 0 (calcular_tamanho_do_bloco s.sb + 1) with
      | some bytes2 => rfl
      | none => rw [hx, hy] at hts; simp at hts
    | none =>
      cases hy : tentar_inserir_no_bloco_aux s.sb f nome tipo nec
          (ler_bloco s b) 0 (calcular_tamanho_do_bloco s.sb + 1) with
      | some bytes2 => rw [hx, hy] at hts; simp at hts
      | none => rfl

theorem fase1_blocos_isSome (s s' : Estado) (f f' : Nat) (nome : List Nat)
    (tipo tipo' nec : Nat)
    (hsb : calcular_tamanho_do_bloco s'.sb
      = calcular_tamanho_do_bloco s.sb) :
    ∀ bl : List Nat, (∀ b ∈ bl, b ≠ 0 → s'.blocos b = s.blocos b) →
      (fase1_blocos s' f' nome tipo' nec bl).isSome
        = (fase1_blocos s f nome tipo nec bl).isSome := by
  intro bl
  induction bl with
  | nil => intro _; rfl
  | cons b rest ih =>
    intro hbl
    simp only [fase1_blocos]
    by_cases hb0 : b = 0
    · subst hb0
      simp only [tentar_inserir_no_bloco, if_pos rfl]
      exact ih (fun b' hb' => hbl b' (List.mem_cons_of_mem _ hb'))
    · have hts := tentar_isSome s s' b f f' nome tipo tipo' nec hsb
        (hbl b (List.mem_cons_self b rest) hb0)
      cases hx : tentar_inserir_no_bloco s' b f' nome tipo' nec with
      | some s2 =>
        cases hy : tentar_inserir_no_bloco s b f nome tipo nec with
        | some s3 => rfl
        | none => rw [hx, hy] at hts; simp at hts
      | none =>
        cases hy : tentar_inserir_no_bloco s b f nome tipo nec with
        | some s3 => rw [hx, hy] at hts; simp at hts
        | none =>
          exact ih (fun b' hb' => hbl b' (List.mem_cons_of_mem _ hb'))

/-- A phase-1 success only writes a data block: superblock, GDT and
inode map are untouched. -/
theorem fase1_blocos_estado (s : Estado) (f : Nat) (nome : List Nat)
    (tipo nec : Nat) :
    ∀ (bl : List Nat) (s2 : Estado),
      fase1_blocos s f nome tipo nec bl = some s2 →
      s2.sb = s.sb ∧ s2.gdt = s.gdt ∧ s2.inodes = s.inodes := by
  intro bl
  induction bl with
  | nil => intro s2 h; exact absurd h (by simp [fase1_blocos])
  | cons b rest ih =>
    intro s2 h
    rw [fase1_blocos] at h
    split at h
    · rename_i s3 hs3
      have hs := Option.some.inj h
      subst hs
      simp only [tentar_inserir_no_bloco] at hs3
      split at hs3
      · exact absurd hs3 (by simp)
      · split at hs3
        · rename_i bytes hbytes
          have h2 := Option.some.inj hs3
          subst h2
          exact ⟨escrever_bloco_sb s b bytes, escrever_bloco_gdt s b bytes,
            escrever_bloco_inodes s b bytes⟩
        · exact absurd hs3 (by simp)
    · exact ih s2 h

theorem remover_entrada_em_bloco_estado (s : Estado) (b : Nat)
    (nome : List Nat) :
    ((remover_entrada_em_bloco s b nome).1 = 0 ∨
      (remover_entrada_em_bloco s b nome).1 = 1) ∧
    (remover_entrada_em_bloco s b nome).2.sb = s.sb ∧
    (remover_entrada_em_bloco s b nome).2.gdt = s.gdt ∧
    (remover_entrada_em_bloco s b nome).2.inodes = s.inodes ∧
    ∀ n, n ≠ b →
      (remover_entrada_em_bloco s b nome).2.blocos n = s.blocos n := by
  simp only [remover_entrada_em_bloco]
  split
  · rename_i bytes hbytes
    exact ⟨Or.inr rfl, escrever_bloco_sb s b bytes,
      escrever_bloco_gdt s b bytes, escrever_bloco_inodes s b bytes,
      fun n hn => escrever_bloco_blocos_ne s b bytes n hn⟩
  · exact ⟨Or.inl rfl, rfl, rfl, rfl, fun _ _ => rfl⟩

theorem remover_percorrer_blocos_estado (s : Estado) (nome : List Nat) :
    ∀ bl : List Nat,
      ((remover_percorrer_blocos s nome bl).1 = 0 ∨
        (remover_percorrer_blocos s nome bl).1 = 1) ∧
      (remover_percorrer_blocos s nome bl).2.sb = s.sb ∧
      (remover_percorrer_blocos s nome bl).2.gdt = s.gdt ∧
      (remover_percorrer_blocos s nome bl).2.inodes = s.inodes ∧
      ∀ n, (∀ b ∈ bl, b = 0 ∨ n ≠ b) →
        (remover_percorrer_blocos s nome bl).2.blocos n = s.blocos n := by
  intro bl
  induction bl with
  | nil => exact ⟨Or.inl rfl, rfl, rfl, rfl, fun _ _ => rfl⟩
  | cons b rest ih =>
    simp only [remover_percorrer_blocos]
    by_cases hb : b = 0
    · rw [if_pos hb]
      obtain ⟨st, h1, h2, h3, h4⟩ := ih
      exact ⟨st, h1, h2, h3,
        fun n hn => h4 n (fun b' hmem => hn b' (List.mem_cons_of_mem _ hmem))⟩
    · rw [if_neg hb]
      obtain ⟨st0, e1, e2, e3, e4⟩ := remover_entrada_em_bloco_estado s b nome
      by_cases hst : (remover_entrada_em_bloco s b nome).1 ≠ 0
      · rw [if_pos hst]
        refine ⟨st0, e1, e2, e3, fun n hn => e4 n ?_⟩
        rcases hn b (List.mem_cons_self b rest) with h | h
        · exact absurd h hb
        · exact h
      · rw [if_neg hst]
        obtain ⟨st, h1, h2, h3, h4⟩ := ih
        exact ⟨st, h1, h2, h3,
          fun n hn => h4 n (fun b' hmem => hn b' (List.mem_cons_of_mem _ hmem))⟩

/-- For a parent without indirect blocks, `remover_entrada_diretorio`
reduces to the direct-block walk. -/
theorem remover_direto (s : Estado) (pai : inode) (nome : List Nat)
    (h12 : pai.block.getD 12 0 = 0) (h13 : pai.block.getD 13 0 = 0) :
    ((remover_percorrer_blocos s nome
        ((List.range 12).map (fun i => pai.block.getD i 0))).1 = 1 →
      remover_entrada_diretorio s pai nome
        = (0, (remover_percorrer_blocos s nome
            ((List.range 12).map (fun i => pai.block.getD i 0))).2)) ∧
    ((remover_percorrer_blocos s nome
        ((List.range 12).map (fun i => pai.block.getD i 0))).1 = 0 →
      remover_entrada_diretorio s pai nome = (-1, s)) := by
  simp only [remover_entrada_diretorio]
  constructor
  · intro h1
    rw [if_pos (show (remover_percorrer_blocos s nome
        ((List.range 12).map (fun i => pai.block.getD i 0))).1 ≠ 0 by
      rw [h1]; exact one_ne_zero), if_pos h1]
  · intro h0
    rw [if_neg (show ¬ (remover_percorrer_blocos s nome
        ((List.range 12).map (fun i => pai.block.getD i 0))).1 ≠ 0 by
      rw [h0]; simp)]
    rw [if_neg (show ¬ pai.block.getD 12 0 ≠ 0 by rw [h12]; simp)]
    rw [if_neg (show ¬ ((0 : Int), s).1 ≠ 0 by simp)]
    rw [if_neg (show ¬ pai.block.getD 13 0 ≠ 0 by rw [h13]; simp)]
    rw [if_neg (show ¬ ((0 : Int), s).1 = 1 by simp)]

/-- A phase-1 success writes only blocks of its list. -/
theorem fase1_blocos_blocos (s : Estado) (f : Nat) (nome : List Nat)
    (tipo nec : Nat) :
    ∀ (bl : List Nat) (s2 : Estado),
      fase1_blocos s f nome tipo nec bl = some s2 →
      ∀ n, (∀ b ∈ bl, b = 0 ∨ n ≠ b) → s2.blocos n = s.blocos n := by
  intro bl
  induction bl with
  | nil => intro s2 h; exact absurd h (by simp [fase1_blocos])
  | cons b rest ih =>
    intro s2 h n hn
    rw [fase1_blocos] at h
    split at h
    · rename_i s3 hs3
      have hs := Option.some.inj h
      subst hs
      simp only [tentar_inserir_no_bloco] at hs3
      split at hs3
      · exact absurd hs3 (by simp)
      · rename_i hb0
        split at hs3
        · rename_i bytes hbytes
          have h2 := Option.some.inj hs3
          subst h2
          rcases hn b (List.mem_cons_self b rest) with hc | hc
          · exact absurd hc hb0
          · exact escrever_bloco_blocos_ne s b bytes n hc
        · exact absurd hs3 (by simp)
    · exact ih s2 h n (fun b' hb' => hn b' (List.mem_cons_of_mem _ hb'))

theorem escrever_bloco_valido_congr (sb sb' : superbloco) (n : Nat)
    (h : sb'.blocks_count = sb.blocks_count) :
    escrever_bloco_valido sb' n = escrever_bloco_valido sb n := by
  simp only [escrever_bloco_valido, h]

theorem getD_replicate_set0 (b : Nat) :
    ((List.replicate 15 (0 : Nat)).set 0 b).getD 0 0 = b := rfl
